import Mathlib

/-!
# MCP message types (`mcp/types.go`): the params container and the JSON envelope

A verification development over a shallow embedding of `mcp/types.go`.

The file declares Go structs with `json` tags and one hand-written codec, the
`MarshalJSON`/`UnmarshalJSON` pair of `NotificationParams`.  Everything else is
encoded and decoded by `encoding/json` from the struct tags.

Conventions of the embedding.

* A byte buffer holding JSON is represented by the document it spells
  (`Value`), members of an object in document order; a buffer that is not valid
  JSON is `Bytes.malformed`.  Whitespace, string escapes and the text form of
  numbers are below this level.
* The dynamic values `encoding/json` stores in an `interface{}` are the same
  trees: `nil` is `Value.null`, a `map[string]interface{}` is `Value.obj`, its
  entries given as an association list.  A Go map has pairwise distinct keys;
  theorems that rely on it carry that as a hypothesis on the key list.
* JSON numbers are integer literals written in digits; fractions and exponents
  are below this level, and `1e400` stands for the integer `10 ^ 400`.  The
  generic decoder stores a number as a `float64`: `toFloat64` rounds the
  integer to 53 significant bits, to nearest and ties to even, and fails beyond
  the range of `float64`, as `strconv.ParseFloat` does.  A number held in an
  `interface{}` is written back in digits: a `float64` as a literal that reads
  as the same `float64`, an integer put there by Go code exactly.
* The generic decoder (`toGo`) turns a document into the value it stores in an
  `interface{}`: numbers as above, an object as a map, so that of the members
  that repeat a key the last one is kept, at every depth.  A number out of
  range is reported as `UnmarshalTypeError` once decoding is over, nil being
  stored in its place.
* A key of an object selects a struct field by its exact JSON name, or else up
  to case folding, as `encoding/json` does; the hand-written codec compares keys
  exactly.
* A nil map and an empty non-nil map are different values: `none` and `some []`;
  so are a nil pointer or slice and a non-nil one.
* An embedded struct is a field named after its type; its JSON names are promoted
  to the embedding struct, in declaration order.
* The type `Role` is declared outside `types.go`; it is taken as a string type.
* A Go method with a pointer receiver and an `error` result returns the
  receiver after the call together with `Option JSONError` (`none` is `nil`).
-/

namespace MCP

/-! ## JSON documents and Go maps -/

/-- JSON document tree, also the dynamic value held by an `interface{}` -/
inductive Value where
  | null
  | bool (b : Bool)
  | num (n : Int)
  | str (s : String)
  | arr (xs : List Value)
  | obj (kvs : List (String × Value))

mutual
/-- Structural equality test on documents -/
def Value.beq : Value → Value → Bool
  | .null, .null => true
  | .bool a, .bool b => a == b
  | .num a, .num b => a == b
  | .str a, .str b => a == b
  | .arr a, .arr b => Value.beqList a b
  | .obj a, .obj b => Value.beqMembers a b
  | _, _ => false
/-- Structural equality test on arrays of documents -/
def Value.beqList : List Value → List Value → Bool
  | [], [] => true
  | a :: as, b :: bs => Value.beq a b && Value.beqList as bs
  | _, _ => false
/-- Structural equality test on member lists -/
def Value.beqMembers : List (String × Value) → List (String × Value) → Bool
  | [], [] => true
  | (k, a) :: as, (l, b) :: bs => k == l && Value.beq a b && Value.beqMembers as bs
  | _, _ => false
end

/-! Decidable equality of documents, from the equality test. -/

mutual
theorem Value.beq_iff : ∀ (a b : Value), Value.beq a b = true ↔ a = b
  | .null, b => by cases b <;> simp [Value.beq]
  | .bool x, b => by cases b <;> simp [Value.beq]
  | .num x, b => by cases b <;> simp [Value.beq]
  | .str x, b => by cases b <;> simp [Value.beq]
  | .arr xs, b => by
    cases b <;> simp [Value.beq]
    exact Value.beqList_iff xs _
  | .obj xs, b => by
    cases b <;> simp [Value.beq]
    exact Value.beqMembers_iff xs _
theorem Value.beqList_iff : ∀ (a b : List Value), Value.beqList a b = true ↔ a = b
  | [], b => by cases b <;> simp [Value.beqList]
  | x :: xs, b => by
    cases b with
    | nil => simp [Value.beqList]
    | cons y ys => simp [Value.beqList, Value.beq_iff x y, Value.beqList_iff xs ys]
theorem Value.beqMembers_iff :
    ∀ (a b : List (String × Value)), Value.beqMembers a b = true ↔ a = b
  | [], b => by cases b <;> simp [Value.beqMembers]
  | (k, x) :: xs, b => by
    cases b with
    | nil => simp [Value.beqMembers]
    | cons y ys =>
      obtain ⟨l, y⟩ := y
      simp [Value.beqMembers, Value.beq_iff x y, Value.beqMembers_iff xs ys, and_assoc]
end

instance : DecidableEq Value := fun a b =>
  decidable_of_iff (Value.beq a b = true) (Value.beq_iff a b)

instance : Inhabited Value := ⟨Value.null⟩

/-- Entries of a Go `map[string]T`, as an association list -/
abbrev GoMap (α : Type) := List (String × α)

/-- Map read `m[k]` with the comma-ok result: the value of the first entry keyed `k` -/
def mapGet {α : Type} : GoMap α → String → Option α
  | [], _ => none
  | (k, v) :: rest, key => if k = key then some v else mapGet rest key

/-- Map write `m[k] = v`: overwrite the entry keyed `k`, or add one -/
def mapSet {α : Type} : GoMap α → String → α → GoMap α
  | [], key, v => [(key, v)]
  | (k, w) :: rest, key, v =>
    if k = key then (key, v) :: rest else (k, w) :: mapSet rest key v

/-- Keys of a map -/
def mapKeys {α : Type} (m : GoMap α) : List String := m.map Prod.fst

/-- Errors of `encoding/json` -/
inductive JSONError where
  | SyntaxError
  | UnmarshalTypeError
  | MarshalerError
  deriving DecidableEq, Repr

/-- Byte buffer handed to a decoder: not a JSON text, or the document it spells -/
inductive Bytes where
  | malformed
  | text (doc : Value)
  deriving DecidableEq

/-- The saved error of a decoding: the first one is kept -/
def firstError (saved e : Option JSONError) : Option JSONError :=
  match saved with
  | some x => some x
  | none => e

/-- Number of binary digits of `n`, found in at most `fuel` halvings -/
def bitLenAux : Nat → Nat → Nat
  | 0, _ => 0
  | fuel + 1, n => if n = 0 then 0 else bitLenAux fuel (n / 2) + 1

/-- Number of binary digits of `n` -/
def bitLen (n : Nat) : Nat := bitLenAux n n

/-- Rounding of a magnitude to 53 significant binary digits, to nearest, a tie
going to the even significand: the magnitude of the `float64` nearest to `n` -/
def roundMag (n : Nat) : Nat :=
  if n < 2 ^ 53 then n
  else
    (if 2 ^ (bitLen n - 53) < 2 * (n % 2 ^ (bitLen n - 53))
        ∨ (2 * (n % 2 ^ (bitLen n - 53)) = 2 ^ (bitLen n - 53)
          ∧ (n / 2 ^ (bitLen n - 53)) % 2 = 1)
      then n / 2 ^ (bitLen n - 53) + 1
      else n / 2 ^ (bitLen n - 53)) * 2 ^ (bitLen n - 53)

/-- The call `strconv.ParseFloat(s, 64)` on the integer literal `n`: the nearest
`float64`, or `none` (a range error) when that is not finite, which is when the
rounded magnitude needs more than 1024 binary digits -/
def toFloat64 (n : Int) : Option Int :=
  if bitLen (roundMag n.natAbs) ≤ 1024 then
    some (if n < 0 then -(roundMag n.natAbs : Int) else (roundMag n.natAbs : Int))
  else none

mutual
/-- The value the generic decoder makes of a document nested in an `interface{}`
(`valueInterface`), with the first error it saves: a number becomes a `float64`,
or nil with `UnmarshalTypeError` when it is out of range; an array is decoded
element by element; an object becomes a fresh map filled member by member -/
def toGo : Value → Value × Option JSONError
  | .null => (.null, none)
  | .bool b => (.bool b, none)
  | .num n =>
    match toFloat64 n with
    | some m => (.num m, none)
    | none => (.null, some .UnmarshalTypeError)
  | .str s => (.str s, none)
  | .arr xs => (.arr (toGoList xs).1, (toGoList xs).2)
  | .obj kvs => (.obj (toGoMembers kvs []).1, (toGoMembers kvs []).2)
/-- The elements of an array, decoded in order -/
def toGoList : List Value → List Value × Option JSONError
  | [] => ([], none)
  | x :: xs => ((toGo x).1 :: (toGoList xs).1, firstError (toGo x).2 (toGoList xs).2)
/-- The members of an object written one after the other into the map `m`, each
value decoded afresh: a key that comes again overwrites the entry -/
def toGoMembers : List (String × Value) → GoMap Value → GoMap Value × Option JSONError
  | [], m => (m, none)
  | (k, v) :: rest, m =>
    ((toGoMembers rest (mapSet m k (toGo v).1)).1,
      firstError (toGo v).2 (toGoMembers rest (mapSet m k (toGo v).1)).2)
end

mutual
/-- Whether every number of a document is within the range of `float64` -/
def Value.inRange : Value → Bool
  | .num n => (toFloat64 n).isSome
  | .arr xs => Value.inRangeList xs
  | .obj kvs => Value.inRangeMembers kvs
  | _ => true
/-- Whether every number of the elements of an array is within the range -/
def Value.inRangeList : List Value → Bool
  | [] => true
  | x :: xs => Value.inRange x && Value.inRangeList xs
/-- Whether every number of the members of an object is within the range -/
def Value.inRangeMembers : List (String × Value) → Bool
  | [] => true
  | (_, v) :: rest => Value.inRange v && Value.inRangeMembers rest
end

/-- The generic value of a document: what the decoder stores for it in an
`interface{}` -/
def Value.decoded (v : Value) : Value := (toGo v).1

/-- The members of an object, each value decoded -/
def decodedMembers (kvs : List (String × Value)) : List (String × Value) :=
  kvs.map (fun kv => (kv.1, kv.2.decoded))

/-- The value of the last member of an object keyed `k` -/
def lastValue (kvs : List (String × Value)) (k : String) : Option Value :=
  mapGet kvs.reverse k

/-- A map as the generic decoder builds them: distinct keys, and every value one
that decoding leaves as it is -/
def GoodMap (m : GoMap Value) : Prop :=
  (mapKeys m).Nodup ∧ ∀ kv ∈ m, toGo kv.2 = (kv.2, none)

/-- Generic `json.Unmarshal(data, &m)` with `var m map[string]interface{}`:
a syntax error for a malformed buffer, `m` left nil for `null`, a fresh map
filled member by member for an object, each value decoded as for an
`interface{}`, and a type error for any other document.  A number out of range
inside an object leaves the map filled and is the error returned -/
def jsonUnmarshalMap : Bytes → Option (GoMap Value) × Option JSONError
  | .malformed => (none, some .SyntaxError)
  | .text .null => (none, none)
  | .text (.obj kvs) => (some (toGoMembers kvs []).1, (toGoMembers kvs []).2)
  | .text _ => (none, some .UnmarshalTypeError)

/-- Generic `json.Marshal(m)` of a `map[string]interface{}` holding JSON
values: the object with the entries of `m`; it cannot fail on such values -/
def jsonMarshalMap (m : GoMap Value) : Bytes × Option JSONError :=
  (.text (.obj m), none)

/-! ## `NotificationParams` and its hand-written codec -/

/-- The struct `NotificationParams`: `none` is a nil map -/
structure NotificationParams where
  Meta : Option (GoMap Value)
  AdditionalFields : Option (GoMap Value)
  deriving DecidableEq

/-- Zero value of `NotificationParams` -/
def NotificationParams.zero : NotificationParams := ⟨none, none⟩

/-- Body of the loop `for k, v := range p.AdditionalFields` of `MarshalJSON` -/
def marshalStep (m : GoMap Value) (kv : String × Value) : GoMap Value :=
  if kv.1 ≠ "_meta" then mapSet m kv.1 kv.2 else m

/-- The map `m` that `MarshalJSON` builds before handing it to `json.Marshal` -/
def NotificationParams.marshalMap (p : NotificationParams) : GoMap Value :=
  let m : GoMap Value := []
  let m := match p.Meta with
    | some meta => mapSet m "_meta" (.obj meta)
    | none => m
  (p.AdditionalFields.getD []).foldl marshalStep m

/-- Method `func (p NotificationParams) MarshalJSON() ([]byte, error)` -/
def NotificationParams.MarshalJSON (p : NotificationParams) : Bytes × Option JSONError :=
  jsonMarshalMap p.marshalMap

/-- Body of the loop `for k, v := range m` of `UnmarshalJSON`, on the pair
`(p.Meta, p.AdditionalFields)`, both maps being non-nil at that point -/
def unmarshalStep (s : GoMap Value × GoMap Value) (kv : String × Value) :
    GoMap Value × GoMap Value :=
  if kv.1 = "_meta" then
    match kv.2 with
    | .obj meta => (meta, s.2)
    | _ => s
  else (s.1, mapSet s.2 kv.1 kv.2)

/-- Method `func (p *NotificationParams) UnmarshalJSON(data []byte) error`:
the receiver after the call and the returned error -/
def NotificationParams.UnmarshalJSON (p : NotificationParams) (data : Bytes) :
    NotificationParams × Option JSONError :=
  match jsonUnmarshalMap data with
  | (_, some err) => (p, some err)
  | (m, none) =>
    let meta := p.Meta.getD []
    let fields := p.AdditionalFields.getD []
    let s := (m.getD []).foldl unmarshalStep (meta, fields)
    (⟨some s.1, some s.2⟩, none)

/-- Decode into a fresh value -/
def decode (data : Bytes) : NotificationParams × Option JSONError :=
  NotificationParams.zero.UnmarshalJSON data

/-! ## `encoding/json` on the struct types of the file

The structs below have no codec of their own: `json.Unmarshal` and `json.Marshal`
work from the field tags.  Decoding walks the members of the object in document
order; a key selects the field whose name it equals, or else the first field
whose name it equals up to case folding; a member that selects no field is
skipped; a member of the wrong JSON type leaves the field as it is and is
reported at the end (the first such error), while decoding goes on. -/

/-- Case folding of one character of a key.  Against the ASCII field names of
this file it agrees with `encoding/json`: a lower-case ASCII letter folds to upper
case, the long s (U+017F) to `S`, the Kelvin sign (U+212A) to `K`, and no other
character folds to an ASCII one -/
def foldRune (c : Char) : Char :=
  if 'a' ≤ c ∧ c ≤ 'z' then Char.ofNat (c.toNat - 32)
  else if c = Char.ofNat 0x17F then 'S'
  else if c = Char.ofNat 0x212A then 'K'
  else c

/-- Case folding of a key -/
def foldName (s : String) : String := String.mk (s.data.map foldRune)

/-- The field a key selects among the JSON names `fields` of a struct -/
def findField (fields : List String) (key : String) : Option String :=
  if key ∈ fields then some key
  else fields.find? (fun f => foldName f = foldName key)

/-- One member of an object decoded into a struct with JSON names `fields`,
`store f doc v` decoding the document `doc` into the field named `f` of `v`; the
state is the struct so far and the saved error -/
def decodeStep {σ : Type} (fields : List String)
    (store : String → Value → σ → σ × Option JSONError) (s : σ × Option JSONError)
    (kv : String × Value) : σ × Option JSONError :=
  match findField fields kv.1 with
  | some f => ((store f kv.2 s.1).1, firstError s.2 (store f kv.2 s.1).2)
  | none => s

/-- The member loop of `encoding/json` for a struct target -/
def decodeMembers {σ : Type} (fields : List String)
    (store : String → Value → σ → σ × Option JSONError) (kvs : GoMap Value) (v : σ) :
    σ × Option JSONError :=
  kvs.foldl (decodeStep fields store) (v, none)

/-- Decoding into a `string` field -/
def storeString (cur : String) : Value → String × Option JSONError
  | .str s => (s, none)
  | .null => (cur, none)
  | _ => (cur, some .UnmarshalTypeError)

/-- Decoding into a `bool` field -/
def storeBool (cur : Bool) : Value → Bool × Option JSONError
  | .bool b => (b, none)
  | .null => (cur, none)
  | _ => (cur, some .UnmarshalTypeError)

/-- Decoding into an `int` field (64 bits) -/
def storeInt (cur : Int) : Value → Int × Option JSONError
  | .num n =>
    if -9223372036854775808 ≤ n ∧ n ≤ 9223372036854775807 then (n, none)
    else (cur, some .UnmarshalTypeError)
  | .null => (cur, none)
  | _ => (cur, some .UnmarshalTypeError)

/-- Decoding into an `interface{}` field that holds `cur`: the generic value of
the document replaces `cur`, `nil` for `null`; a number out of range is a type
error and leaves `cur` in the field -/
def storeInterface (cur : Value) : Value → Value × Option JSONError
  | .num n =>
    match toFloat64 n with
    | some m => (.num m, none)
    | none => (cur, some .UnmarshalTypeError)
  | doc => toGo doc

/-- Decoding into a `map[string]interface{}` field: the members of an object are
written into the map (made when nil), each value decoded as for an
`interface{}`; `null` sets the map to nil -/
def storeMap (cur : Option (GoMap Value)) : Value → Option (GoMap Value) × Option JSONError
  | .obj kvs => (some (toGoMembers kvs (cur.getD [])).1, (toGoMembers kvs (cur.getD [])).2)
  | .null => (none, none)
  | _ => (cur, some .UnmarshalTypeError)

/-- Decoding into a field of struct type, `members` being its member loop -/
def storeStruct {σ : Type} (members : GoMap Value → σ → σ × Option JSONError) (cur : σ) :
    Value → σ × Option JSONError
  | .obj kvs => members kvs cur
  | .null => (cur, none)
  | _ => (cur, some .UnmarshalTypeError)

/-- Decoding into a field of pointer-to-struct type: `null` sets the pointer to
nil, any other document allocates the struct (value `zero`) when the pointer is
nil before the document is looked at -/
def storePointer {σ : Type} (zero : σ) (members : GoMap Value → σ → σ × Option JSONError)
    (cur : Option σ) : Value → Option σ × Option JSONError
  | .obj kvs => (some (members kvs (cur.getD zero)).1, (members kvs (cur.getD zero)).2)
  | .null => (none, none)
  | _ => (some (cur.getD zero), some .UnmarshalTypeError)

/-- Generic `json.Unmarshal(data, &v)` for a struct `v` with member loop `members` -/
def unmarshalStruct {σ : Type} (members : GoMap Value → σ → σ × Option JSONError) (v : σ) :
    Bytes → σ × Option JSONError
  | .malformed => (v, some .SyntaxError)
  | .text .null => (v, none)
  | .text (.obj kvs) => members kvs v
  | .text _ => (v, some .UnmarshalTypeError)

/-- Generic `json.Unmarshal(data, &v)` for `var v interface{}` holding nil, the
type of `JSONRPCMessage`: a JSON document of any shape is taken as its generic
value -/
def unmarshalInterface : Bytes → Value × Option JSONError
  | .malformed => (.null, some .SyntaxError)
  | .text doc => storeInterface .null doc

/-! ## `Request` and `Notification` -/

/-- The anonymous struct behind `Request.Params.Meta` -/
structure RequestMeta where
  ProgressToken : Value
  deriving DecidableEq

/-- The anonymous struct `Request.Params` -/
structure RequestParams where
  Meta : Option RequestMeta
  deriving DecidableEq

/-- The struct `Request` -/
structure Request where
  Method : String
  Params : RequestParams
  deriving DecidableEq

/-- Zero value of `Request` -/
def Request.zero : Request := ⟨"", ⟨none⟩⟩

/-- Field decoding of the struct under `_meta` -/
def RequestMeta.store (f : String) (doc : Value) (m : RequestMeta) :
    RequestMeta × Option JSONError :=
  if f = "progressToken" then
    (⟨(storeInterface m.ProgressToken doc).1⟩, (storeInterface m.ProgressToken doc).2)
  else (m, none)

/-- Member loop of the struct under `_meta` -/
def RequestMeta.members : GoMap Value → RequestMeta → RequestMeta × Option JSONError :=
  decodeMembers ["progressToken"] RequestMeta.store

/-- Field decoding of `Request.Params` -/
def RequestParams.store (f : String) (doc : Value) (p : RequestParams) :
    RequestParams × Option JSONError :=
  if f = "_meta" then
    (⟨(storePointer ⟨.null⟩ RequestMeta.members p.Meta doc).1⟩,
      (storePointer ⟨.null⟩ RequestMeta.members p.Meta doc).2)
  else (p, none)

/-- Member loop of `Request.Params` -/
def RequestParams.members : GoMap Value → RequestParams → RequestParams × Option JSONError :=
  decodeMembers ["_meta"] RequestParams.store

/-- Field decoding of `Request` -/
def Request.store (f : String) (doc : Value) (r : Request) : Request × Option JSONError :=
  if f = "method" then (⟨(storeString r.Method doc).1, r.Params⟩, (storeString r.Method doc).2)
  else if f = "params" then
    (⟨r.Method, (storeStruct RequestParams.members r.Params doc).1⟩,
      (storeStruct RequestParams.members r.Params doc).2)
  else (r, none)

/-- Member loop of `Request` -/
def Request.members : GoMap Value → Request → Request × Option JSONError :=
  decodeMembers ["method", "params"] Request.store

/-- Generic `json.Unmarshal(data, &r)` for `r Request` -/
def Request.unmarshal (r : Request) (data : Bytes) : Request × Option JSONError :=
  unmarshalStruct Request.members r data

/-- Document of the struct under `_meta`: `progressToken` is left out when nil -/
def RequestMeta.encode (m : RequestMeta) : Value :=
  .obj (if m.ProgressToken = .null then [] else [("progressToken", m.ProgressToken)])

/-- Document of `Request.Params`: `_meta` is left out when the pointer is nil -/
def RequestParams.encode (p : RequestParams) : Value :=
  .obj (match p.Meta with
    | some m => [("_meta", m.encode)]
    | none => [])

/-- Generic `json.Marshal(r)` for `r Request`; `omitempty` never leaves out a
field of struct type, so `params` is always written -/
def Request.marshal (r : Request) : Bytes × Option JSONError :=
  (.text (.obj [("method", .str r.Method), ("params", r.Params.encode)]), none)

/-- The struct `Notification` -/
structure Notification where
  Method : String
  Params : NotificationParams
  deriving DecidableEq

/-- Zero value of `Notification` -/
def Notification.zero : Notification := ⟨"", NotificationParams.zero⟩

/-- Member loop of `Notification`.  The `params` member goes to
`NotificationParams.UnmarshalJSON`, also when it is `null`; an error returned by
that method ends the decoding at once -/
def Notification.members :
    GoMap Value → Notification → Option JSONError → Notification × Option JSONError
  | [], n, saved => (n, saved)
  | (k, doc) :: rest, n, saved =>
    match findField ["method", "params"] k with
    | some f =>
      if f = "method" then
        Notification.members rest ⟨(storeString n.Method doc).1, n.Params⟩
          (firstError saved (storeString n.Method doc).2)
      else if f = "params" then
        match n.Params.UnmarshalJSON (.text doc) with
        | (p, some err) => (⟨n.Method, p⟩, some err)
        | (p, none) => Notification.members rest ⟨n.Method, p⟩ saved
      else Notification.members rest n saved
    | none => Notification.members rest n saved

/-- Generic `json.Unmarshal(data, &n)` for `n Notification` -/
def Notification.unmarshal (n : Notification) : Bytes → Notification × Option JSONError
  | .malformed => (n, some .SyntaxError)
  | .text .null => (n, none)
  | .text (.obj kvs) => Notification.members kvs n none
  | .text _ => (n, some .UnmarshalTypeError)

/-- Generic `json.Marshal(n)` for `n Notification`: `params` is what
`NotificationParams.MarshalJSON` returns -/
def Notification.marshal (n : Notification) : Bytes × Option JSONError :=
  match n.Params.MarshalJSON with
  | (.text doc, none) => (.text (.obj [("method", .str n.Method), ("params", doc)]), none)
  | (_, _) => (.malformed, some .MarshalerError)

/-! ## Capabilities -/

/-- The anonymous struct with the one flag `listChanged`, the type behind
`ClientCapabilities.Roots`, `ServerCapabilities.Prompts` and
`ServerCapabilities.Tools` -/
structure ListChangedFlag where
  ListChanged : Bool
  deriving DecidableEq

/-- The anonymous struct behind `ServerCapabilities.Resources` -/
structure ResourcesFlags where
  Subscribe : Bool
  ListChanged : Bool
  deriving DecidableEq

/-- The struct `ClientCapabilities`; `Sampling` points to an empty struct -/
structure ClientCapabilities where
  Experimental : Option (GoMap Value)
  Roots : Option ListChangedFlag
  Sampling : Option Unit
  deriving DecidableEq

/-- The struct `ServerCapabilities`; `Logging` points to an empty struct -/
structure ServerCapabilities where
  Experimental : Option (GoMap Value)
  Logging : Option Unit
  Prompts : Option ListChangedFlag
  Resources : Option ResourcesFlags
  Tools : Option ListChangedFlag
  deriving DecidableEq

/-- Zero value of `ClientCapabilities` -/
def ClientCapabilities.zero : ClientCapabilities := ⟨none, none, none⟩

/-- Zero value of `ServerCapabilities` -/
def ServerCapabilities.zero : ServerCapabilities := ⟨none, none, none, none, none⟩

/-- Field decoding of the struct with the flag `listChanged` -/
def ListChangedFlag.store (f : String) (doc : Value) (c : ListChangedFlag) :
    ListChangedFlag × Option JSONError :=
  if f = "listChanged" then (⟨(storeBool c.ListChanged doc).1⟩, (storeBool c.ListChanged doc).2)
  else (c, none)

/-- Member loop of the struct with the flag `listChanged` -/
def ListChangedFlag.members :
    GoMap Value → ListChangedFlag → ListChangedFlag × Option JSONError :=
  decodeMembers ["listChanged"] ListChangedFlag.store

/-- Field decoding of the struct behind `Resources` -/
def ResourcesFlags.store (f : String) (doc : Value) (c : ResourcesFlags) :
    ResourcesFlags × Option JSONError :=
  if f = "subscribe" then
    (⟨(storeBool c.Subscribe doc).1, c.ListChanged⟩, (storeBool c.Subscribe doc).2)
  else if f = "listChanged" then
    (⟨c.Subscribe, (storeBool c.ListChanged doc).1⟩, (storeBool c.ListChanged doc).2)
  else (c, none)

/-- Member loop of the struct behind `Resources` -/
def ResourcesFlags.members : GoMap Value → ResourcesFlags → ResourcesFlags × Option JSONError :=
  decodeMembers ["subscribe", "listChanged"] ResourcesFlags.store

/-- Member loop of an empty struct: every member is skipped -/
def emptyStructMembers : GoMap Value → Unit → Unit × Option JSONError :=
  decodeMembers [] (fun _ _ u => (u, none))

/-- Field decoding of `ClientCapabilities` -/
def ClientCapabilities.store (f : String) (doc : Value) (c : ClientCapabilities) :
    ClientCapabilities × Option JSONError :=
  if f = "experimental" then
    (⟨(storeMap c.Experimental doc).1, c.Roots, c.Sampling⟩, (storeMap c.Experimental doc).2)
  else if f = "roots" then
    (⟨c.Experimental, (storePointer ⟨false⟩ ListChangedFlag.members c.Roots doc).1, c.Sampling⟩,
      (storePointer ⟨false⟩ ListChangedFlag.members c.Roots doc).2)
  else if f = "sampling" then
    (⟨c.Experimental, c.Roots, (storePointer () emptyStructMembers c.Sampling doc).1⟩,
      (storePointer () emptyStructMembers c.Sampling doc).2)
  else (c, none)

/-- JSON names of the fields of `ClientCapabilities` -/
def ClientCapabilities.fields : List String := ["experimental", "roots", "sampling"]

/-- Generic `json.Unmarshal(data, &c)` for `c ClientCapabilities` -/
def ClientCapabilities.unmarshal (c : ClientCapabilities) (data : Bytes) :
    ClientCapabilities × Option JSONError :=
  unmarshalStruct (decodeMembers ClientCapabilities.fields ClientCapabilities.store) c data

/-- Field decoding of `ServerCapabilities` -/
def ServerCapabilities.store (f : String) (doc : Value) (c : ServerCapabilities) :
    ServerCapabilities × Option JSONError :=
  if f = "experimental" then
    (⟨(storeMap c.Experimental doc).1, c.Logging, c.Prompts, c.Resources, c.Tools⟩,
      (storeMap c.Experimental doc).2)
  else if f = "logging" then
    (⟨c.Experimental, (storePointer () emptyStructMembers c.Logging doc).1, c.Prompts,
        c.Resources, c.Tools⟩,
      (storePointer () emptyStructMembers c.Logging doc).2)
  else if f = "prompts" then
    (⟨c.Experimental, c.Logging, (storePointer ⟨false⟩ ListChangedFlag.members c.Prompts doc).1,
        c.Resources, c.Tools⟩,
      (storePointer ⟨false⟩ ListChangedFlag.members c.Prompts doc).2)
  else if f = "resources" then
    (⟨c.Experimental, c.Logging, c.Prompts,
        (storePointer ⟨false, false⟩ ResourcesFlags.members c.Resources doc).1, c.Tools⟩,
      (storePointer ⟨false, false⟩ ResourcesFlags.members c.Resources doc).2)
  else if f = "tools" then
    (⟨c.Experimental, c.Logging, c.Prompts, c.Resources,
        (storePointer ⟨false⟩ ListChangedFlag.members c.Tools doc).1⟩,
      (storePointer ⟨false⟩ ListChangedFlag.members c.Tools doc).2)
  else (c, none)

/-- JSON names of the fields of `ServerCapabilities` -/
def ServerCapabilities.fields : List String :=
  ["experimental", "logging", "prompts", "resources", "tools"]

/-- Generic `json.Unmarshal(data, &c)` for `c ServerCapabilities` -/
def ServerCapabilities.unmarshal (c : ServerCapabilities) (data : Bytes) :
    ServerCapabilities × Option JSONError :=
  unmarshalStruct (decodeMembers ServerCapabilities.fields ServerCapabilities.store) c data

/-- Member `experimental`: left out (`omitempty`) when the map is nil or empty -/
def encodeExperimental : Option (GoMap Value) → GoMap Value
  | some (e :: rest) => [("experimental", .obj (e :: rest))]
  | _ => []

/-- Member for a pointer field with `omitempty`: left out when the pointer is nil -/
def encodePointer {σ : Type} (name : String) (enc : σ → Value) : Option σ → GoMap Value
  | some v => [(name, enc v)]
  | none => []

/-- Member for a `bool` field with `omitempty`: left out when false -/
def encodeFlag (name : String) (b : Bool) : GoMap Value :=
  if b then [(name, .bool true)] else []

/-- Document of the struct with the flag `listChanged` -/
def ListChangedFlag.encode (c : ListChangedFlag) : Value :=
  .obj (encodeFlag "listChanged" c.ListChanged)

/-- Document of the struct behind `Resources` -/
def ResourcesFlags.encode (c : ResourcesFlags) : Value :=
  .obj (encodeFlag "subscribe" c.Subscribe ++ encodeFlag "listChanged" c.ListChanged)

/-- Members of the document of a `ClientCapabilities` value -/
def ClientCapabilities.encode (c : ClientCapabilities) : GoMap Value :=
  encodeExperimental c.Experimental
    ++ encodePointer "roots" ListChangedFlag.encode c.Roots
    ++ encodePointer "sampling" (fun _ => Value.obj []) c.Sampling

/-- Generic `json.Marshal(c)` for `c ClientCapabilities` -/
def ClientCapabilities.marshal (c : ClientCapabilities) : Bytes × Option JSONError :=
  (.text (.obj c.encode), none)

/-- Members of the document of a `ServerCapabilities` value -/
def ServerCapabilities.encode (c : ServerCapabilities) : GoMap Value :=
  encodeExperimental c.Experimental
    ++ encodePointer "logging" (fun _ => Value.obj []) c.Logging
    ++ encodePointer "prompts" ListChangedFlag.encode c.Prompts
    ++ encodePointer "resources" ResourcesFlags.encode c.Resources
    ++ encodePointer "tools" ListChangedFlag.encode c.Tools

/-- Generic `json.Marshal(c)` for `c ServerCapabilities` -/
def ServerCapabilities.marshal (c : ServerCapabilities) : Bytes × Option JSONError :=
  (.text (.obj c.encode), none)

/-! ## Responses and errors -/

/-- Constant `JSONRPC_VERSION` -/
def JSONRPC_VERSION : String := "2.0"

/-- Constant `PARSE_ERROR` -/
def PARSE_ERROR : Int := -32700

/-- Constant `INVALID_REQUEST` -/
def INVALID_REQUEST : Int := -32600

/-- Constant `METHOD_NOT_FOUND` -/
def METHOD_NOT_FOUND : Int := -32601

/-- Constant `INVALID_PARAMS` -/
def INVALID_PARAMS : Int := -32602

/-- Constant `INTERNAL_ERROR` -/
def INTERNAL_ERROR : Int := -32603

/-- The struct `JSONRPCResponse` -/
structure JSONRPCResponse where
  JSONRPC : String
  ID : Value
  Result : Value
  deriving DecidableEq

/-- Zero value of `JSONRPCResponse` -/
def JSONRPCResponse.zero : JSONRPCResponse := ⟨"", .null, .null⟩

/-- Field decoding of `JSONRPCResponse` -/
def JSONRPCResponse.store (f : String) (doc : Value) (r : JSONRPCResponse) :
    JSONRPCResponse × Option JSONError :=
  if f = "jsonrpc" then
    (⟨(storeString r.JSONRPC doc).1, r.ID, r.Result⟩, (storeString r.JSONRPC doc).2)
  else if f = "id" then
    (⟨r.JSONRPC, (storeInterface r.ID doc).1, r.Result⟩, (storeInterface r.ID doc).2)
  else if f = "result" then
    (⟨r.JSONRPC, r.ID, (storeInterface r.Result doc).1⟩, (storeInterface r.Result doc).2)
  else (r, none)

/-- JSON names of the fields of `JSONRPCResponse` -/
def JSONRPCResponse.fields : List String := ["jsonrpc", "id", "result"]

/-- Generic `json.Unmarshal(data, &r)` for `r JSONRPCResponse` -/
def JSONRPCResponse.unmarshal (r : JSONRPCResponse) (data : Bytes) :
    JSONRPCResponse × Option JSONError :=
  unmarshalStruct (decodeMembers JSONRPCResponse.fields JSONRPCResponse.store) r data

/-- The anonymous struct `JSONRPCError.Error` -/
structure ErrorDetail where
  Code : Int
  Message : String
  Data : Value
  deriving DecidableEq

/-- Field decoding of `JSONRPCError.Error` -/
def ErrorDetail.store (f : String) (doc : Value) (e : ErrorDetail) :
    ErrorDetail × Option JSONError :=
  if f = "code" then (⟨(storeInt e.Code doc).1, e.Message, e.Data⟩, (storeInt e.Code doc).2)
  else if f = "message" then
    (⟨e.Code, (storeString e.Message doc).1, e.Data⟩, (storeString e.Message doc).2)
  else if f = "data" then
    (⟨e.Code, e.Message, (storeInterface e.Data doc).1⟩, (storeInterface e.Data doc).2)
  else (e, none)

/-- Member loop of `JSONRPCError.Error` -/
def ErrorDetail.members : GoMap Value → ErrorDetail → ErrorDetail × Option JSONError :=
  decodeMembers ["code", "message", "data"] ErrorDetail.store

/-- The struct `JSONRPCError` -/
structure JSONRPCError where
  JSONRPC : String
  ID : Value
  Error : ErrorDetail
  deriving DecidableEq

/-- Zero value of `JSONRPCError` -/
def JSONRPCError.zero : JSONRPCError := ⟨"", .null, ⟨0, "", .null⟩⟩

/-- Field decoding of `JSONRPCError` -/
def JSONRPCError.store (f : String) (doc : Value) (r : JSONRPCError) :
    JSONRPCError × Option JSONError :=
  if f = "jsonrpc" then
    (⟨(storeString r.JSONRPC doc).1, r.ID, r.Error⟩, (storeString r.JSONRPC doc).2)
  else if f = "id" then
    (⟨r.JSONRPC, (storeInterface r.ID doc).1, r.Error⟩, (storeInterface r.ID doc).2)
  else if f = "error" then
    (⟨r.JSONRPC, r.ID, (storeStruct ErrorDetail.members r.Error doc).1⟩,
      (storeStruct ErrorDetail.members r.Error doc).2)
  else (r, none)

/-- JSON names of the fields of `JSONRPCError` -/
def JSONRPCError.fields : List String := ["jsonrpc", "id", "error"]

/-- Generic `json.Unmarshal(data, &r)` for `r JSONRPCError` -/
def JSONRPCError.unmarshal (r : JSONRPCError) (data : Bytes) :
    JSONRPCError × Option JSONError :=
  unmarshalStruct (decodeMembers JSONRPCError.fields JSONRPCError.store) r data

/-- Generic `json.Marshal(r)` for `r JSONRPCResponse`: the three members are
always written, a nil `ID` or `Result` as `null` -/
def JSONRPCResponse.marshal (r : JSONRPCResponse) : Bytes × Option JSONError :=
  (.text (.obj [("jsonrpc", .str r.JSONRPC), ("id", r.ID), ("result", r.Result)]), none)

/-- Document of `JSONRPCError.Error`: `data` is left out (`omitempty`) when nil -/
def ErrorDetail.encode (e : ErrorDetail) : Value :=
  .obj ([("code", .num e.Code), ("message", .str e.Message)]
    ++ (if e.Data = .null then [] else [("data", e.Data)]))

/-- Generic `json.Marshal(r)` for `r JSONRPCError` -/
def JSONRPCError.marshal (r : JSONRPCError) : Bytes × Option JSONError :=
  (.text (.obj [("jsonrpc", .str r.JSONRPC), ("id", r.ID), ("error", r.Error.encode)]), none)

/-! ## Requests and notifications on the wire -/

/-- The struct `JSONRPCRequest`, which embeds `Request` -/
structure JSONRPCRequest where
  JSONRPC : String
  ID : Value
  Request : Request
  deriving DecidableEq

/-- Zero value of `JSONRPCRequest` -/
def JSONRPCRequest.zero : JSONRPCRequest := ⟨"", .null, Request.zero⟩

/-- JSON names of the fields of `JSONRPCRequest`, those of the embedded `Request`
being promoted -/
def JSONRPCRequest.fields : List String := ["jsonrpc", "id", "method", "params"]

/-- Field decoding of `JSONRPCRequest` -/
def JSONRPCRequest.store (f : String) (doc : Value) (r : JSONRPCRequest) :
    JSONRPCRequest × Option JSONError :=
  if f = "jsonrpc" then
    (⟨(storeString r.JSONRPC doc).1, r.ID, r.Request⟩, (storeString r.JSONRPC doc).2)
  else if f = "id" then
    (⟨r.JSONRPC, (storeInterface r.ID doc).1, r.Request⟩, (storeInterface r.ID doc).2)
  else if f = "method" then
    (⟨r.JSONRPC, r.ID, ⟨(storeString r.Request.Method doc).1, r.Request.Params⟩⟩,
      (storeString r.Request.Method doc).2)
  else if f = "params" then
    (⟨r.JSONRPC, r.ID,
        ⟨r.Request.Method, (storeStruct RequestParams.members r.Request.Params doc).1⟩⟩,
      (storeStruct RequestParams.members r.Request.Params doc).2)
  else (r, none)

/-- Generic `json.Unmarshal(data, &r)` for `r JSONRPCRequest` -/
def JSONRPCRequest.unmarshal (r : JSONRPCRequest) (data : Bytes) :
    JSONRPCRequest × Option JSONError :=
  unmarshalStruct (decodeMembers JSONRPCRequest.fields JSONRPCRequest.store) r data

/-- Generic `json.Marshal(r)` for `r JSONRPCRequest`: `id` has no `omitempty` and
is always written, a nil `ID` as `null` -/
def JSONRPCRequest.marshal (r : JSONRPCRequest) : Bytes × Option JSONError :=
  (.text (.obj [("jsonrpc", .str r.JSONRPC), ("id", r.ID), ("method", .str r.Request.Method),
    ("params", r.Request.Params.encode)]), none)

/-- The struct `JSONRPCNotification`, which embeds `Notification` -/
structure JSONRPCNotification where
  JSONRPC : String
  Notification : Notification
  deriving DecidableEq

/-- Zero value of `JSONRPCNotification` -/
def JSONRPCNotification.zero : JSONRPCNotification := ⟨"", Notification.zero⟩

/-- JSON names of the fields of `JSONRPCNotification`, those of the embedded
`Notification` being promoted -/
def JSONRPCNotification.fields : List String := ["jsonrpc", "method", "params"]

/-- Member loop of `JSONRPCNotification`; as in `Notification.members` the `params`
member goes to `NotificationParams.UnmarshalJSON`, whose error ends the decoding -/
def JSONRPCNotification.members :
    GoMap Value → JSONRPCNotification → Option JSONError →
      JSONRPCNotification × Option JSONError
  | [], n, saved => (n, saved)
  | (k, doc) :: rest, n, saved =>
    match findField JSONRPCNotification.fields k with
    | some f =>
      if f = "jsonrpc" then
        JSONRPCNotification.members rest ⟨(storeString n.JSONRPC doc).1, n.Notification⟩
          (firstError saved (storeString n.JSONRPC doc).2)
      else if f = "method" then
        JSONRPCNotification.members rest
          ⟨n.JSONRPC, ⟨(storeString n.Notification.Method doc).1, n.Notification.Params⟩⟩
          (firstError saved (storeString n.Notification.Method doc).2)
      else if f = "params" then
        match n.Notification.Params.UnmarshalJSON (.text doc) with
        | (p, some err) => (⟨n.JSONRPC, ⟨n.Notification.Method, p⟩⟩, some err)
        | (p, none) =>
          JSONRPCNotification.members rest ⟨n.JSONRPC, ⟨n.Notification.Method, p⟩⟩ saved
      else JSONRPCNotification.members rest n saved
    | none => JSONRPCNotification.members rest n saved

/-- Generic `json.Unmarshal(data, &n)` for `n JSONRPCNotification` -/
def JSONRPCNotification.unmarshal (n : JSONRPCNotification) :
    Bytes → JSONRPCNotification × Option JSONError
  | .malformed => (n, some .SyntaxError)
  | .text .null => (n, none)
  | .text (.obj kvs) => JSONRPCNotification.members kvs n none
  | .text _ => (n, some .UnmarshalTypeError)

/-- Generic `json.Marshal(n)` for `n JSONRPCNotification`: the struct has no `ID`
field; `params` is what `NotificationParams.MarshalJSON` returns -/
def JSONRPCNotification.marshal (n : JSONRPCNotification) : Bytes × Option JSONError :=
  match n.Notification.Params.MarshalJSON with
  | (.text doc, none) =>
    (.text (.obj [("jsonrpc", .str n.JSONRPC), ("method", .str n.Notification.Method),
      ("params", doc)]), none)
  | (_, _) => (.malformed, some .MarshalerError)

/-! ## Resource contents -/

/-- The struct `Result` -/
structure Result where
  Meta : Option (GoMap Value)
  deriving DecidableEq

/-- The struct `ResourceContents` -/
structure ResourceContents where
  URI : String
  MIMEType : String
  deriving DecidableEq

/-- The struct `TextResourceContents`, which embeds `ResourceContents` -/
structure TextResourceContents where
  ResourceContents : ResourceContents
  Text : String
  deriving DecidableEq

/-- The struct `BlobResourceContents`, which embeds `ResourceContents` -/
structure BlobResourceContents where
  ResourceContents : ResourceContents
  Blob : String
  deriving DecidableEq

/-- Zero value of `TextResourceContents` -/
def TextResourceContents.zero : TextResourceContents := ⟨⟨"", ""⟩, ""⟩

/-- Zero value of `BlobResourceContents` -/
def BlobResourceContents.zero : BlobResourceContents := ⟨⟨"", ""⟩, ""⟩

/-- JSON names of the fields of `TextResourceContents` -/
def TextResourceContents.fields : List String := ["uri", "mimeType", "text"]

/-- JSON names of the fields of `BlobResourceContents` -/
def BlobResourceContents.fields : List String := ["uri", "mimeType", "blob"]

/-- Field decoding of `TextResourceContents` -/
def TextResourceContents.store (f : String) (doc : Value) (c : TextResourceContents) :
    TextResourceContents × Option JSONError :=
  if f = "uri" then
    (⟨⟨(storeString c.ResourceContents.URI doc).1, c.ResourceContents.MIMEType⟩, c.Text⟩,
      (storeString c.ResourceContents.URI doc).2)
  else if f = "mimeType" then
    (⟨⟨c.ResourceContents.URI, (storeString c.ResourceContents.MIMEType doc).1⟩, c.Text⟩,
      (storeString c.ResourceContents.MIMEType doc).2)
  else if f = "text" then
    (⟨c.ResourceContents, (storeString c.Text doc).1⟩, (storeString c.Text doc).2)
  else (c, none)

/-- Field decoding of `BlobResourceContents` -/
def BlobResourceContents.store (f : String) (doc : Value) (c : BlobResourceContents) :
    BlobResourceContents × Option JSONError :=
  if f = "uri" then
    (⟨⟨(storeString c.ResourceContents.URI doc).1, c.ResourceContents.MIMEType⟩, c.Blob⟩,
      (storeString c.ResourceContents.URI doc).2)
  else if f = "mimeType" then
    (⟨⟨c.ResourceContents.URI, (storeString c.ResourceContents.MIMEType doc).1⟩, c.Blob⟩,
      (storeString c.ResourceContents.MIMEType doc).2)
  else if f = "blob" then
    (⟨c.ResourceContents, (storeString c.Blob doc).1⟩, (storeString c.Blob doc).2)
  else (c, none)

/-- Generic `json.Unmarshal(data, &c)` for `c TextResourceContents` -/
def TextResourceContents.unmarshal (c : TextResourceContents) (data : Bytes) :
    TextResourceContents × Option JSONError :=
  unmarshalStruct (decodeMembers TextResourceContents.fields TextResourceContents.store) c data

/-- Generic `json.Unmarshal(data, &c)` for `c BlobResourceContents` -/
def BlobResourceContents.unmarshal (c : BlobResourceContents) (data : Bytes) :
    BlobResourceContents × Option JSONError :=
  unmarshalStruct (decodeMembers BlobResourceContents.fields BlobResourceContents.store) c data

/-- Decoding the elements of an array into a `[]interface{}`, element `i` decoded
into the element `i` of the slice decoded into, or into nil past its end (the
spare capacity of a slice is taken to hold nil, as it does in a slice made by the
decoder that was never cut short) -/
def storeInterfaces : List Value → List Value → List Value × Option JSONError
  | [], _ => ([], none)
  | x :: xs, old =>
    ((storeInterface (old.headD .null) x).1 :: (storeInterfaces xs old.tail).1,
      firstError (storeInterface (old.headD .null) x).2 (storeInterfaces xs old.tail).2)

/-- Decoding into a `[]interface{}` field: every element of an array is decoded
as for an `interface{}`, `null` sets the slice to nil -/
def storeInterfaceSlice (cur : Option (List Value)) :
    Value → Option (List Value) × Option JSONError
  | .arr xs => (some (storeInterfaces xs (cur.getD [])).1, (storeInterfaces xs (cur.getD [])).2)
  | .null => (none, none)
  | _ => (cur, some .UnmarshalTypeError)

/-- The struct `ReadResourceResult`, which embeds `Result`; `Contents` is a
`[]interface{}`, `none` being the nil slice -/
structure ReadResourceResult where
  Result : Result
  Contents : Option (List Value)
  deriving DecidableEq

/-- Zero value of `ReadResourceResult` -/
def ReadResourceResult.zero : ReadResourceResult := ⟨⟨none⟩, none⟩

/-- JSON names of the fields of `ReadResourceResult` -/
def ReadResourceResult.fields : List String := ["_meta", "contents"]

/-- Field decoding of `ReadResourceResult` -/
def ReadResourceResult.store (f : String) (doc : Value) (r : ReadResourceResult) :
    ReadResourceResult × Option JSONError :=
  if f = "_meta" then
    (⟨⟨(storeMap r.Result.Meta doc).1⟩, r.Contents⟩, (storeMap r.Result.Meta doc).2)
  else if f = "contents" then
    (⟨r.Result, (storeInterfaceSlice r.Contents doc).1⟩, (storeInterfaceSlice r.Contents doc).2)
  else (r, none)

/-- Generic `json.Unmarshal(data, &r)` for `r ReadResourceResult` -/
def ReadResourceResult.unmarshal (r : ReadResourceResult) (data : Bytes) :
    ReadResourceResult × Option JSONError :=
  unmarshalStruct (decodeMembers ReadResourceResult.fields ReadResourceResult.store) r data

/-! ## Sampling messages and content -/

/-- Modelled from the spec: the type `Role` is used by `types.go` and declared
outside it; the spec calls its values role tags, and they are taken here as the
strings of a Go string type -/
abbrev Role := String

/-- The struct `SamplingMessage`; `Content` is an `interface{}` -/
structure SamplingMessage where
  Role : Role
  Content : Value
  deriving DecidableEq

/-- Zero value of `SamplingMessage` -/
def SamplingMessage.zero : SamplingMessage := ⟨"", .null⟩

/-- JSON names of the fields of `SamplingMessage` -/
def SamplingMessage.fields : List String := ["role", "content"]

/-- Field decoding of `SamplingMessage` -/
def SamplingMessage.store (f : String) (doc : Value) (m : SamplingMessage) :
    SamplingMessage × Option JSONError :=
  if f = "role" then (⟨(storeString m.Role doc).1, m.Content⟩, (storeString m.Role doc).2)
  else if f = "content" then
    (⟨m.Role, (storeInterface m.Content doc).1⟩, (storeInterface m.Content doc).2)
  else (m, none)

/-- Generic `json.Unmarshal(data, &m)` for `m SamplingMessage` -/
def SamplingMessage.unmarshal (m : SamplingMessage) (data : Bytes) :
    SamplingMessage × Option JSONError :=
  unmarshalStruct (decodeMembers SamplingMessage.fields SamplingMessage.store) m data

/-- Generic `json.Marshal(m)` for `m SamplingMessage`: both members are always
written, a nil `Content` as `null` -/
def SamplingMessage.marshal (m : SamplingMessage) : Bytes × Option JSONError :=
  (.text (.obj [("role", .str m.Role), ("content", m.Content)]), none)

/-- Decoding the elements of an array into a `[]Role`, element `i` starting from
the element `i` of the slice decoded into, or from the empty string past its end -/
def storeRoles : List Value → List Role → List Role × Option JSONError
  | [], _ => ([], none)
  | x :: xs, old =>
    ((storeString (old.headD "") x).1 :: (storeRoles xs old.tail).1,
      firstError (storeString (old.headD "") x).2 (storeRoles xs old.tail).2)

/-- Decoding into a `[]Role` field: `null` sets the slice to nil -/
def storeRoleSlice (cur : Option (List Role)) : Value → Option (List Role) × Option JSONError
  | .arr xs => (some (storeRoles xs (cur.getD [])).1, (storeRoles xs (cur.getD [])).2)
  | .null => (none, none)
  | _ => (cur, some .UnmarshalTypeError)

/-- Decoding into a `float64` field: the nearest `float64`, a type error for a
number out of range -/
def storeFloat64 (cur : Int) : Value → Int × Option JSONError
  | .num n =>
    match toFloat64 n with
    | some m => (m, none)
    | none => (cur, some .UnmarshalTypeError)
  | .null => (cur, none)
  | _ => (cur, some .UnmarshalTypeError)

/-- The anonymous struct behind `Annotated.Annotations` -/
structure AnnotationsBlock where
  Audience : Option (List Role)
  Priority : Int
  deriving DecidableEq

/-- Field decoding of the struct behind `Annotations` -/
def AnnotationsBlock.store (f : String) (doc : Value) (a : AnnotationsBlock) :
    AnnotationsBlock × Option JSONError :=
  if f = "audience" then
    (⟨(storeRoleSlice a.Audience doc).1, a.Priority⟩, (storeRoleSlice a.Audience doc).2)
  else if f = "priority" then
    (⟨a.Audience, (storeFloat64 a.Priority doc).1⟩, (storeFloat64 a.Priority doc).2)
  else (a, none)

/-- Member loop of the struct behind `Annotations` -/
def AnnotationsBlock.members :
    GoMap Value → AnnotationsBlock → AnnotationsBlock × Option JSONError :=
  decodeMembers ["audience", "priority"] AnnotationsBlock.store

/-- The struct `Annotated` -/
structure Annotated where
  Annotations : Option AnnotationsBlock
  deriving DecidableEq

/-- The struct `TextContent`, which embeds `Annotated`; `Type_` is its field `Type` -/
structure TextContent where
  Annotated : Annotated
  Type_ : String
  Text : String
  deriving DecidableEq

/-- The struct `ImageContent`, which embeds `Annotated`; `Type_` is its field `Type` -/
structure ImageContent where
  Annotated : Annotated
  Type_ : String
  Data : String
  MIMEType : String
  deriving DecidableEq

/-- Zero value of `TextContent` -/
def TextContent.zero : TextContent := ⟨⟨none⟩, "", ""⟩

/-- Zero value of `ImageContent` -/
def ImageContent.zero : ImageContent := ⟨⟨none⟩, "", "", ""⟩

/-- JSON names of the fields of `TextContent` -/
def TextContent.fields : List String := ["annotations", "type", "text"]

/-- JSON names of the fields of `ImageContent` -/
def ImageContent.fields : List String := ["annotations", "type", "data", "mimeType"]

/-- Field decoding of `TextContent` -/
def TextContent.store (f : String) (doc : Value) (c : TextContent) :
    TextContent × Option JSONError :=
  if f = "annotations" then
    (⟨⟨(storePointer ⟨none, 0⟩ AnnotationsBlock.members c.Annotated.Annotations doc).1⟩,
        c.Type_, c.Text⟩,
      (storePointer ⟨none, 0⟩ AnnotationsBlock.members c.Annotated.Annotations doc).2)
  else if f = "type" then
    (⟨c.Annotated, (storeString c.Type_ doc).1, c.Text⟩, (storeString c.Type_ doc).2)
  else if f = "text" then
    (⟨c.Annotated, c.Type_, (storeString c.Text doc).1⟩, (storeString c.Text doc).2)
  else (c, none)

/-- Field decoding of `ImageContent` -/
def ImageContent.store (f : String) (doc : Value) (c : ImageContent) :
    ImageContent × Option JSONError :=
  if f = "annotations" then
    (⟨⟨(storePointer ⟨none, 0⟩ AnnotationsBlock.members c.Annotated.Annotations doc).1⟩,
        c.Type_, c.Data, c.MIMEType⟩,
      (storePointer ⟨none, 0⟩ AnnotationsBlock.members c.Annotated.Annotations doc).2)
  else if f = "type" then
    (⟨c.Annotated, (storeString c.Type_ doc).1, c.Data, c.MIMEType⟩, (storeString c.Type_ doc).2)
  else if f = "data" then
    (⟨c.Annotated, c.Type_, (storeString c.Data doc).1, c.MIMEType⟩, (storeString c.Data doc).2)
  else if f = "mimeType" then
    (⟨c.Annotated, c.Type_, c.Data, (storeString c.MIMEType doc).1⟩,
      (storeString c.MIMEType doc).2)
  else (c, none)

/-- Generic `json.Unmarshal(data, &c)` for `c TextContent` -/
def TextContent.unmarshal (c : TextContent) (data : Bytes) : TextContent × Option JSONError :=
  unmarshalStruct (decodeMembers TextContent.fields TextContent.store) c data

/-- Generic `json.Unmarshal(data, &c)` for `c ImageContent` -/
def ImageContent.unmarshal (c : ImageContent) (data : Bytes) : ImageContent × Option JSONError :=
  unmarshalStruct (decodeMembers ImageContent.fields ImageContent.store) c data

/-! ## Typed requests

Eight request types embed `Request` and declare a field `Params` of their own
under the JSON name `params`: `InitializeRequest`, `PaginatedRequest`,
`ReadResourceRequest`, `SubscribeRequest`, `UnsubscribeRequest`, `SetLevelRequest`,
`CreateMessageRequest` and `CompleteRequest`.  For `encoding/json` the field
declared by the struct itself hides the field of the same JSON name that comes from
the embedded struct: the JSON names of these structs are `method`, from `Request`,
and `params`, their own `Params`. -/

/-- The struct `Implementation` -/
structure Implementation where
  Name : String
  Version : String
  deriving DecidableEq

/-- Field decoding of `Implementation` -/
def Implementation.store (f : String) (doc : Value) (i : Implementation) :
    Implementation × Option JSONError :=
  if f = "name" then (⟨(storeString i.Name doc).1, i.Version⟩, (storeString i.Name doc).2)
  else if f = "version" then
    (⟨i.Name, (storeString i.Version doc).1⟩, (storeString i.Version doc).2)
  else (i, none)

/-- Member loop of `Implementation` -/
def Implementation.members : GoMap Value → Implementation → Implementation × Option JSONError :=
  decodeMembers ["name", "version"] Implementation.store

/-- Document of an `Implementation` value -/
def Implementation.encode (i : Implementation) : Value :=
  .obj [("name", .str i.Name), ("version", .str i.Version)]

/-- The anonymous struct `InitializeRequest.Params` -/
structure InitializeRequestParams where
  ProtocolVersion : String
  Capabilities : ClientCapabilities
  ClientInfo : Implementation
  deriving DecidableEq

/-- Field decoding of `InitializeRequest.Params` -/
def InitializeRequestParams.store (f : String) (doc : Value) (p : InitializeRequestParams) :
    InitializeRequestParams × Option JSONError :=
  if f = "protocolVersion" then
    (⟨(storeString p.ProtocolVersion doc).1, p.Capabilities, p.ClientInfo⟩,
      (storeString p.ProtocolVersion doc).2)
  else if f = "capabilities" then
    (⟨p.ProtocolVersion,
        (storeStruct (decodeMembers ClientCapabilities.fields ClientCapabilities.store)
          p.Capabilities doc).1, p.ClientInfo⟩,
      (storeStruct (decodeMembers ClientCapabilities.fields ClientCapabilities.store)
        p.Capabilities doc).2)
  else if f = "clientInfo" then
    (⟨p.ProtocolVersion, p.Capabilities,
        (storeStruct Implementation.members p.ClientInfo doc).1⟩,
      (storeStruct Implementation.members p.ClientInfo doc).2)
  else (p, none)

/-- Member loop of `InitializeRequest.Params` -/
def InitializeRequestParams.members :
    GoMap Value → InitializeRequestParams → InitializeRequestParams × Option JSONError :=
  decodeMembers ["protocolVersion", "capabilities", "clientInfo"] InitializeRequestParams.store

/-- Members of the document of `InitializeRequest.Params` -/
def InitializeRequestParams.encode (p : InitializeRequestParams) : GoMap Value :=
  [("protocolVersion", .str p.ProtocolVersion), ("capabilities", .obj p.Capabilities.encode),
    ("clientInfo", p.ClientInfo.encode)]

/-- The struct `InitializeRequest`: the embedded `Request` and its own `Params` -/
structure InitializeRequest where
  Request : Request
  Params : InitializeRequestParams
  deriving DecidableEq

/-- Zero value of `InitializeRequest` -/
def InitializeRequest.zero : InitializeRequest :=
  ⟨Request.zero, ⟨"", ClientCapabilities.zero, ⟨"", ""⟩⟩⟩

/-- JSON names of the fields of `InitializeRequest`: `method` is promoted from
`Request`, `params` is the field `Params` of the struct itself -/
def InitializeRequest.fields : List String := ["method", "params"]

/-- Field decoding of `InitializeRequest` -/
def InitializeRequest.store (f : String) (doc : Value) (r : InitializeRequest) :
    InitializeRequest × Option JSONError :=
  if f = "method" then
    (⟨⟨(storeString r.Request.Method doc).1, r.Request.Params⟩, r.Params⟩,
      (storeString r.Request.Method doc).2)
  else if f = "params" then
    (⟨r.Request, (storeStruct InitializeRequestParams.members r.Params doc).1⟩,
      (storeStruct InitializeRequestParams.members r.Params doc).2)
  else (r, none)

/-- Generic `json.Unmarshal(data, &r)` for `r InitializeRequest` -/
def InitializeRequest.unmarshal (r : InitializeRequest) (data : Bytes) :
    InitializeRequest × Option JSONError :=
  unmarshalStruct (decodeMembers InitializeRequest.fields InitializeRequest.store) r data

/-- Generic `json.Marshal(r)` for `r InitializeRequest` -/
def InitializeRequest.marshal (r : InitializeRequest) : Bytes × Option JSONError :=
  (.text (.obj [("method", .str r.Request.Method), ("params", .obj r.Params.encode)]), none)

/-- Member for a `map[string]interface{}` field with `omitempty`: left out when the
map is nil or empty -/
def encodeMap (name : String) : Option (GoMap Value) → GoMap Value
  | some (e :: rest) => [(name, .obj (e :: rest))]
  | _ => []

/-- The anonymous struct `ReadResourceRequest.Params` -/
structure ReadResourceRequestParams where
  URI : String
  Arguments : Option (GoMap Value)
  deriving DecidableEq

/-- Field decoding of `ReadResourceRequest.Params` -/
def ReadResourceRequestParams.store (f : String) (doc : Value)
    (p : ReadResourceRequestParams) : ReadResourceRequestParams × Option JSONError :=
  if f = "uri" then (⟨(storeString p.URI doc).1, p.Arguments⟩, (storeString p.URI doc).2)
  else if f = "arguments" then
    (⟨p.URI, (storeMap p.Arguments doc).1⟩, (storeMap p.Arguments doc).2)
  else (p, none)

/-- Member loop of `ReadResourceRequest.Params` -/
def ReadResourceRequestParams.members :
    GoMap Value → ReadResourceRequestParams → ReadResourceRequestParams × Option JSONError :=
  decodeMembers ["uri", "arguments"] ReadResourceRequestParams.store

/-- Members of the document of `ReadResourceRequest.Params` -/
def ReadResourceRequestParams.encode (p : ReadResourceRequestParams) : GoMap Value :=
  [("uri", .str p.URI)] ++ encodeMap "arguments" p.Arguments

/-- The struct `ReadResourceRequest`: the embedded `Request` and its own `Params` -/
structure ReadResourceRequest where
  Request : Request
  Params : ReadResourceRequestParams
  deriving DecidableEq

/-- Zero value of `ReadResourceRequest` -/
def ReadResourceRequest.zero : ReadResourceRequest := ⟨Request.zero, ⟨"", none⟩⟩

/-- JSON names of the fields of `ReadResourceRequest` -/
def ReadResourceRequest.fields : List String := ["method", "params"]

/-- Field decoding of `ReadResourceRequest` -/
def ReadResourceRequest.store (f : String) (doc : Value) (r : ReadResourceRequest) :
    ReadResourceRequest × Option JSONError :=
  if f = "method" then
    (⟨⟨(storeString r.Request.Method doc).1, r.Request.Params⟩, r.Params⟩,
      (storeString r.Request.Method doc).2)
  else if f = "params" then
    (⟨r.Request, (storeStruct ReadResourceRequestParams.members r.Params doc).1⟩,
      (storeStruct ReadResourceRequestParams.members r.Params doc).2)
  else (r, none)

/-- Generic `json.Unmarshal(data, &r)` for `r ReadResourceRequest` -/
def ReadResourceRequest.unmarshal (r : ReadResourceRequest) (data : Bytes) :
    ReadResourceRequest × Option JSONError :=
  unmarshalStruct (decodeMembers ReadResourceRequest.fields ReadResourceRequest.store) r data

/-- Generic `json.Marshal(r)` for `r ReadResourceRequest` -/
def ReadResourceRequest.marshal (r : ReadResourceRequest) : Bytes × Option JSONError :=
  (.text (.obj [("method", .str r.Request.Method), ("params", .obj r.Params.encode)]), none)

/-- Decoding the elements of an array into a slice, `elem cur doc` decoding the
document `doc` into an element that holds `cur`: element `i` starts from the
element `i` of the slice decoded into, or from `zero` past its end (the spare
capacity of a slice is taken to hold zero values) -/
def storeElems {σ : Type} (zero : σ) (elem : σ → Value → σ × Option JSONError) :
    List Value → List σ → List σ × Option JSONError
  | [], _ => ([], none)
  | x :: xs, old =>
    ((elem (old.headD zero) x).1 :: (storeElems zero elem xs old.tail).1,
      firstError (elem (old.headD zero) x).2 (storeElems zero elem xs old.tail).2)

/-- Decoding into a field of slice type: `null` sets the slice to nil -/
def storeSlice {σ : Type} (zero : σ) (elem : σ → Value → σ × Option JSONError)
    (cur : Option (List σ)) : Value → Option (List σ) × Option JSONError
  | .arr xs => (some (storeElems zero elem xs (cur.getD [])).1,
      (storeElems zero elem xs (cur.getD [])).2)
  | .null => (none, none)
  | _ => (cur, some .UnmarshalTypeError)

/-- Member for a `string` field with `omitempty`: left out when empty -/
def encodeString (name : String) (s : String) : GoMap Value :=
  if s = "" then [] else [(name, .str s)]

/-- Member for a `float64` field with `omitempty`: left out when zero -/
def encodeFloat64 (name : String) (x : Int) : GoMap Value :=
  if x = 0 then [] else [(name, .num x)]

/-- The anonymous struct `PaginatedRequest.Params`; `Cursor` is a string type -/
structure PaginatedRequestParams where
  Cursor : String
  deriving DecidableEq

/-- Field decoding of `PaginatedRequest.Params` -/
def PaginatedRequestParams.store (f : String) (doc : Value) (p : PaginatedRequestParams) :
    PaginatedRequestParams × Option JSONError :=
  if f = "cursor" then (⟨(storeString p.Cursor doc).1⟩, (storeString p.Cursor doc).2)
  else (p, none)

/-- Member loop of `PaginatedRequest.Params` -/
def PaginatedRequestParams.members :
    GoMap Value → PaginatedRequestParams → PaginatedRequestParams × Option JSONError :=
  decodeMembers ["cursor"] PaginatedRequestParams.store

/-- Members of the document of `PaginatedRequest.Params`: `cursor` is left out
(`omitempty`) when empty -/
def PaginatedRequestParams.encode (p : PaginatedRequestParams) : GoMap Value :=
  encodeString "cursor" p.Cursor

/-- Zero value of `PaginatedRequest.Params` -/
def PaginatedRequestParams.zero : PaginatedRequestParams := ⟨""⟩

/-- The struct `PaginatedRequest`: the embedded `Request` and its own `Params` -/
structure PaginatedRequest where
  Request : Request
  Params : PaginatedRequestParams
  deriving DecidableEq

/-- JSON names of the fields of `PaginatedRequest` -/
def PaginatedRequest.fields : List String := ["method", "params"]

/-- Field decoding of `PaginatedRequest` -/
def PaginatedRequest.store (f : String) (doc : Value) (r : PaginatedRequest) :
    PaginatedRequest × Option JSONError :=
  if f = "method" then
    (⟨⟨(storeString r.Request.Method doc).1, r.Request.Params⟩, r.Params⟩,
      (storeString r.Request.Method doc).2)
  else if f = "params" then
    (⟨r.Request, (storeStruct PaginatedRequestParams.members r.Params doc).1⟩,
      (storeStruct PaginatedRequestParams.members r.Params doc).2)
  else (r, none)

/-- Generic `json.Unmarshal(data, &r)` for `r PaginatedRequest` -/
def PaginatedRequest.unmarshal (r : PaginatedRequest) (data : Bytes) :
    PaginatedRequest × Option JSONError :=
  unmarshalStruct (decodeMembers PaginatedRequest.fields PaginatedRequest.store) r data

/-- Generic `json.Marshal(r)` for `r PaginatedRequest`;
`omitempty` never leaves out a field of struct type, so `params` is always written -/
def PaginatedRequest.marshal (r : PaginatedRequest) : Bytes × Option JSONError :=
  (.text (.obj [("method", .str r.Request.Method), ("params", .obj r.Params.encode)]), none)

/-- The anonymous struct `SubscribeRequest.Params` -/
structure SubscribeRequestParams where
  URI : String
  deriving DecidableEq

/-- Field decoding of `SubscribeRequest.Params` -/
def SubscribeRequestParams.store (f : String) (doc : Value) (p : SubscribeRequestParams) :
    SubscribeRequestParams × Option JSONError :=
  if f = "uri" then (⟨(storeString p.URI doc).1⟩, (storeString p.URI doc).2)
  else (p, none)

/-- Member loop of `SubscribeRequest.Params` -/
def SubscribeRequestParams.members :
    GoMap Value → SubscribeRequestParams → SubscribeRequestParams × Option JSONError :=
  decodeMembers ["uri"] SubscribeRequestParams.store

/-- Members of the document of `SubscribeRequest.Params` -/
def SubscribeRequestParams.encode (p : SubscribeRequestParams) : GoMap Value :=
  [("uri", .str p.URI)]

/-- Zero value of `SubscribeRequest.Params` -/
def SubscribeRequestParams.zero : SubscribeRequestParams := ⟨""⟩

/-- The struct `SubscribeRequest`: the embedded `Request` and its own `Params` -/
structure SubscribeRequest where
  Request : Request
  Params : SubscribeRequestParams
  deriving DecidableEq

/-- JSON names of the fields of `SubscribeRequest` -/
def SubscribeRequest.fields : List String := ["method", "params"]

/-- Field decoding of `SubscribeRequest` -/
def SubscribeRequest.store (f : String) (doc : Value) (r : SubscribeRequest) :
    SubscribeRequest × Option JSONError :=
  if f = "method" then
    (⟨⟨(storeString r.Request.Method doc).1, r.Request.Params⟩, r.Params⟩,
      (storeString r.Request.Method doc).2)
  else if f = "params" then
    (⟨r.Request, (storeStruct SubscribeRequestParams.members r.Params doc).1⟩,
      (storeStruct SubscribeRequestParams.members r.Params doc).2)
  else (r, none)

/-- Generic `json.Unmarshal(data, &r)` for `r SubscribeRequest` -/
def SubscribeRequest.unmarshal (r : SubscribeRequest) (data : Bytes) :
    SubscribeRequest × Option JSONError :=
  unmarshalStruct (decodeMembers SubscribeRequest.fields SubscribeRequest.store) r data

/-- Generic `json.Marshal(r)` for `r SubscribeRequest` -/
def SubscribeRequest.marshal (r : SubscribeRequest) : Bytes × Option JSONError :=
  (.text (.obj [("method", .str r.Request.Method), ("params", .obj r.Params.encode)]), none)

/-- The anonymous struct `UnsubscribeRequest.Params` -/
structure UnsubscribeRequestParams where
  URI : String
  deriving DecidableEq

/-- Field decoding of `UnsubscribeRequest.Params` -/
def UnsubscribeRequestParams.store (f : String) (doc : Value) (p : UnsubscribeRequestParams) :
    UnsubscribeRequestParams × Option JSONError :=
  if f = "uri" then (⟨(storeString p.URI doc).1⟩, (storeString p.URI doc).2)
  else (p, none)

/-- Member loop of `UnsubscribeRequest.Params` -/
def UnsubscribeRequestParams.members :
    GoMap Value → UnsubscribeRequestParams → UnsubscribeRequestParams × Option JSONError :=
  decodeMembers ["uri"] UnsubscribeRequestParams.store

/-- Members of the document of `UnsubscribeRequest.Params` -/
def UnsubscribeRequestParams.encode (p : UnsubscribeRequestParams) : GoMap Value :=
  [("uri", .str p.URI)]

/-- Zero value of `UnsubscribeRequest.Params` -/
def UnsubscribeRequestParams.zero : UnsubscribeRequestParams := ⟨""⟩

/-- The struct `UnsubscribeRequest`: the embedded `Request` and its own `Params` -/
structure UnsubscribeRequest where
  Request : Request
  Params : UnsubscribeRequestParams
  deriving DecidableEq

/-- JSON names of the fields of `UnsubscribeRequest` -/
def UnsubscribeRequest.fields : List String := ["method", "params"]

/-- Field decoding of `UnsubscribeRequest` -/
def UnsubscribeRequest.store (f : String) (doc : Value) (r : UnsubscribeRequest) :
    UnsubscribeRequest × Option JSONError :=
  if f = "method" then
    (⟨⟨(storeString r.Request.Method doc).1, r.Request.Params⟩, r.Params⟩,
      (storeString r.Request.Method doc).2)
  else if f = "params" then
    (⟨r.Request, (storeStruct UnsubscribeRequestParams.members r.Params doc).1⟩,
      (storeStruct UnsubscribeRequestParams.members r.Params doc).2)
  else (r, none)

/-- Generic `json.Unmarshal(data, &r)` for `r UnsubscribeRequest` -/
def UnsubscribeRequest.unmarshal (r : UnsubscribeRequest) (data : Bytes) :
    UnsubscribeRequest × Option JSONError :=
  unmarshalStruct (decodeMembers UnsubscribeRequest.fields UnsubscribeRequest.store) r data

/-- Generic `json.Marshal(r)` for `r UnsubscribeRequest` -/
def UnsubscribeRequest.marshal (r : UnsubscribeRequest) : Bytes × Option JSONError :=
  (.text (.obj [("method", .str r.Request.Method), ("params", .obj r.Params.encode)]), none)

/-- The anonymous struct `SetLevelRequest.Params`; `LoggingLevel` is a string type -/
structure SetLevelRequestParams where
  Level : String
  deriving DecidableEq

/-- Field decoding of `SetLevelRequest.Params` -/
def SetLevelRequestParams.store (f : String) (doc : Value) (p : SetLevelRequestParams) :
    SetLevelRequestParams × Option JSONError :=
  if f = "level" then (⟨(storeString p.Level doc).1⟩, (storeString p.Level doc).2)
  else (p, none)

/-- Member loop of `SetLevelRequest.Params` -/
def SetLevelRequestParams.members :
    GoMap Value → SetLevelRequestParams → SetLevelRequestParams × Option JSONError :=
  decodeMembers ["level"] SetLevelRequestParams.store

/-- Members of the document of `SetLevelRequest.Params` -/
def SetLevelRequestParams.encode (p : SetLevelRequestParams) : GoMap Value :=
  [("level", .str p.Level)]

/-- Zero value of `SetLevelRequest.Params` -/
def SetLevelRequestParams.zero : SetLevelRequestParams := ⟨""⟩

/-- The struct `SetLevelRequest`: the embedded `Request` and its own `Params` -/
structure SetLevelRequest where
  Request : Request
  Params : SetLevelRequestParams
  deriving DecidableEq

/-- JSON names of the fields of `SetLevelRequest` -/
def SetLevelRequest.fields : List String := ["method", "params"]

/-- Field decoding of `SetLevelRequest` -/
def SetLevelRequest.store (f : String) (doc : Value) (r : SetLevelRequest) :
    SetLevelRequest × Option JSONError :=
  if f = "method" then
    (⟨⟨(storeString r.Request.Method doc).1, r.Request.Params⟩, r.Params⟩,
      (storeString r.Request.Method doc).2)
  else if f = "params" then
    (⟨r.Request, (storeStruct SetLevelRequestParams.members r.Params doc).1⟩,
      (storeStruct SetLevelRequestParams.members r.Params doc).2)
  else (r, none)

/-- Generic `json.Unmarshal(data, &r)` for `r SetLevelRequest` -/
def SetLevelRequest.unmarshal (r : SetLevelRequest) (data : Bytes) :
    SetLevelRequest × Option JSONError :=
  unmarshalStruct (decodeMembers SetLevelRequest.fields SetLevelRequest.store) r data

/-- Generic `json.Marshal(r)` for `r SetLevelRequest` -/
def SetLevelRequest.marshal (r : SetLevelRequest) : Bytes × Option JSONError :=
  (.text (.obj [("method", .str r.Request.Method), ("params", .obj r.Params.encode)]), none)

/-- The struct `ModelHint` -/
structure ModelHint where
  Name : String
  deriving DecidableEq

/-- Field decoding of `ModelHint` -/
def ModelHint.store (f : String) (doc : Value) (h : ModelHint) : ModelHint × Option JSONError :=
  if f = "name" then (⟨(storeString h.Name doc).1⟩, (storeString h.Name doc).2)
  else (h, none)

/-- Member loop of `ModelHint` -/
def ModelHint.members : GoMap Value → ModelHint → ModelHint × Option JSONError :=
  decodeMembers ["name"] ModelHint.store

/-- Document of a `ModelHint` value -/
def ModelHint.encode (h : ModelHint) : Value :=
  .obj (encodeString "name" h.Name)

/-- The struct `ModelPreferences`; a priority is a `float64`, carried as the
integer it is -/
structure ModelPreferences where
  Hints : Option (List ModelHint)
  CostPriority : Int
  SpeedPriority : Int
  IntelligencePriority : Int
  deriving DecidableEq

/-- Field decoding of `ModelPreferences` -/
def ModelPreferences.store (f : String) (doc : Value) (p : ModelPreferences) :
    ModelPreferences × Option JSONError :=
  if f = "hints" then
    (⟨(storeSlice ⟨""⟩ (storeStruct ModelHint.members) p.Hints doc).1, p.CostPriority,
        p.SpeedPriority, p.IntelligencePriority⟩,
      (storeSlice ⟨""⟩ (storeStruct ModelHint.members) p.Hints doc).2)
  else if f = "costPriority" then
    (⟨p.Hints, (storeFloat64 p.CostPriority doc).1, p.SpeedPriority, p.IntelligencePriority⟩,
      (storeFloat64 p.CostPriority doc).2)
  else if f = "speedPriority" then
    (⟨p.Hints, p.CostPriority, (storeFloat64 p.SpeedPriority doc).1, p.IntelligencePriority⟩,
      (storeFloat64 p.SpeedPriority doc).2)
  else if f = "intelligencePriority" then
    (⟨p.Hints, p.CostPriority, p.SpeedPriority, (storeFloat64 p.IntelligencePriority doc).1⟩,
      (storeFloat64 p.IntelligencePriority doc).2)
  else (p, none)

/-- Member loop of `ModelPreferences` -/
def ModelPreferences.members :
    GoMap Value → ModelPreferences → ModelPreferences × Option JSONError :=
  decodeMembers ["hints", "costPriority", "speedPriority", "intelligencePriority"]
    ModelPreferences.store

/-- Document of a `ModelPreferences` value: every member has `omitempty` -/
def ModelPreferences.encode (p : ModelPreferences) : Value :=
  .obj ((match p.Hints with
      | some (h :: hs) => [("hints", .arr ((h :: hs).map ModelHint.encode))]
      | _ => [])
    ++ encodeFloat64 "costPriority" p.CostPriority
    ++ encodeFloat64 "speedPriority" p.SpeedPriority
    ++ encodeFloat64 "intelligencePriority" p.IntelligencePriority)

/-- Document of a `SamplingMessage` value -/
def SamplingMessage.encode (m : SamplingMessage) : Value :=
  .obj [("role", .str m.Role), ("content", m.Content)]

/-- The anonymous struct `CreateMessageRequest.Params`; `Temperature` is a
`float64`, carried as the integer it is -/
structure CreateMessageRequestParams where
  Messages : Option (List SamplingMessage)
  ModelPreferences : Option ModelPreferences
  SystemPrompt : String
  IncludeContext : String
  Temperature : Int
  MaxTokens : Int
  StopSequences : Option (List String)
  Metadata : Value
  deriving DecidableEq

/-- Field decoding of `CreateMessageRequest.Params` -/
def CreateMessageRequestParams.store (f : String) (doc : Value)
    (p : CreateMessageRequestParams) : CreateMessageRequestParams × Option JSONError :=
  if f = "messages" then
    ({ p with Messages := (storeSlice SamplingMessage.zero
          (storeStruct (decodeMembers SamplingMessage.fields SamplingMessage.store))
          p.Messages doc).1 },
      (storeSlice SamplingMessage.zero
        (storeStruct (decodeMembers SamplingMessage.fields SamplingMessage.store))
        p.Messages doc).2)
  else if f = "modelPreferences" then
    ({ p with ModelPreferences :=
          (storePointer ⟨none, 0, 0, 0⟩ ModelPreferences.members p.ModelPreferences doc).1 },
      (storePointer ⟨none, 0, 0, 0⟩ ModelPreferences.members p.ModelPreferences doc).2)
  else if f = "systemPrompt" then
    ({ p with SystemPrompt := (storeString p.SystemPrompt doc).1 },
      (storeString p.SystemPrompt doc).2)
  else if f = "includeContext" then
    ({ p with IncludeContext := (storeString p.IncludeContext doc).1 },
      (storeString p.IncludeContext doc).2)
  else if f = "temperature" then
    ({ p with Temperature := (storeFloat64 p.Temperature doc).1 },
      (storeFloat64 p.Temperature doc).2)
  else if f = "maxTokens" then
    ({ p with MaxTokens := (storeInt p.MaxTokens doc).1 }, (storeInt p.MaxTokens doc).2)
  else if f = "stopSequences" then
    ({ p with StopSequences := (storeSlice "" storeString p.StopSequences doc).1 },
      (storeSlice "" storeString p.StopSequences doc).2)
  else if f = "metadata" then
    ({ p with Metadata := (storeInterface p.Metadata doc).1 },
      (storeInterface p.Metadata doc).2)
  else (p, none)

/-- Member loop of `CreateMessageRequest.Params` -/
def CreateMessageRequestParams.members :
    GoMap Value → CreateMessageRequestParams → CreateMessageRequestParams × Option JSONError :=
  decodeMembers ["messages", "modelPreferences", "systemPrompt", "includeContext",
    "temperature", "maxTokens", "stopSequences", "metadata"] CreateMessageRequestParams.store

/-- Members of the document of `CreateMessageRequest.Params`: `messages` (`null`
for a nil slice) and `maxTokens` are always written, the others have `omitempty` -/
def CreateMessageRequestParams.encode (p : CreateMessageRequestParams) : GoMap Value :=
  [("messages", match p.Messages with
      | some ms => .arr (ms.map SamplingMessage.encode)
      | none => .null)]
    ++ encodePointer "modelPreferences" ModelPreferences.encode p.ModelPreferences
    ++ encodeString "systemPrompt" p.SystemPrompt
    ++ encodeString "includeContext" p.IncludeContext
    ++ encodeFloat64 "temperature" p.Temperature
    ++ [("maxTokens", .num p.MaxTokens)]
    ++ (match p.StopSequences with
      | some (s :: ss) => [("stopSequences", .arr ((s :: ss).map Value.str))]
      | _ => [])
    ++ (if p.Metadata = .null then [] else [("metadata", p.Metadata)])

/-- Zero value of `CreateMessageRequest.Params` -/
def CreateMessageRequestParams.zero : CreateMessageRequestParams :=
  ⟨none, none, "", "", 0, 0, none, .null⟩

/-- The struct `CreateMessageRequest`: the embedded `Request` and its own `Params` -/
structure CreateMessageRequest where
  Request : Request
  Params : CreateMessageRequestParams
  deriving DecidableEq

/-- JSON names of the fields of `CreateMessageRequest` -/
def CreateMessageRequest.fields : List String := ["method", "params"]

/-- Field decoding of `CreateMessageRequest` -/
def CreateMessageRequest.store (f : String) (doc : Value) (r : CreateMessageRequest) :
    CreateMessageRequest × Option JSONError :=
  if f = "method" then
    (⟨⟨(storeString r.Request.Method doc).1, r.Request.Params⟩, r.Params⟩,
      (storeString r.Request.Method doc).2)
  else if f = "params" then
    (⟨r.Request, (storeStruct CreateMessageRequestParams.members r.Params doc).1⟩,
      (storeStruct CreateMessageRequestParams.members r.Params doc).2)
  else (r, none)

/-- Generic `json.Unmarshal(data, &r)` for `r CreateMessageRequest` -/
def CreateMessageRequest.unmarshal (r : CreateMessageRequest) (data : Bytes) :
    CreateMessageRequest × Option JSONError :=
  unmarshalStruct (decodeMembers CreateMessageRequest.fields CreateMessageRequest.store) r data

/-- Generic `json.Marshal(r)` for `r CreateMessageRequest` -/
def CreateMessageRequest.marshal (r : CreateMessageRequest) : Bytes × Option JSONError :=
  (.text (.obj [("method", .str r.Request.Method), ("params", .obj r.Params.encode)]), none)

/-- The anonymous struct `CompleteRequest.Params.Argument`; `Value_` is its field
`Value` -/
structure CompleteArgument where
  Name : String
  Value_ : String
  deriving DecidableEq

/-- Field decoding of `CompleteRequest.Params.Argument` -/
def CompleteArgument.store (f : String) (doc : Value) (a : CompleteArgument) :
    CompleteArgument × Option JSONError :=
  if f = "name" then (⟨(storeString a.Name doc).1, a.Value_⟩, (storeString a.Name doc).2)
  else if f = "value" then
    (⟨a.Name, (storeString a.Value_ doc).1⟩, (storeString a.Value_ doc).2)
  else (a, none)

/-- Member loop of `CompleteRequest.Params.Argument` -/
def CompleteArgument.members :
    GoMap Value → CompleteArgument → CompleteArgument × Option JSONError :=
  decodeMembers ["name", "value"] CompleteArgument.store

/-- The anonymous struct `CompleteRequest.Params`; `Ref` is an `interface{}` -/
structure CompleteRequestParams where
  Ref : Value
  Argument : CompleteArgument
  deriving DecidableEq

/-- Field decoding of `CompleteRequest.Params` -/
def CompleteRequestParams.store (f : String) (doc : Value) (p : CompleteRequestParams) :
    CompleteRequestParams × Option JSONError :=
  if f = "ref" then (⟨(storeInterface p.Ref doc).1, p.Argument⟩, (storeInterface p.Ref doc).2)
  else if f = "argument" then
    (⟨p.Ref, (storeStruct CompleteArgument.members p.Argument doc).1⟩,
      (storeStruct CompleteArgument.members p.Argument doc).2)
  else (p, none)

/-- Member loop of `CompleteRequest.Params` -/
def CompleteRequestParams.members :
    GoMap Value → CompleteRequestParams → CompleteRequestParams × Option JSONError :=
  decodeMembers ["ref", "argument"] CompleteRequestParams.store

/-- Members of the document of `CompleteRequest.Params`: both are always written,
a nil `Ref` as `null` -/
def CompleteRequestParams.encode (p : CompleteRequestParams) : GoMap Value :=
  [("ref", p.Ref),
    ("argument", .obj [("name", .str p.Argument.Name), ("value", .str p.Argument.Value_)])]

/-- Zero value of `CompleteRequest.Params` -/
def CompleteRequestParams.zero : CompleteRequestParams := ⟨.null, ⟨"", ""⟩⟩

/-- The struct `CompleteRequest`: the embedded `Request` and its own `Params` -/
structure CompleteRequest where
  Request : Request
  Params : CompleteRequestParams
  deriving DecidableEq

/-- JSON names of the fields of `CompleteRequest` -/
def CompleteRequest.fields : List String := ["method", "params"]

/-- Field decoding of `CompleteRequest` -/
def CompleteRequest.store (f : String) (doc : Value) (r : CompleteRequest) :
    CompleteRequest × Option JSONError :=
  if f = "method" then
    (⟨⟨(storeString r.Request.Method doc).1, r.Request.Params⟩, r.Params⟩,
      (storeString r.Request.Method doc).2)
  else if f = "params" then
    (⟨r.Request, (storeStruct CompleteRequestParams.members r.Params doc).1⟩,
      (storeStruct CompleteRequestParams.members r.Params doc).2)
  else (r, none)

/-- Generic `json.Unmarshal(data, &r)` for `r CompleteRequest` -/
def CompleteRequest.unmarshal (r : CompleteRequest) (data : Bytes) :
    CompleteRequest × Option JSONError :=
  unmarshalStruct (decodeMembers CompleteRequest.fields CompleteRequest.store) r data

/-- Generic `json.Marshal(r)` for `r CompleteRequest` -/
def CompleteRequest.marshal (r : CompleteRequest) : Bytes × Option JSONError :=
  (.text (.obj [("method", .str r.Request.Method), ("params", .obj r.Params.encode)]), none)

/-! ## Sample documents and notions used in the statements -/

/-- The params object `{"_meta":{"progressToken":"abc"},"foo":1,"bar":[1,2,3]}` -/
def sampleParams : GoMap Value :=
  [("_meta", .obj [("progressToken", .str "abc")]), ("foo", .num 1),
   ("bar", .arr [.num 1, .num 2, .num 3])]

/-- The additional fields `{"foo":1,"bar":[1,2,3]}` -/
def sampleFields : GoMap Value :=
  [("foo", .num 1), ("bar", .arr [.num 1, .num 2, .num 3])]

/-- The request `{"method":"m","params":{"foo":1}}` -/
def sampleRequest : Value :=
  .obj [("method", .str "m"), ("params", .obj [("foo", .num 1)])]

/-- The capabilities object `{"tools":{"listChanged":true},"fooBar":{"x":1}}` -/
def sampleCapabilities : Value :=
  .obj [("tools", .obj [("listChanged", .bool true)]), ("fooBar", .obj [("x", .num 1)])]

/-- The object `{"jsonrpc":"2.0","id":id,"result":result,"error":{"code":code,"message":msg}}`,
which carries both a `result` and an `error` member -/
def resultAndError (id result : Value) (code : Int) (msg : String) : Value :=
  .obj [("jsonrpc", .str "2.0"), ("id", id), ("result", result),
    ("error", .obj [("code", .num code), ("message", .str msg)])]

/-- The request
`{"method":"initialize","params":{"_meta":{"progressToken":"abc"},"protocolVersion":"2024-11-05"}}` -/
def sampleInitialize : Value :=
  .obj [("method", .str "initialize"),
    ("params", .obj [("_meta", .obj [("progressToken", .str "abc")]),
      ("protocolVersion", .str "2024-11-05")])]

/-- The request
`{"method":"resources/read","params":{"_meta":{"progressToken":"abc"},"uri":"file:///a"}}` -/
def sampleReadResource : Value :=
  .obj [("method", .str "resources/read"),
    ("params", .obj [("_meta", .obj [("progressToken", .str "abc")]),
      ("uri", .str "file:///a")])]

/-- The string that the members of an object leave in a `string` field with the
JSON name `name`, of a struct with JSON names `fields`, the field holding `cur`
before: every member whose key selects the field is decoded into it, in order -/
def stringField (fields : List String) (name : String) (kvs : GoMap Value) (cur : String) :
    String :=
  kvs.foldl (fun s kv => if findField fields kv.1 = some name then (storeString s kv.2).1 else s)
    cur

/-- Whether a document is a string or `null` -/
def Value.isStrOrNull : Value → Bool
  | .str _ => true
  | .null => true
  | _ => false

/-- Entries of a map other than the one keyed `_meta` -/
def withoutMeta : GoMap Value → GoMap Value
  | [] => []
  | (k, v) :: rest => if k = "_meta" then withoutMeta rest else (k, v) :: withoutMeta rest

/-- The entry `MarshalJSON` writes for the reserved mapping before its loop -/
def metaEntry (meta : Option (GoMap Value)) : GoMap Value :=
  match meta with
  | some m => [("_meta", .obj m)]
  | none => []

/-- The mapping held under `_meta` when that member is an object, else `dflt` -/
def metaOf (m : GoMap Value) (dflt : GoMap Value) : GoMap Value :=
  match mapGet m "_meta" with
  | some (.obj meta) => meta
  | _ => dflt

/-! ## Lemmas on map reads and writes -/

theorem mapGet_mapSet_same {α : Type} (m : GoMap α) (k : String) (v : α) :
    mapGet (mapSet m k v) k = some v := by
  induction m with
  | nil => simp [mapSet, mapGet]
  | cons e rest ih =>
    obtain ⟨k1, w⟩ := e
    by_cases h : k1 = k
    · simp [mapSet, mapGet, h]
    · simp [mapSet, mapGet, h, ih]

theorem mapGet_mapSet_ne {α : Type} (m : GoMap α) (k key : String) (v : α) (h : k ≠ key) :
    mapGet (mapSet m k v) key = mapGet m key := by
  induction m with
  | nil => simp [mapSet, mapGet, h]
  | cons e rest ih =>
    obtain ⟨k1, w⟩ := e
    by_cases h1 : k1 = k
    · subst h1
      simp [mapSet, mapGet, h]
    · by_cases h2 : k1 = key
      · subst h2
        simp [mapSet, mapGet, h1]
      · simp [mapSet, mapGet, h1, h2, ih]

theorem mapGet_eq_none_iff {α : Type} (m : GoMap α) (k : String) :
    mapGet m k = none ↔ k ∉ mapKeys m := by
  induction m with
  | nil => simp [mapGet, mapKeys]
  | cons e rest ih =>
    obtain ⟨k1, w⟩ := e
    by_cases h : k1 = k
    · simp [mapGet, mapKeys, h]
    · have h2 : ¬ k = k1 := fun e => h e.symm
      simp only [mapKeys] at ih
      simp [mapGet, mapKeys, h, h2, ih]

theorem mapGet_isSome_iff {α : Type} (m : GoMap α) (k : String) :
    (mapGet m k).isSome = true ↔ k ∈ mapKeys m := by
  rw [← not_iff_not, ← mapGet_eq_none_iff]
  cases mapGet m k <;> simp

theorem mem_mapKeys_mapSet {α : Type} (m : GoMap α) (k key : String) (v : α) :
    key ∈ mapKeys (mapSet m k v) ↔ key = k ∨ key ∈ mapKeys m := by
  rw [← mapGet_isSome_iff, ← mapGet_isSome_iff]
  by_cases h : k = key
  · subst h
    simp [mapGet_mapSet_same]
  · have h2 : ¬ key = k := fun e => h e.symm
    simp [mapGet_mapSet_ne m k key v h, h2]

theorem mapSet_of_not_mem {α : Type} (m : GoMap α) (k : String) (v : α)
    (h : k ∉ mapKeys m) : mapSet m k v = m ++ [(k, v)] := by
  induction m with
  | nil => simp [mapSet]
  | cons e rest ih =>
    obtain ⟨k1, w⟩ := e
    simp only [mapKeys, List.map_cons, List.mem_cons, not_or] at h
    have h1 : ¬ k1 = k := fun e => h.1 e.symm
    have h2 : k ∉ mapKeys rest := h.2
    simp [mapSet, h1, ih h2]

theorem nodup_mapKeys_mapSet {α : Type} (m : GoMap α) (k : String) (v : α)
    (h : (mapKeys m).Nodup) : (mapKeys (mapSet m k v)).Nodup := by
  induction m with
  | nil => simp [mapSet, mapKeys]
  | cons e rest ih =>
    obtain ⟨k1, w⟩ := e
    simp only [mapKeys, List.map_cons, List.nodup_cons] at h
    by_cases h1 : k1 = k
    · subst h1
      simp only [mapSet, if_true, mapKeys, List.map_cons, List.nodup_cons]
      exact h
    · have hk : k1 ∉ mapKeys (mapSet rest k v) := by
        rw [mem_mapKeys_mapSet]
        intro hc
        rcases hc with hc | hc
        · exact h1 hc
        · exact h.1 hc
      simp only [mapSet, h1, if_false, mapKeys, List.map_cons, List.nodup_cons]
      exact ⟨hk, ih h.2⟩

/-- Filling a map entry by entry from a list with distinct keys, none of them
in the map yet, appends the list -/
theorem foldl_mapSet_append (l m : GoMap Value)
    (hl : (mapKeys l).Nodup) (hd : ∀ k ∈ mapKeys l, k ∉ mapKeys m) :
    l.foldl (fun m kv => mapSet m kv.1 kv.2) m = m ++ l := by
  induction l generalizing m with
  | nil => simp
  | cons e rest ih =>
    obtain ⟨k1, w⟩ := e
    simp only [mapKeys, List.map_cons, List.nodup_cons] at hl
    have h1 : k1 ∉ mapKeys m := hd k1 (by simp [mapKeys])
    simp only [List.foldl_cons]
    rw [mapSet_of_not_mem m k1 w h1, ih (m ++ [(k1, w)]) hl.2]
    · simp
    · intro k hk hc
      simp only [mapKeys, List.map_append, List.map_cons, List.map_nil, List.mem_append,
        List.mem_singleton] at hc
      rcases hc with hc | hc
      · exact hd k (by simp only [mapKeys, List.map_cons, List.mem_cons]; exact Or.inr hk) hc
      · subst hc
        exact hl.1 hk

/-- Reading a map filled entry by entry from a list with distinct keys -/
theorem foldl_mapSet_get (l m : GoMap Value) (k : String) (hl : (mapKeys l).Nodup) :
    mapGet (l.foldl (fun m kv => mapSet m kv.1 kv.2) m) k
      = (match mapGet l k with
         | some v => some v
         | none => mapGet m k) := by
  induction l generalizing m with
  | nil => simp [mapGet]
  | cons e rest ih =>
    obtain ⟨k1, w⟩ := e
    simp only [mapKeys, List.map_cons, List.nodup_cons] at hl
    simp only [List.foldl_cons]
    rw [ih _ hl.2]
    by_cases h : k1 = k
    · subst h
      have hn : mapGet rest k1 = none := (mapGet_eq_none_iff rest k1).2 hl.1
      simp [mapGet, hn, mapGet_mapSet_same]
    · simp [mapGet, h, mapGet_mapSet_ne m k1 k w h]

theorem foldl_mapSet_nodup (l m : GoMap Value) (hm : (mapKeys m).Nodup) :
    (mapKeys (l.foldl (fun m kv => mapSet m kv.1 kv.2) m)).Nodup := by
  induction l generalizing m with
  | nil => simpa using hm
  | cons e rest ih =>
    simp only [List.foldl_cons]
    exact ih _ (nodup_mapKeys_mapSet m e.1 e.2 hm)

theorem foldl_mapSet_mem (l m : GoMap Value) (k : String) :
    k ∈ mapKeys (l.foldl (fun m kv => mapSet m kv.1 kv.2) m) ↔ k ∈ mapKeys m ∨ k ∈ mapKeys l := by
  induction l generalizing m with
  | nil => simp [mapKeys]
  | cons e rest ih =>
    simp only [List.foldl_cons]
    rw [ih, mem_mapKeys_mapSet]
    simp only [mapKeys, List.map_cons, List.mem_cons]
    tauto

theorem mapGet_eq_some_iff (l : GoMap Value) (h : (mapKeys l).Nodup) (k : String) (v : Value) :
    mapGet l k = some v ↔ (k, v) ∈ l := by
  induction l with
  | nil => simp [mapGet]
  | cons e rest ih =>
    obtain ⟨k1, w⟩ := e
    simp only [mapKeys, List.map_cons, List.nodup_cons] at h
    by_cases h1 : k1 = k
    · subst h1
      have hn : ∀ v, (k1, v) ∉ rest := fun v hv => h.1 (List.mem_map_of_mem Prod.fst hv)
      simp [mapGet, hn]
      exact eq_comm
    · have h2 : ¬ k = k1 := fun e => h1 e.symm
      simp [mapGet, h1, h2, ih h.2]

theorem mapGet_perm (l1 l2 : GoMap Value) (hp : l1.Perm l2) (h : (mapKeys l1).Nodup)
    (k : String) : mapGet l1 k = mapGet l2 k := by
  have h2 : (mapKeys l2).Nodup := (List.Perm.nodup_iff (List.Perm.map Prod.fst hp)).1 h
  apply Option.ext
  intro v
  simp only [Option.mem_def]
  rw [mapGet_eq_some_iff l1 h, mapGet_eq_some_iff l2 h2]
  exact List.Perm.mem_iff hp

/-! ## Lemmas on the rounding to `float64` -/

theorem bitLenAux_spec : ∀ (fuel n : Nat), n ≤ fuel → n ≠ 0 →
    2 ^ (bitLenAux fuel n - 1) ≤ n ∧ n < 2 ^ (bitLenAux fuel n)
  | 0, n, h, h0 => by omega
  | fuel + 1, n, h, h0 => by
    simp only [bitLenAux, if_neg h0, Nat.add_sub_cancel]
    by_cases h2 : n / 2 = 0
    · have h1 : n = 1 := by omega
      subst h1
      cases fuel <;> simp [bitLenAux]
    · obtain ⟨ih1, ih2⟩ := bitLenAux_spec fuel (n / 2) (by omega) h2
      have hb : bitLenAux fuel (n / 2) ≠ 0 := by
        intro hb
        rw [hb] at ih2
        simp at ih2
        exact h2 ih2
      obtain ⟨b, hb2⟩ := Nat.exists_eq_succ_of_ne_zero hb
      rw [hb2] at ih1 ih2 ⊢
      simp only [Nat.succ_eq_add_one, Nat.add_sub_cancel] at ih1 ih2 ⊢
      have e1 : 2 ^ (b + 1) = 2 * 2 ^ b := by ring
      have e2 : 2 ^ (b + 1 + 1) = 4 * 2 ^ b := by ring
      rw [e1] at ih2 ⊢
      rw [e2]
      generalize 2 ^ b = p at *
      omega

/-- The binary digits of a positive number: `2 ^ (bitLen n - 1) ≤ n < 2 ^ bitLen n` -/
theorem bitLen_spec (n : Nat) (h : n ≠ 0) : 2 ^ (bitLen n - 1) ≤ n ∧ n < 2 ^ bitLen n :=
  bitLenAux_spec n n (le_refl n) h

theorem bitLen_unique (n L : Nat) (h1 : 2 ^ L ≤ n) (h2 : n < 2 ^ (L + 1)) :
    bitLen n = L + 1 := by
  have h0 : n ≠ 0 := by
    have := Nat.two_pow_pos L
    omega
  obtain ⟨a, b⟩ := bitLen_spec n h0
  have c1 : bitLen n - 1 < L + 1 :=
    (Nat.pow_lt_pow_iff_right (by decide : 1 < 2)).1 (lt_of_le_of_lt a h2)
  have c2 : L < bitLen n :=
    (Nat.pow_lt_pow_iff_right (by decide : 1 < 2)).1 (lt_of_le_of_lt h1 b)
  omega

/-- A significand of 53 binary digits times a power of two is a `float64`
magnitude: rounding leaves it as it is -/
theorem roundMag_scaled (c k : Nat) (h1 : 2 ^ 52 ≤ c) (h2 : c < 2 ^ 53) :
    roundMag (c * 2 ^ k) = c * 2 ^ k := by
  unfold roundMag
  split
  · rfl
  · have hL : bitLen (c * 2 ^ k) = (52 + k) + 1 := by
      apply bitLen_unique
      · rw [pow_add]; exact Nat.mul_le_mul_right _ h1
      · rw [show 52 + k + 1 = 53 + k by omega, pow_add]
        exact Nat.mul_lt_mul_of_pos_right h2 (Nat.two_pow_pos _)
    have he : bitLen (c * 2 ^ k) - 53 = k := by omega
    have hp : 0 < 2 ^ k := Nat.two_pow_pos _
    rw [he, Nat.mul_mod_left, Nat.mul_div_cancel _ hp]
    rw [if_neg]
    intro h
    rcases h with h | ⟨h, _⟩ <;> omega

/-- Rounding twice is rounding once -/
theorem roundMag_idem (n : Nat) : roundMag (roundMag n) = roundMag n := by
  by_cases h : n < 2 ^ 53
  · have hr : roundMag n = n := if_pos h
    rw [hr, hr]
  · have h0 : n ≠ 0 := by
      intro h0; subst h0; simp at h
    obtain ⟨a, b⟩ := bitLen_spec n h0
    have hL : 53 < bitLen n := by
      have : 2 ^ 53 < 2 ^ bitLen n := lt_of_le_of_lt (Nat.le_of_not_lt h) b
      exact (Nat.pow_lt_pow_iff_right (by decide : 1 < 2)).1 this
    obtain ⟨e, he⟩ : ∃ e, bitLen n = 53 + e := ⟨bitLen n - 53, by omega⟩
    have hp : 0 < 2 ^ e := Nat.two_pow_pos _
    have hq1 : 2 ^ 52 ≤ n / 2 ^ e := by
      rw [Nat.le_div_iff_mul_le hp, ← pow_add]
      rw [he, show 53 + e - 1 = 52 + e by omega] at a
      exact a
    have hq2 : n / 2 ^ e < 2 ^ 53 := by
      rw [Nat.div_lt_iff_lt_mul hp, ← pow_add]
      rw [he] at b
      exact b
    have key : ∀ q, 2 ^ 52 ≤ q → q ≤ 2 ^ 53 → roundMag (q * 2 ^ e) = q * 2 ^ e := by
      intro q q1 q2
      rcases Nat.lt_or_ge q (2 ^ 53) with q3 | q3
      · exact roundMag_scaled q e q1 q3
      · have : q = 2 ^ 53 := le_antisymm q2 q3
        subst this
        have : 2 ^ 53 * 2 ^ e = 2 ^ 52 * 2 ^ (e + 1) := by
          rw [pow_succ]; ring
        rw [this]
        exact roundMag_scaled _ _ (le_refl _) (by decide)
    have hr : roundMag n = (if 2 ^ e < 2 * (n % 2 ^ e)
        ∨ (2 * (n % 2 ^ e) = 2 ^ e ∧ (n / 2 ^ e) % 2 = 1)
      then n / 2 ^ e + 1 else n / 2 ^ e) * 2 ^ e := by
      unfold roundMag
      rw [if_neg h, he, Nat.add_sub_cancel_left]
    rw [hr]
    split
    · exact key _ (by omega) (by omega)
    · exact key _ hq1 (by omega)

/-- A `float64` read back from its digits is itself -/
theorem toFloat64_idem (n m : Int) (h : toFloat64 n = some m) : toFloat64 m = some m := by
  unfold toFloat64 at h
  split at h
  · rename_i hb
    simp only [Option.some.injEq] at h
    have hm : m.natAbs = roundMag n.natAbs := by
      rw [← h]; split <;> simp
    unfold toFloat64
    rw [hm, roundMag_idem, if_pos hb]
    congr 1
    rw [← h]
    by_cases hn : n < 0
    · simp only [if_pos hn]
      by_cases hz : roundMag n.natAbs = 0
      · simp [hz]
      · have : -(roundMag n.natAbs : Int) < 0 := by omega
        simp [this]
    · simp only [if_neg hn]
      have : ¬ ((roundMag n.natAbs : Int) < 0) := by omega
      simp [this]
  · cases h

/-- An integer below `2 ^ 53` in magnitude is a `float64` -/
theorem toFloat64_small (n : Int) (h : n.natAbs < 2 ^ 53) : toFloat64 n = some n := by
  have hr : roundMag n.natAbs = n.natAbs := if_pos h
  have hb : bitLen n.natAbs ≤ 1024 := by
    by_cases h0 : n.natAbs = 0
    · rw [h0]; decide
    · obtain ⟨a, _⟩ := bitLen_spec _ h0
      have : 2 ^ (bitLen n.natAbs - 1) < 2 ^ 53 := lt_of_le_of_lt a h
      have := (Nat.pow_lt_pow_iff_right (by decide : 1 < 2)).1 this
      omega
  unfold toFloat64
  rw [hr, if_pos hb]
  congr 1
  split <;> omega

theorem roundMag_le (n : Nat) : roundMag n ≤ 2 * n := by
  by_cases h : n < 2 ^ 53
  · have hr : roundMag n = n := if_pos h
    omega
  · have h0 : n ≠ 0 := by
      intro h0; subst h0; simp at h
    obtain ⟨a, b⟩ := bitLen_spec n h0
    have hL : 53 < bitLen n := by
      have : 2 ^ 53 < 2 ^ bitLen n := lt_of_le_of_lt (Nat.le_of_not_lt h) b
      exact (Nat.pow_lt_pow_iff_right (by decide : 1 < 2)).1 this
    have hp : 0 < 2 ^ (bitLen n - 53) := Nat.two_pow_pos _
    have he : 2 ^ (bitLen n - 53) ≤ n := by
      refine le_trans ?_ a
      exact Nat.pow_le_pow_right (by decide) (by omega)
    have hq : n / 2 ^ (bitLen n - 53) * 2 ^ (bitLen n - 53) ≤ n := Nat.div_mul_le_self _ _
    unfold roundMag
    rw [if_neg h]
    split
    · rw [Nat.add_mul]
      omega
    · omega

/-- A number below `2 ^ 1023` in magnitude is within the range of `float64` -/
theorem toFloat64_isSome (n : Int) (h : n.natAbs < 2 ^ 1023) : (toFloat64 n).isSome = true := by
  have h1 : roundMag n.natAbs < 2 ^ 1024 := by
    have := roundMag_le n.natAbs
    have e : 2 ^ 1024 = 2 * 2 ^ 1023 := by norm_num
    omega
  have hb : bitLen (roundMag n.natAbs) ≤ 1024 := by
    by_cases h0 : roundMag n.natAbs = 0
    · rw [h0]; decide
    · obtain ⟨a, _⟩ := bitLen_spec _ h0
      have : 2 ^ (bitLen (roundMag n.natAbs) - 1) < 2 ^ 1024 := lt_of_le_of_lt a h1
      have := (Nat.pow_lt_pow_iff_right (by decide : 1 < 2)).1 this
      omega
  unfold toFloat64
  rw [if_pos hb]
  rfl

/-! ## Lemmas on the generic decoder -/

theorem mapGet_append {α : Type} (l1 l2 : GoMap α) (k : String) :
    mapGet (l1 ++ l2) k
      = (match mapGet l1 k with
         | some v => some v
         | none => mapGet l2 k) := by
  induction l1 with
  | nil => simp [mapGet]
  | cons e rest ih =>
    obtain ⟨k1, w⟩ := e
    by_cases h : k1 = k
    · simp [mapGet, h]
    · simp [mapGet, h, ih]

/-- Reading a map filled entry by entry from a list: the last entry of the list
keyed `k`, or else what the map held -/
theorem foldl_mapSet_last (l m : GoMap Value) (k : String) :
    mapGet (l.foldl (fun m kv => mapSet m kv.1 kv.2) m) k
      = (match lastValue l k with
         | some v => some v
         | none => mapGet m k) := by
  induction l generalizing m with
  | nil => simp [lastValue, mapGet]
  | cons e rest ih =>
    obtain ⟨k1, w⟩ := e
    simp only [List.foldl_cons]
    rw [ih]
    simp only [lastValue, List.reverse_cons, mapGet_append]
    cases hr : mapGet rest.reverse k with
    | some v => simp
    | none =>
      by_cases h : k1 = k
      · subst h
        simp [mapGet, mapGet_mapSet_same]
      · simp [mapGet, h, mapGet_mapSet_ne m k1 k w h]

theorem lastValue_of_nodup (l : GoMap Value) (k : String) (h : (mapKeys l).Nodup) :
    lastValue l k = mapGet l k := by
  have h1 := foldl_mapSet_last l [] k
  have h2 := foldl_mapSet_get l [] k h
  rw [h1] at h2
  cases h3 : lastValue l k <;> cases h4 : mapGet l k <;> simp_all [mapGet]

theorem mapGet_decodedMembers (l : GoMap Value) (k : String) :
    mapGet (decodedMembers l) k = (mapGet l k).map Value.decoded := by
  induction l with
  | nil => simp [decodedMembers, mapGet]
  | cons e rest ih =>
    obtain ⟨k1, w⟩ := e
    by_cases h : k1 = k
    · simp [decodedMembers, mapGet, h]
    · simpa [decodedMembers, mapGet, h] using ih

theorem lastValue_decodedMembers (l : GoMap Value) (k : String) :
    lastValue (decodedMembers l) k = (lastValue l k).map Value.decoded := by
  unfold lastValue
  have : (decodedMembers l).reverse = decodedMembers l.reverse := by
    simp [decodedMembers, List.map_reverse]
  rw [this, mapGet_decodedMembers]

theorem mapKeys_decodedMembers (l : GoMap Value) : mapKeys (decodedMembers l) = mapKeys l := by
  simp [decodedMembers, mapKeys, Function.comp_def]

/-- The map the decoder fills from the members of an object -/
theorem toGoMembers_fst (kvs : List (String × Value)) (m : GoMap Value) :
    (toGoMembers kvs m).1 = (decodedMembers kvs).foldl (fun m kv => mapSet m kv.1 kv.2) m := by
  induction kvs generalizing m with
  | nil => simp [toGoMembers, decodedMembers]
  | cons e rest ih =>
    obtain ⟨k, v⟩ := e
    simp only [toGoMembers]
    rw [ih]
    simp [decodedMembers, Value.decoded]

theorem firstError_ite (a b : Bool) :
    firstError (if a = true then none else some JSONError.UnmarshalTypeError)
        (if b = true then none else some JSONError.UnmarshalTypeError)
      = if (a && b) = true then none else some JSONError.UnmarshalTypeError := by
  cases a <;> cases b <;> rfl

theorem toGo_num_snd (o : Option Int) :
    (match o with
      | some m => (Value.num m, (none : Option JSONError))
      | none => (Value.null, some JSONError.UnmarshalTypeError)).2
      = if o.isSome = true then none else some JSONError.UnmarshalTypeError := by
  cases o <;> rfl

mutual
/-- The generic decoder reports an error exactly for a number out of range -/
theorem toGo_snd : ∀ v : Value,
    (toGo v).2 = if v.inRange = true then none else some JSONError.UnmarshalTypeError
  | .null => by simp [toGo, Value.inRange]
  | .bool b => by simp [toGo, Value.inRange]
  | .num n => by
    simp only [toGo, Value.inRange]
    exact toGo_num_snd _
  | .str s => by simp [toGo, Value.inRange]
  | .arr xs => by
    simp only [toGo, Value.inRange]
    exact toGoList_snd xs
  | .obj kvs => by
    simp only [toGo, Value.inRange]
    exact toGoMembers_snd kvs []
theorem toGoList_snd : ∀ xs : List Value,
    (toGoList xs).2
      = if Value.inRangeList xs = true then none else some JSONError.UnmarshalTypeError
  | [] => by simp [toGoList, Value.inRangeList]
  | x :: xs => by
    simp only [toGoList, Value.inRangeList]
    rw [toGo_snd x, toGoList_snd xs]
    exact firstError_ite _ _
theorem toGoMembers_snd : ∀ (kvs : List (String × Value)) (m : GoMap Value),
    (toGoMembers kvs m).2
      = if Value.inRangeMembers kvs = true then none else some JSONError.UnmarshalTypeError
  | [], m => by simp [toGoMembers, Value.inRangeMembers]
  | (k, v) :: rest, m => by
    simp only [toGoMembers, Value.inRangeMembers]
    rw [toGo_snd v, toGoMembers_snd rest _]
    exact firstError_ite _ _
end

/-- Filling a map as the decoder builds them with values that decoding leaves
as they are gives such a map again -/
theorem goodMap_foldl (l m : GoMap Value) (hm : GoodMap m)
    (hl : ∀ kv ∈ l, toGo kv.2 = (kv.2, none)) :
    GoodMap (l.foldl (fun m kv => mapSet m kv.1 kv.2) m) := by
  refine ⟨foldl_mapSet_nodup l m hm.1, ?_⟩
  induction l generalizing m with
  | nil => simpa using hm.2
  | cons e rest ih =>
    simp only [List.foldl_cons]
    apply ih
    · refine ⟨nodup_mapKeys_mapSet m e.1 e.2 hm.1, ?_⟩
      have he := hl e (by simp)
      clear ih hl
      obtain ⟨hn, hv⟩ := hm
      clear hn
      induction m with
      | nil =>
        intro kv hkv
        simp only [mapSet, List.mem_singleton] at hkv
        subst hkv
        exact he
      | cons x xs ihx =>
        obtain ⟨k1, w⟩ := x
        intro kv hkv
        by_cases h1 : k1 = e.1
        · simp only [mapSet, h1, if_true, List.mem_cons] at hkv
          rcases hkv with hkv | hkv
          · subst hkv
            exact he
          · exact hv kv (by simp [hkv])
        · simp only [mapSet, h1, if_false, List.mem_cons] at hkv
          rcases hkv with hkv | hkv
          · subst hkv
            exact hv _ (by simp)
          · exact ihx (fun kv hkv => hv kv (by simp [hkv])) kv hkv
    · intro kv hkv
      exact hl kv (by simp [hkv])

/-- A map as the decoder builds them is read back as it is -/
theorem toGoMembers_of_good (l m : GoMap Value) (hl : GoodMap l)
    (hd : ∀ k ∈ mapKeys l, k ∉ mapKeys m) : toGoMembers l m = (m ++ l, none) := by
  have hv : decodedMembers l = l := by
    have h2 := hl.2
    clear hd
    clear hl
    induction l with
    | nil => rfl
    | cons e rest ih =>
      have he := h2 e (by simp)
      simp only [decodedMembers, List.map_cons, Value.decoded, he]
      have := ih (fun kv hkv => h2 kv (by simp [hkv]))
      simp only [decodedMembers, Value.decoded] at this
      rw [this]
  have hr : Value.inRangeMembers l = true := by
    have h2 := hl.2
    clear hd hv
    clear hl
    induction l with
    | nil => rfl
    | cons e rest ih =>
      obtain ⟨k, v⟩ := e
      have he := h2 (k, v) (by simp)
      have h3 := toGo_snd v
      rw [he] at h3
      simp only [Value.inRangeMembers, Bool.and_eq_true]
      refine ⟨?_, ih (fun kv hkv => h2 kv (by simp [hkv]))⟩
      by_contra hc
      simp [hc] at h3
  apply Prod.ext
  · rw [toGoMembers_fst, hv]
    exact foldl_mapSet_append l m hl.1 hd
  · rw [toGoMembers_snd, hr]
    rfl

/-- An object whose members form a map as the decoder builds them is left as it
is by decoding -/
theorem toGo_obj_of_good (m : GoMap Value) (h : GoodMap m) : toGo (.obj m) = (.obj m, none) := by
  simp only [toGo]
  rw [toGoMembers_of_good m [] h (by simp [mapKeys])]
  simp

mutual
/-- What the generic decoder produces is left as it is when decoded again -/
theorem toGo_idem : ∀ v : Value, toGo (toGo v).1 = ((toGo v).1, none)
  | .null => by simp [toGo]
  | .bool b => by simp [toGo]
  | .num n => by
    cases h : toFloat64 n with
    | none => simp [toGo, h]
    | some m => simp [toGo, h, toFloat64_idem n m h]
  | .str s => by simp [toGo]
  | .arr xs => by
    have := toGoList_idem xs
    simp only [toGo]
    rw [this]
  | .obj kvs => by
    have hg : GoodMap (toGoMembers kvs []).1 := by
      rw [toGoMembers_fst]
      apply goodMap_foldl
      · exact ⟨by simp [mapKeys], by simp⟩
      · intro kv hkv
        simp only [decodedMembers, List.mem_map] at hkv
        obtain ⟨a, ha, rfl⟩ := hkv
        exact toGoMembers_idem kvs a ha
    simp only [toGo]
    rw [toGoMembers_of_good _ [] hg (by simp [mapKeys])]
    simp
theorem toGoList_idem : ∀ xs : List Value, toGoList (toGoList xs).1 = ((toGoList xs).1, none)
  | [] => by simp [toGoList]
  | x :: xs => by
    have h1 := toGo_idem x
    have h2 := toGoList_idem xs
    simp only [toGoList]
    rw [h1, h2]
    simp [firstError]
theorem toGoMembers_idem : ∀ (kvs : List (String × Value)) (kv : String × Value),
    kv ∈ kvs → toGo (toGo kv.2).1 = ((toGo kv.2).1, none)
  | [], kv, h => by simp at h
  | (k, v) :: rest, kv, h => by
    by_cases he : kv = (k, v)
    · subst he
      exact toGo_idem v
    · have h2 : kv ∈ rest := by
        simp only [List.mem_cons] at h
        rcases h with h | h
        · exact absurd h he
        · exact h
      exact toGoMembers_idem rest kv h2
end

/-- The map filled from the members of any object is a map as the decoder
builds them -/
theorem goodMap_toGoMembers (kvs : List (String × Value)) (m : GoMap Value) (hm : GoodMap m) :
    GoodMap (toGoMembers kvs m).1 := by
  rw [toGoMembers_fst]
  apply goodMap_foldl _ _ hm
  intro kv hkv
  simp only [decodedMembers, List.mem_map] at hkv
  obtain ⟨a, _, rfl⟩ := hkv
  exact toGo_idem a.2

theorem goodMap_nil : GoodMap [] := ⟨by simp [mapKeys], by simp⟩

/-- Reading the map filled from the members of an object: the decoded value of
the last member with that key -/
theorem mapGet_toGoMembers (kvs : List (String × Value)) (k : String) :
    mapGet (toGoMembers kvs []).1 k = (lastValue kvs k).map Value.decoded := by
  rw [toGoMembers_fst, foldl_mapSet_last, lastValue_decodedMembers]
  cases lastValue kvs k <;> simp [mapGet]

theorem mem_mapKeys_toGoMembers (kvs : List (String × Value)) (m : GoMap Value) (k : String) :
    k ∈ mapKeys (toGoMembers kvs m).1 ↔ k ∈ mapKeys m ∨ k ∈ mapKeys kvs := by
  rw [toGoMembers_fst, foldl_mapSet_mem, mapKeys_decodedMembers]

/-- The members of an object with distinct keys go into a fresh map in order -/
theorem toGoMembers_nodup (kvs : List (String × Value)) (h : (mapKeys kvs).Nodup) :
    (toGoMembers kvs []).1 = decodedMembers kvs := by
  rw [toGoMembers_fst, foldl_mapSet_append _ [] (by rwa [mapKeys_decodedMembers])
    (by simp [mapKeys])]
  simp

theorem mem_of_mapGet {α : Type} (l : GoMap α) (k : String) (v : α) (h : mapGet l k = some v) :
    (k, v) ∈ l := by
  induction l with
  | nil => simp [mapGet] at h
  | cons e rest ih =>
    obtain ⟨k1, w⟩ := e
    by_cases h1 : k1 = k
    · simp only [mapGet, h1, if_true, Option.some.injEq] at h
      simp [h1, h]
    · simp only [mapGet, h1, if_false] at h
      exact List.mem_cons_of_mem _ (ih h)

theorem mem_of_lastValue (l : GoMap Value) (k : String) (v : Value)
    (h : lastValue l k = some v) : (k, v) ∈ l := by
  have := mem_of_mapGet l.reverse k v h
  simpa using this

theorem lastValue_isSome_iff (l : GoMap Value) (k : String) :
    (lastValue l k).isSome ↔ k ∈ mapKeys l := by
  unfold lastValue
  rw [mapGet_isSome_iff]
  simp [mapKeys]

/-- The reserved mapping read from the map filled from the members of an object:
the decoded `_meta` member, the last one, when it is an object -/
theorem metaOf_toGoMembers (kvs : List (String × Value)) (dflt : GoMap Value) :
    metaOf (toGoMembers kvs []).1 dflt
      = (match lastValue kvs "_meta" with
         | some (.obj meta) => (toGoMembers meta []).1
         | _ => dflt) := by
  unfold metaOf
  rw [mapGet_toGoMembers]
  cases h : lastValue kvs "_meta" with
  | none => simp
  | some v =>
    cases v with
    | num n =>
      simp only [Option.map_some', Value.decoded, toGo]
      cases toFloat64 n <;> simp
    | _ => simp [Value.decoded, toGo]

theorem toGoList_fst (xs : List Value) : (toGoList xs).1 = xs.map Value.decoded := by
  induction xs with
  | nil => rfl
  | cons x rest ih => simp [toGoList, ih, Value.decoded]

/-- The generic value of an array: its elements decoded, in order -/
theorem decoded_arr (xs : List Value) : (Value.arr xs).decoded = .arr (xs.map Value.decoded) := by
  simp [Value.decoded, toGo, toGoList_fst]

/-- The generic value of an integer below `2 ^ 53` in magnitude is that integer -/
theorem decoded_num_small (n : Int) (h : n.natAbs < 2 ^ 53) :
    (Value.num n).decoded = .num n := by
  simp [Value.decoded, toGo, toFloat64_small n h]

/-- The generic decoder on a document whose numbers are in range -/
theorem toGo_of_inRange (v : Value) (h : v.inRange = true) : toGo v = (v.decoded, none) := by
  apply Prod.ext
  · rfl
  · rw [toGo_snd, h]
    rfl

theorem toGo_of_not_inRange (v : Value) (h : v.inRange = false) :
    (toGo v).2 = some .UnmarshalTypeError := by
  rw [toGo_snd, h]
  simp

theorem storeInterface_num_snd (cur : Value) (o : Option Int) :
    (match o with
      | some m => (Value.num m, (none : Option JSONError))
      | none => (cur, some JSONError.UnmarshalTypeError)).2
      = if o.isSome = true then none else some JSONError.UnmarshalTypeError := by
  cases o <;> rfl

/-- Decoding into an `interface{}` that holds nil is the generic decoder -/
theorem storeInterface_null (v : Value) : storeInterface .null v = toGo v := by
  cases v with
  | num n =>
    simp only [storeInterface, toGo]
  | _ => rfl

/-- Decoding a document whose numbers are in range into an `interface{}` -/
theorem storeInterface_of_inRange (cur v : Value) (h : v.inRange = true) :
    storeInterface cur v = (v.decoded, none) := by
  cases v with
  | num n =>
    simp only [Value.inRange] at h
    obtain ⟨m, hm⟩ := Option.isSome_iff_exists.1 h
    simp [storeInterface, Value.decoded, toGo, hm]
  | null => rfl
  | bool b => rfl
  | str s => rfl
  | arr xs => exact toGo_of_inRange _ h
  | obj kvs => exact toGo_of_inRange _ h

theorem storeInterface_snd (cur v : Value) :
    (storeInterface cur v).2
      = if v.inRange = true then none else some JSONError.UnmarshalTypeError := by
  cases v with
  | num n =>
    simp only [storeInterface, Value.inRange]
    exact storeInterface_num_snd cur _
  | null => rfl
  | bool b => rfl
  | str s => rfl
  | arr xs => exact toGo_snd _
  | obj kvs => exact toGo_snd _

/-- A number that fits 64 bits is within the range of `float64` -/
theorem inRange_num_int64 (n : Int)
    (h : -9223372036854775808 ≤ n ∧ n ≤ 9223372036854775807) :
    (Value.num n).inRange = true := by
  simp only [Value.inRange]
  apply toFloat64_isSome
  have h2 : (2 : Nat) ^ 1023 = 2 ^ 64 * 2 ^ 959 := by norm_num
  have h3 : 0 < 2 ^ 959 := Nat.two_pow_pos _
  have h4 : n.natAbs < 2 ^ 64 := by omega
  calc n.natAbs < 2 ^ 64 := h4
    _ ≤ 2 ^ 64 * 2 ^ 959 := Nat.le_mul_of_pos_right _ h3
    _ = 2 ^ 1023 := h2.symm

/-- Decoding the elements of an array into a nil `[]interface{}` is the generic
decoder on each -/
theorem storeInterfaces_nil (xs : List Value) : storeInterfaces xs [] = toGoList xs := by
  induction xs with
  | nil => rfl
  | cons x rest ih =>
    simp only [storeInterfaces, List.headD_nil, List.tail_nil, storeInterface_null, ih, toGoList]

/-- The generic value of an object: a map with distinct keys that holds, under
every key of the object, the decoded value of the last member with that key -/
theorem decoded_obj (kvs : List (String × Value)) :
    ∃ m, (Value.obj kvs).decoded = .obj m ∧ (mapKeys m).Nodup
      ∧ (∀ k, k ∈ mapKeys m ↔ k ∈ mapKeys kvs)
      ∧ ∀ k, mapGet m k = (lastValue kvs k).map Value.decoded := by
  refine ⟨(toGoMembers kvs []).1, rfl, (goodMap_toGoMembers kvs [] goodMap_nil).1, ?_,
    mapGet_toGoMembers kvs⟩
  intro k
  rw [mem_mapKeys_toGoMembers]
  simp [mapKeys]

/-! ## Lemmas on the two loops of the params codec -/

theorem mapGet_withoutMeta (m : GoMap Value) (k : String) :
    mapGet (withoutMeta m) k = if k = "_meta" then none else mapGet m k := by
  induction m with
  | nil => simp [withoutMeta, mapGet]
  | cons e rest ih =>
    obtain ⟨k1, w⟩ := e
    by_cases h1 : k1 = "_meta"
    · subst h1
      by_cases h2 : k = "_meta"
      · subst h2
        simpa [withoutMeta] using ih
      · have h3 : ¬ "_meta" = k := fun e => h2 e.symm
        simp [withoutMeta, ih, h2, mapGet, h3]
    · by_cases h2 : k1 = k
      · subst h2
        simp [withoutMeta, h1, mapGet]
      · simp [withoutMeta, h1, mapGet, h2, ih]

theorem mem_mapKeys_withoutMeta (m : GoMap Value) (k : String) :
    k ∈ mapKeys (withoutMeta m) ↔ k ≠ "_meta" ∧ k ∈ mapKeys m := by
  rw [← mapGet_isSome_iff, ← mapGet_isSome_iff, mapGet_withoutMeta]
  by_cases h : k = "_meta" <;> simp [h]

theorem nodup_mapKeys_withoutMeta (m : GoMap Value) (h : (mapKeys m).Nodup) :
    (mapKeys (withoutMeta m)).Nodup := by
  have hs : List.Sublist (withoutMeta m) m := by
    clear h
    induction m with
    | nil => simp [withoutMeta]
    | cons e rest ih =>
      obtain ⟨k1, w⟩ := e
      by_cases h1 : k1 = "_meta"
      · simp only [withoutMeta, h1, if_true]
        exact List.Sublist.cons _ ih
      · simp only [withoutMeta, h1, if_false]
        exact List.Sublist.cons₂ _ ih
  exact List.Nodup.sublist (List.Sublist.map Prod.fst hs) h

theorem withoutMeta_eq_self (m : GoMap Value) (h : "_meta" ∉ mapKeys m) :
    withoutMeta m = m := by
  induction m with
  | nil => simp [withoutMeta]
  | cons e rest ih =>
    obtain ⟨k1, w⟩ := e
    simp only [mapKeys, List.map_cons, List.mem_cons, not_or] at h
    have h1 : ¬ k1 = "_meta" := fun e => h.1 e.symm
    simp only [withoutMeta, h1, if_false]
    rw [ih h.2]

/-- The loop of `MarshalJSON` writes the entries other than `_meta` -/
theorem foldl_marshalStep_eq (l m : GoMap Value) :
    l.foldl marshalStep m = (withoutMeta l).foldl (fun m kv => mapSet m kv.1 kv.2) m := by
  induction l generalizing m with
  | nil => simp [withoutMeta]
  | cons e rest ih =>
    obtain ⟨k1, w⟩ := e
    by_cases h1 : k1 = "_meta"
    · simp [withoutMeta, marshalStep, h1, ih]
    · simp [withoutMeta, marshalStep, h1, ih]

/-- The loop of `UnmarshalJSON` writes the entries other than `_meta` into the
additional fields -/
theorem foldl_unmarshalStep_snd (l : GoMap Value) (s : GoMap Value × GoMap Value) :
    (l.foldl unmarshalStep s).2
      = (withoutMeta l).foldl (fun m kv => mapSet m kv.1 kv.2) s.2 := by
  induction l generalizing s with
  | nil => simp [withoutMeta]
  | cons e rest ih =>
    obtain ⟨k1, w⟩ := e
    by_cases h1 : k1 = "_meta"
    · subst h1
      cases w <;> simp [withoutMeta, unmarshalStep, ih]
    · simp [withoutMeta, unmarshalStep, h1, ih]

theorem foldl_unmarshalStep_fst_of_not_mem (l : GoMap Value) (s : GoMap Value × GoMap Value)
    (h : "_meta" ∉ mapKeys l) : (l.foldl unmarshalStep s).1 = s.1 := by
  induction l generalizing s with
  | nil => simp
  | cons e rest ih =>
    obtain ⟨k1, w⟩ := e
    simp only [mapKeys, List.map_cons, List.mem_cons, not_or] at h
    have h1 : ¬ k1 = "_meta" := fun e => h.1 e.symm
    simp only [List.foldl_cons]
    rw [ih _ h.2]
    simp [unmarshalStep, h1]

/-- The loop of `UnmarshalJSON` takes the reserved mapping from the `_meta`
member when it is an object -/
theorem foldl_unmarshalStep_fst (l : GoMap Value) (s : GoMap Value × GoMap Value)
    (hl : (mapKeys l).Nodup) : (l.foldl unmarshalStep s).1 = metaOf l s.1 := by
  induction l generalizing s with
  | nil => simp [metaOf, mapGet]
  | cons e rest ih =>
    obtain ⟨k1, w⟩ := e
    simp only [mapKeys, List.map_cons, List.nodup_cons] at hl
    simp only [List.foldl_cons]
    by_cases h1 : k1 = "_meta"
    · subst h1
      rw [foldl_unmarshalStep_fst_of_not_mem rest _ hl.1]
      cases w <;> simp [unmarshalStep, metaOf, mapGet]
    · rw [ih _ hl.2]
      simp [unmarshalStep, metaOf, mapGet, h1]

theorem foldl_mapSet_get_of_not_mem (l m : GoMap Value) (k : String) (h : k ∉ mapKeys l) :
    mapGet (l.foldl (fun m kv => mapSet m kv.1 kv.2) m) k = mapGet m k := by
  induction l generalizing m with
  | nil => simp
  | cons e rest ih =>
    obtain ⟨k1, w⟩ := e
    simp only [mapKeys, List.map_cons, List.mem_cons, not_or] at h
    have h1 : k1 ≠ k := fun e => h.1 e.symm
    simp only [List.foldl_cons]
    rw [ih _ h.2, mapGet_mapSet_ne m k1 k w h1]

theorem not_mem_mapKeys_withoutMeta (m : GoMap Value) : "_meta" ∉ mapKeys (withoutMeta m) := by
  rw [mem_mapKeys_withoutMeta]
  simp

theorem withoutMeta_idem (m : GoMap Value) : withoutMeta (withoutMeta m) = withoutMeta m :=
  withoutMeta_eq_self _ (not_mem_mapKeys_withoutMeta m)

theorem mapKeys_metaEntry (meta : Option (GoMap Value)) (k : String) :
    k ∈ mapKeys (metaEntry meta) ↔ k = "_meta" ∧ meta ≠ none := by
  cases meta <;> simp [metaEntry, mapKeys]

theorem nodup_mapKeys_metaEntry (meta : Option (GoMap Value)) :
    (mapKeys (metaEntry meta)).Nodup := by
  cases meta <;> simp [metaEntry, mapKeys]

/-- The map built by `MarshalJSON`, as a fill of the reserved entry -/
theorem marshalMap_eq_foldl (p : NotificationParams) :
    p.marshalMap
      = (withoutMeta (p.AdditionalFields.getD [])).foldl (fun m kv => mapSet m kv.1 kv.2)
          (metaEntry p.Meta) := by
  unfold NotificationParams.marshalMap
  rw [foldl_marshalStep_eq]
  cases p.Meta <;> simp [metaEntry, mapSet]

/-- The map built by `MarshalJSON` when the additional fields have distinct keys -/
theorem marshalMap_eq_append (p : NotificationParams)
    (h : (mapKeys (p.AdditionalFields.getD [])).Nodup) :
    p.marshalMap = metaEntry p.Meta ++ withoutMeta (p.AdditionalFields.getD []) := by
  rw [marshalMap_eq_foldl]
  apply foldl_mapSet_append _ _ (nodup_mapKeys_withoutMeta _ h)
  intro k hk hc
  rw [mapKeys_metaEntry] at hc
  rw [mem_mapKeys_withoutMeta] at hk
  exact hk.1 hc.1

theorem mapGet_marshalMap_meta (p : NotificationParams) :
    mapGet p.marshalMap "_meta" = p.Meta.map Value.obj := by
  rw [marshalMap_eq_foldl, foldl_mapSet_get_of_not_mem _ _ _ (not_mem_mapKeys_withoutMeta _)]
  cases p.Meta <;> simp [metaEntry, mapGet]

theorem mem_mapKeys_marshalMap (p : NotificationParams) (k : String) :
    k ∈ mapKeys p.marshalMap
      ↔ (k = "_meta" ∧ p.Meta ≠ none)
        ∨ (k ≠ "_meta" ∧ k ∈ mapKeys (p.AdditionalFields.getD [])) := by
  rw [marshalMap_eq_foldl, foldl_mapSet_mem, mapKeys_metaEntry, mem_mapKeys_withoutMeta]

theorem nodup_mapKeys_marshalMap (p : NotificationParams) : (mapKeys p.marshalMap).Nodup := by
  rw [marshalMap_eq_foldl]
  exact foldl_mapSet_nodup _ _ (nodup_mapKeys_metaEntry _)

theorem mapGet_marshalMap_of_ne (p : NotificationParams) (k : String) (hk : k ≠ "_meta")
    (h : (mapKeys (p.AdditionalFields.getD [])).Nodup) :
    mapGet p.marshalMap k = mapGet (p.AdditionalFields.getD []) k := by
  rw [marshalMap_eq_foldl, foldl_mapSet_get _ _ _ (nodup_mapKeys_withoutMeta _ h),
    mapGet_withoutMeta]
  simp only [hk, if_false]
  have hb : mapGet (metaEntry p.Meta) k = none := by
    rw [mapGet_eq_none_iff, mapKeys_metaEntry]
    exact fun hc => hk hc.1
  cases mapGet (p.AdditionalFields.getD []) k <;> simp [hb]

/-- The method `UnmarshalJSON` on an object that holds a number out of range:
the error of `json.Unmarshal` is returned and the receiver is as it was -/
theorem unmarshal_obj_err (p : NotificationParams) (kvs : GoMap Value)
    (h : Value.inRangeMembers kvs = false) :
    p.UnmarshalJSON (.text (.obj kvs)) = (p, some .UnmarshalTypeError) := by
  simp [NotificationParams.UnmarshalJSON, jsonUnmarshalMap, toGoMembers_snd, h]

/-- The method `UnmarshalJSON` on an object whose numbers are in range, in terms
of the map `json.Unmarshal` hands to the loop -/
theorem unmarshal_obj (p : NotificationParams) (kvs : GoMap Value)
    (h : Value.inRangeMembers kvs = true) :
    p.UnmarshalJSON (.text (.obj kvs))
      = (⟨some (metaOf (toGoMembers kvs []).1 (p.Meta.getD [])),
          some ((withoutMeta (toGoMembers kvs []).1).foldl (fun m kv => mapSet m kv.1 kv.2)
            (p.AdditionalFields.getD []))⟩, none) := by
  have hn : (mapKeys (toGoMembers kvs []).1).Nodup := (goodMap_toGoMembers kvs [] goodMap_nil).1
  simp only [NotificationParams.UnmarshalJSON, jsonUnmarshalMap, toGoMembers_snd, h, if_true,
    Option.getD_some]
  rw [foldl_unmarshalStep_fst _ _ hn, foldl_unmarshalStep_snd]

/-- Decoding an object whose numbers are in range into a fresh value -/
theorem decode_obj (kvs : GoMap Value) (h : Value.inRangeMembers kvs = true) :
    decode (.text (.obj kvs))
      = (⟨some (metaOf (toGoMembers kvs []).1 []),
          some (withoutMeta (toGoMembers kvs []).1)⟩, none) := by
  have hn : (mapKeys (toGoMembers kvs []).1).Nodup := (goodMap_toGoMembers kvs [] goodMap_nil).1
  rw [decode, unmarshal_obj _ _ h]
  simp only [NotificationParams.zero, Option.getD_none]
  rw [foldl_mapSet_append _ [] (nodup_mapKeys_withoutMeta _ hn) (by simp [mapKeys])]
  simp

/-- Decoding an object that holds a number out of range into a fresh value -/
theorem decode_obj_err (kvs : GoMap Value) (h : Value.inRangeMembers kvs = false) :
    decode (.text (.obj kvs)) = (⟨none, none⟩, some .UnmarshalTypeError) := by
  rw [decode, unmarshal_obj_err _ _ h]
  rfl

/-- Decoding a map as the generic decoder builds them, written as an object -/
theorem decode_obj_good (m : GoMap Value) (h : GoodMap m) :
    decode (.text (.obj m)) = (⟨some (metaOf m []), some (withoutMeta m)⟩, none) := by
  have h1 := toGoMembers_of_good m [] h (by simp [mapKeys])
  have hr : Value.inRangeMembers m = true := by
    have h2 := toGoMembers_snd m []
    rw [h1] at h2
    by_contra hc
    simp [hc] at h2
  rw [decode_obj m hr, h1]
  simp

theorem goodMap_withoutMeta (m : GoMap Value) (h : GoodMap m) : GoodMap (withoutMeta m) := by
  refine ⟨nodup_mapKeys_withoutMeta m h.1, ?_⟩
  intro kv hkv
  apply h.2
  have h1 : mapGet (withoutMeta m) kv.1 = some kv.2 :=
    (mapGet_eq_some_iff _ (nodup_mapKeys_withoutMeta m h.1) kv.1 kv.2).2 hkv
  rw [mapGet_withoutMeta] at h1
  by_cases hk : kv.1 = "_meta"
  · simp [hk] at h1
  · simp only [hk, if_false] at h1
    exact (mapGet_eq_some_iff m h.1 kv.1 kv.2).1 h1

/-- The reserved mapping taken from a map as the decoder builds them is such a
map -/
theorem goodMap_metaOf (m : GoMap Value) (h : GoodMap m) : GoodMap (metaOf m []) := by
  unfold metaOf
  cases hm : mapGet m "_meta" with
  | none => exact goodMap_nil
  | some v =>
    cases v with
    | obj meta =>
      have hmem : ("_meta", Value.obj meta) ∈ m := (mapGet_eq_some_iff m h.1 _ _).1 hm
      have hs := h.2 _ hmem
      simp only [toGo] at hs
      have h1 : (toGoMembers meta []).1 = meta := by
        have := congrArg Prod.fst hs
        simpa using this
      rw [← h1]
      exact goodMap_toGoMembers meta [] goodMap_nil
    | _ => exact goodMap_nil

/-- The map `MarshalJSON` builds from maps as the decoder builds them is such a
map -/
theorem goodMap_marshalMap (p : NotificationParams) (hm : GoodMap (p.Meta.getD []))
    (ha : GoodMap (p.AdditionalFields.getD [])) : GoodMap p.marshalMap := by
  rw [marshalMap_eq_foldl]
  apply goodMap_foldl
  · refine ⟨nodup_mapKeys_metaEntry _, ?_⟩
    intro kv hkv
    cases hp : p.Meta with
    | none => simp [hp, metaEntry] at hkv
    | some meta =>
      simp only [hp, metaEntry, List.mem_singleton] at hkv
      subst hkv
      rw [hp] at hm
      exact toGo_obj_of_good meta hm
  · exact (goodMap_withoutMeta _ ha).2

/-- Decoding what `MarshalJSON` returns for a value whose two maps are maps as
the decoder builds them -/
theorem decode_marshal (p : NotificationParams) (hm : GoodMap (p.Meta.getD []))
    (ha : GoodMap (p.AdditionalFields.getD [])) :
    decode (.text (.obj p.marshalMap))
      = (⟨some (p.Meta.getD []), some (withoutMeta (p.AdditionalFields.getD []))⟩, none) := by
  rw [decode_obj_good _ (goodMap_marshalMap p hm ha), marshalMap_eq_append p ha.1]
  have h1 : withoutMeta (metaEntry p.Meta ++ withoutMeta (p.AdditionalFields.getD []))
      = withoutMeta (p.AdditionalFields.getD []) := by
    cases p.Meta <;> simp [metaEntry, withoutMeta, withoutMeta_idem]
  have h2 : metaOf (metaEntry p.Meta ++ withoutMeta (p.AdditionalFields.getD [])) []
      = p.Meta.getD [] := by
    cases hm : p.Meta with
    | some m => simp [metaEntry, metaOf, mapGet]
    | none =>
      have hg : mapGet (withoutMeta (p.AdditionalFields.getD [])) "_meta" = none :=
        (mapGet_eq_none_iff _ _).2 (not_mem_mapKeys_withoutMeta _)
      simp [metaEntry, metaOf, hg]
  rw [h1, h2]

/-! ## The order of `range` over a map

Go leaves the order of `for k, v := range m` unspecified.  The loops above are
modelled as a left fold over the entries in list order; the lemmas of this section
show that the map each loop builds is the same for every order of the entries. -/

/-- The map built by the loop of `MarshalJSON` does not depend on the order in
which the additional fields are visited -/
theorem marshal_range_order (l1 l2 m : GoMap Value) (hp : l1.Perm l2)
    (h : (mapKeys l1).Nodup) (k : String) :
    mapGet (l1.foldl marshalStep m) k = mapGet (l2.foldl marshalStep m) k := by
  have h2 : (mapKeys l2).Nodup := (List.Perm.nodup_iff (List.Perm.map Prod.fst hp)).1 h
  rw [foldl_marshalStep_eq, foldl_marshalStep_eq,
    foldl_mapSet_get _ _ _ (nodup_mapKeys_withoutMeta _ h),
    foldl_mapSet_get _ _ _ (nodup_mapKeys_withoutMeta _ h2),
    mapGet_withoutMeta, mapGet_withoutMeta, mapGet_perm l1 l2 hp h k]

/-- The two maps built by the loop of `UnmarshalJSON` do not depend on the order
in which the members are visited -/
theorem unmarshal_range_order (l1 l2 : GoMap Value) (s : GoMap Value × GoMap Value)
    (hp : l1.Perm l2) (h : (mapKeys l1).Nodup) :
    (l1.foldl unmarshalStep s).1 = (l2.foldl unmarshalStep s).1
    ∧ ∀ k, mapGet (l1.foldl unmarshalStep s).2 k = mapGet (l2.foldl unmarshalStep s).2 k := by
  have h2 : (mapKeys l2).Nodup := (List.Perm.nodup_iff (List.Perm.map Prod.fst hp)).1 h
  constructor
  · rw [foldl_unmarshalStep_fst l1 s h, foldl_unmarshalStep_fst l2 s h2]
    simp only [metaOf, mapGet_perm l1 l2 hp h]
  · intro k
    rw [foldl_unmarshalStep_snd, foldl_unmarshalStep_snd,
      foldl_mapSet_get _ _ _ (nodup_mapKeys_withoutMeta _ h),
      foldl_mapSet_get _ _ _ (nodup_mapKeys_withoutMeta _ h2),
      mapGet_withoutMeta, mapGet_withoutMeta, mapGet_perm l1 l2 hp h k]

/-! ## The params container: decoding then encoding (C1) -/

/-- C1, as stated, fails on `{"foo":1}`: decoding it into a fresh value succeeds
with an empty non-nil `Meta`, and encoding that value yields
`{"_meta":{},"foo":1}`, which has a key `_meta` that the input does not have.
It also fails on values that decoding changes: `{"n":9007199254740993}` comes
back as `{"_meta":{},"n":9007199254740992}`, `{"a":{"k":1,"k":2}}` with
`{"k":2}` under `a`, and `{"n":1e400}` is not decoded at all. -/
theorem C1_counterexample :
    decode (.text (.obj [("foo", .num 1)])) = (⟨some [], some [("foo", .num 1)]⟩, none)
    ∧ NotificationParams.MarshalJSON ⟨some [], some [("foo", .num 1)]⟩
        = (.text (.obj [("_meta", .obj []), ("foo", .num 1)]), none)
    ∧ mapGet [("_meta", Value.obj []), ("foo", Value.num 1)] "_meta" = some (.obj [])
    ∧ mapGet [("foo", Value.num 1)] "_meta" = none
    ∧ decode (.text (.obj [("n", .num 9007199254740993)]))
        = (⟨some [], some [("n", .num 9007199254740992)]⟩, none)
    ∧ NotificationParams.MarshalJSON ⟨some [], some [("n", .num 9007199254740992)]⟩
        = (.text (.obj [("_meta", .obj []), ("n", .num 9007199254740992)]), none)
    ∧ decode (.text (.obj [("a", .obj [("k", .num 1), ("k", .num 2)])]))
        = (⟨some [], some [("a", .obj [("k", .num 2)])]⟩, none)
    ∧ decode (.text (.obj [("n", .num (10 ^ 400))]))
        = (⟨none, none⟩, some .UnmarshalTypeError) := by
  set_option maxRecDepth 100000 in decide

/-- C1, amended: for every JSON object `o`, decoding `o` into a fresh value fails
with a type error when `o` holds a number outside the range of `float64`, and
otherwise succeeds; encoding the result then yields an object with distinct keys,
which are `_meta` and the keys of `o`; under every key other than `_meta` it
holds the value of `o` (of the last member with that key) as the generic decoder
stores it, and under `_meta` the decoded object `o` has there, or the empty
object when `o` has no `_meta` member or one that is not an object.  So the
output agrees with `o` under every key whenever the `_meta` member of `o` is an
object and decoding leaves the values of `o` as they are. -/
theorem C1_decode_then_encode (kvs : GoMap Value) :
    (Value.inRangeMembers kvs = false →
        decode (.text (.obj kvs)) = (⟨none, none⟩, some .UnmarshalTypeError))
    ∧ (Value.inRangeMembers kvs = true →
        ∃ p out, decode (.text (.obj kvs)) = (p, none)
          ∧ p.MarshalJSON = (.text (.obj out), none)
          ∧ (mapKeys out).Nodup
          ∧ (∀ k, k ∈ mapKeys out ↔ k = "_meta" ∨ k ∈ mapKeys kvs)
          ∧ (∀ k, k ≠ "_meta" → mapGet out k = (lastValue kvs k).map Value.decoded)
          ∧ mapGet out "_meta"
              = some (match lastValue kvs "_meta" with
                  | some (.obj meta) => (Value.obj meta).decoded
                  | _ => .obj [])
          ∧ ((∀ kv ∈ kvs, kv.2.decoded = kv.2) →
              (∃ meta, lastValue kvs "_meta" = some (.obj meta)) →
              ∀ k, mapGet out k = lastValue kvs k)) := by
  refine ⟨decode_obj_err kvs, fun hr => ?_⟩
  have hg : GoodMap (toGoMembers kvs []).1 := goodMap_toGoMembers kvs [] goodMap_nil
  have hw : (mapKeys (withoutMeta (toGoMembers kvs []).1)).Nodup :=
    nodup_mapKeys_withoutMeta _ hg.1
  have hne : ∀ k, k ≠ "_meta" →
      mapGet (NotificationParams.mk (some (metaOf (toGoMembers kvs []).1 []))
          (some (withoutMeta (toGoMembers kvs []).1))).marshalMap k
        = (lastValue kvs k).map Value.decoded := by
    intro k hk
    rw [mapGet_marshalMap_of_ne _ k hk (by simpa using hw)]
    simp [mapGet_withoutMeta, hk, mapGet_toGoMembers]
  have hmeta :
      mapGet (NotificationParams.mk (some (metaOf (toGoMembers kvs []).1 []))
          (some (withoutMeta (toGoMembers kvs []).1))).marshalMap "_meta"
        = some (match lastValue kvs "_meta" with
            | some (.obj meta) => (Value.obj meta).decoded
            | _ => .obj []) := by
    rw [mapGet_marshalMap_meta, metaOf_toGoMembers]
    cases lastValue kvs "_meta" with
    | none => rfl
    | some v => cases v <;> rfl
  refine ⟨⟨some (metaOf (toGoMembers kvs []).1 []), some (withoutMeta (toGoMembers kvs []).1)⟩,
    _, decode_obj kvs hr, rfl, nodup_mapKeys_marshalMap _, ?_, hne, hmeta, ?_⟩
  · intro k
    rw [mem_mapKeys_marshalMap]
    simp only [Option.getD_some, mem_mapKeys_withoutMeta, mem_mapKeys_toGoMembers]
    by_cases hk : k = "_meta"
    · simp [hk]
    · simp [hk, mapKeys]
  · intro hs hm k
    by_cases hk : k = "_meta"
    · subst hk
      obtain ⟨meta, hm⟩ := hm
      rw [hmeta, hm]
      have := hs _ (mem_of_lastValue kvs _ _ hm)
      simp only at this
      simp [this]
    · rw [hne k hk]
      cases hl : lastValue kvs k with
      | none => rfl
      | some v =>
        have := hs _ (mem_of_lastValue kvs _ _ hl)
        simp only at this
        simp [this]

/-- Witness of C1 on `{"_meta":{"progressToken":"abc"},"foo":1,"bar":[1,2,3]}`:
the output agrees with the input under every key -/
theorem C1_decode_then_encode_witness :
    ∃ p out, decode (.text (.obj sampleParams)) = (p, none)
      ∧ p.MarshalJSON = (.text (.obj out), none)
      ∧ (mapKeys out).Nodup
      ∧ (∀ k, k ∈ mapKeys out ↔ k = "_meta" ∨ k ∈ mapKeys sampleParams)
      ∧ (∀ k, k ≠ "_meta" → mapGet out k = (lastValue sampleParams k).map Value.decoded)
      ∧ mapGet out "_meta"
          = some (match lastValue sampleParams "_meta" with
              | some (.obj meta) => (Value.obj meta).decoded
              | _ => .obj [])
      ∧ ((∀ kv ∈ sampleParams, kv.2.decoded = kv.2) →
          (∃ meta, lastValue sampleParams "_meta" = some (.obj meta)) →
          ∀ k, mapGet out k = lastValue sampleParams k) :=
  (C1_decode_then_encode sampleParams).2 (by decide)

/-! ## The params container: encoding then decoding (C2) -/

/-- C2, as stated, fails when both mappings are nil: encoding `(nil, nil)` yields
`{}`, and decoding `{}` into a fresh value yields two empty non-nil maps, a value
that differs from `(nil, nil)` and encodes differently (`{"_meta":{}}`).  It also
fails on a value that the decoder does not produce: the integer
`9007199254740993` held in the additional fields is written in digits and read
back as the `float64` `9007199254740992`. -/
theorem C2_counterexample :
    NotificationParams.MarshalJSON ⟨none, none⟩ = (.text (.obj []), none)
    ∧ decode (.text (.obj [])) = (⟨some [], some []⟩, none)
    ∧ (⟨some [], some []⟩ : NotificationParams) ≠ ⟨none, none⟩
    ∧ NotificationParams.MarshalJSON ⟨some [], some []⟩
        = (.text (.obj [("_meta", .obj [])]), none)
    ∧ NotificationParams.MarshalJSON ⟨some [], some [("n", .num 9007199254740993)]⟩
        = (.text (.obj [("_meta", .obj []), ("n", .num 9007199254740993)]), none)
    ∧ decode (.text (.obj [("_meta", .obj []), ("n", .num 9007199254740993)]))
        = (⟨some [], some [("n", .num 9007199254740992)]⟩, none) := by
  decide

/-- C2, amended: for every reserved mapping `m` and additional-fields mapping `a`
(each possibly nil) that are maps as the generic decoder builds them (distinct
keys, every value one that decoding leaves as it is: numbers that are `float64`
values, nested maps of the same kind), `a` having no key `_meta`, encoding
`(m, a)` succeeds and decoding the output into a fresh value succeeds with the
entries of `m` and of `a`, a nil mapping coming back as the empty non-nil
mapping.  For non-nil `m` and `a` the result is exactly `(m, a)`. -/
theorem C2_encode_then_decode (m a : Option (GoMap Value))
    (hgm : GoodMap (m.getD [])) (hga : GoodMap (a.getD []))
    (hm : "_meta" ∉ mapKeys (a.getD [])) :
    ∃ out, NotificationParams.MarshalJSON ⟨m, a⟩ = (out, none)
      ∧ decode out = (⟨some (m.getD []), some (a.getD [])⟩, none) := by
  refine ⟨_, rfl, ?_⟩
  rw [decode_marshal ⟨m, a⟩ hgm hga]
  simp only [withoutMeta_eq_self _ hm]

/-- Witness of C2 on `m = {"progressToken":"abc"}`, `a = {"foo":1,"bar":[1,2,3]}` -/
theorem C2_encode_then_decode_witness :
    GoodMap [("progressToken", Value.str "abc")]
    ∧ GoodMap sampleFields
    ∧ "_meta" ∉ mapKeys sampleFields
    ∧ ∃ out, NotificationParams.MarshalJSON
          ⟨some [("progressToken", .str "abc")], some sampleFields⟩ = (out, none)
      ∧ decode out = (⟨some [("progressToken", .str "abc")], some sampleFields⟩, none) :=
  ⟨⟨by decide, by decide⟩, ⟨by decide, by decide⟩, by decide,
    C2_encode_then_decode (some [("progressToken", .str "abc")]) (some sampleFields)
      ⟨by decide, by decide⟩ ⟨by decide, by decide⟩ (by decide)⟩

/-! ## The params container: decode, encode, decode (C3) -/

/-- C3, as stated, fails on `{"n":1e400}`, a well-formed JSON object: decoding it
into a fresh value returns a type error and leaves the zero value, encoding the
zero value yields `{}`, and decoding `{}` succeeds with two empty non-nil maps:
`decode(encode(decode(x)))` is not `decode(x)`. -/
theorem C3_counterexample :
    decode (.text (.obj [("n", .num (10 ^ 400))])) = (⟨none, none⟩, some .UnmarshalTypeError)
    ∧ NotificationParams.MarshalJSON ⟨none, none⟩ = (.text (.obj []), none)
    ∧ decode (.text (.obj [])) = (⟨some [], some []⟩, none)
    ∧ decode (.text (.obj []))
        ≠ decode (.text (.obj [("n", .num (10 ^ 400))])) := by
  set_option maxRecDepth 100000 in decide

/-- C3, amended: for every JSON object `x` whose numbers are within the range of
`float64`, decoding `x` into a fresh value succeeds with some value `p`, encoding
`p` succeeds, and decoding the output into a fresh value gives `p` again; `x` may
hold a `_meta` member that is not an object, and may repeat keys.  On an object
that holds a number out of range decoding fails with a type error. -/
theorem C3_decode_encode_decode (kvs : GoMap Value) :
    (Value.inRangeMembers kvs = false →
        decode (.text (.obj kvs)) = (⟨none, none⟩, some .UnmarshalTypeError))
    ∧ (Value.inRangeMembers kvs = true →
        ∃ p out, decode (.text (.obj kvs)) = (p, none)
          ∧ p.MarshalJSON = (out, none)
          ∧ decode out = (p, none)) := by
  refine ⟨decode_obj_err kvs, fun hr => ?_⟩
  refine ⟨_, _, decode_obj kvs hr, rfl, ?_⟩
  have hg : GoodMap (toGoMembers kvs []).1 := goodMap_toGoMembers kvs [] goodMap_nil
  rw [decode_marshal _ (by simpa using goodMap_metaOf _ hg)
    (by simpa using goodMap_withoutMeta _ hg)]
  simp [withoutMeta_idem]

/-- Witness of C3 on `{"_meta":7,"n":9007199254740993,"n":{"k":1,"k":2}}`, which
has a `_meta` member that is not an object and repeats keys -/
theorem C3_decode_encode_decode_witness :
    ∃ p out, decode (.text (.obj [("_meta", .num 7), ("n", .num 9007199254740993),
          ("n", .obj [("k", .num 1), ("k", .num 2)])])) = (p, none)
      ∧ p.MarshalJSON = (out, none)
      ∧ decode out = (p, none) :=
  (C3_decode_encode_decode [("_meta", .num 7), ("n", .num 9007199254740993),
    ("n", .obj [("k", .num 1), ("k", .num 2)])]).2 (by decide)

/-! ## The params container: decoding partitions the object (C4) -/

/-- C4, as stated, fails on `{"n":9007199254740993}`: the additional field `n` is
stored as `9007199254740992`, the nearest `float64`, not as the original number;
on `{"a":{"k":1,"k":2}}` the nested structure stored under `a` is `{"k":2}`; and
`{"n":1e400}` is not decoded at all: a type error is returned and nothing is
stored. -/
theorem C4_counterexample :
    decode (.text (.obj [("n", .num 9007199254740993)]))
        = (⟨some [], some [("n", .num 9007199254740992)]⟩, none)
    ∧ mapGet [("n", Value.num 9007199254740992)] "n" ≠ some (.num 9007199254740993)
    ∧ decode (.text (.obj [("a", .obj [("k", .num 1), ("k", .num 2)])]))
        = (⟨some [], some [("a", .obj [("k", .num 2)])]⟩, none)
    ∧ decode (.text (.obj [("n", .num (10 ^ 400))]))
        = (⟨none, none⟩, some .UnmarshalTypeError) := by
  set_option maxRecDepth 100000 in decide

/-- C4, amended: for every JSON object `o` whose numbers are within the range of
`float64`, decoding `o` into a fresh value succeeds; when the member `_meta` of
`o` (the last one) is an object, `Meta` is that object as the generic decoder
stores it, and otherwise `Meta` is empty; `AdditionalFields` has distinct keys,
which are exactly the keys of `o` other than `_meta`, and under each of them the
value `o` has there (in its last member with that key) as the generic decoder
stores it.  The stored value of an array is the array of the stored values of its
elements, in order; the stored value of an integer below `2 ^ 53` in magnitude, of
a string, of a boolean and of `null` is the value itself; a larger number is
stored as the nearest `float64`; the stored value of a nested object is a map with
the keys of the object that holds under each the stored value of the last member
with that key. -/
theorem C4_decode_partitions (kvs : GoMap Value) (h : Value.inRangeMembers kvs = true) :
    (∃ meta fields, decode (.text (.obj kvs)) = (⟨some meta, some fields⟩, none)
      ∧ (∀ m, lastValue kvs "_meta" = some (.obj m) → Value.obj meta = (Value.obj m).decoded)
      ∧ ((∀ m, lastValue kvs "_meta" ≠ some (.obj m)) → meta = [])
      ∧ (mapKeys fields).Nodup
      ∧ (∀ k, k ∈ mapKeys fields ↔ k ≠ "_meta" ∧ k ∈ mapKeys kvs)
      ∧ (∀ k, k ≠ "_meta" → mapGet fields k = (lastValue kvs k).map Value.decoded))
    ∧ (∀ xs, (Value.arr xs).decoded = .arr (xs.map Value.decoded))
    ∧ (∀ o : GoMap Value, ∃ m, (Value.obj o).decoded = .obj m ∧ (mapKeys m).Nodup
        ∧ (∀ k, k ∈ mapKeys m ↔ k ∈ mapKeys o)
        ∧ ∀ k, mapGet m k = (lastValue o k).map Value.decoded)
    ∧ (∀ n : Int, n.natAbs < 2 ^ 53 → (Value.num n).decoded = .num n)
    ∧ (∀ n m : Int, toFloat64 n = some m → (Value.num n).decoded = .num m)
    ∧ (∀ s, (Value.str s).decoded = .str s)
    ∧ (∀ b, (Value.bool b).decoded = .bool b)
    ∧ Value.null.decoded = .null := by
  have hg : GoodMap (toGoMembers kvs []).1 := goodMap_toGoMembers kvs [] goodMap_nil
  refine ⟨⟨metaOf (toGoMembers kvs []).1 [], withoutMeta (toGoMembers kvs []).1,
    decode_obj kvs h, ?_, ?_, nodup_mapKeys_withoutMeta _ hg.1, ?_, ?_⟩,
    decoded_arr, decoded_obj, decoded_num_small, ?_, fun _ => rfl, fun _ => rfl, rfl⟩
  · intro m hm
    rw [metaOf_toGoMembers, hm]
    rfl
  · intro hm
    rw [metaOf_toGoMembers]
    cases hl : lastValue kvs "_meta" with
    | none => rfl
    | some v =>
      cases v with
      | obj m => exact absurd hl (hm m)
      | _ => rfl
  · intro k
    rw [mem_mapKeys_withoutMeta, mem_mapKeys_toGoMembers]
    simp [mapKeys]
  · intro k hk
    simp [mapGet_withoutMeta, hk, mapGet_toGoMembers]
  · intro n m hnm
    simp [Value.decoded, toGo, hnm]

/-- Witness of C4 on `{"_meta":{"progressToken":"abc"},"foo":1,"bar":[1,2,3]}` -/
theorem C4_decode_partitions_witness :
    Value.inRangeMembers sampleParams = true
    ∧ decode (.text (.obj sampleParams))
        = (⟨some [("progressToken", .str "abc")], some sampleFields⟩, none)
    ∧ ∃ meta fields, decode (.text (.obj sampleParams)) = (⟨some meta, some fields⟩, none)
      ∧ (∀ m, lastValue sampleParams "_meta" = some (.obj m) →
          Value.obj meta = (Value.obj m).decoded)
      ∧ ((∀ m, lastValue sampleParams "_meta" ≠ some (.obj m)) → meta = [])
      ∧ (mapKeys fields).Nodup
      ∧ (∀ k, k ∈ mapKeys fields ↔ k ≠ "_meta" ∧ k ∈ mapKeys sampleParams)
      ∧ (∀ k, k ≠ "_meta" → mapGet fields k = (lastValue sampleParams k).map Value.decoded) :=
  ⟨by decide, by decide, (C4_decode_partitions sampleParams (by decide)).1⟩

/-! ## The params container: when `_meta` is emitted (C5) -/

/-- C5, as stated, fails on a value whose `Meta` is present with zero entries:
`MarshalJSON` yields `{"_meta":{}}`, an object that has the key `_meta`. -/
theorem C5_counterexample :
    NotificationParams.MarshalJSON ⟨some [], none⟩ = (.text (.obj [("_meta", .obj [])]), none)
    ∧ "_meta" ∈ mapKeys [("_meta", Value.obj [])] := by
  decide

/-- C5, amended: for every `NotificationParams` value, `MarshalJSON` succeeds and
its object has the key `_meta` exactly when `Meta` is non-nil; a `Meta` that is
present with zero entries is emitted as `"_meta":{}`, and a nil `Meta` yields no
`_meta` key. -/
theorem C5_meta_key_iff_non_nil (p : NotificationParams) :
    ∃ out, p.MarshalJSON = (.text (.obj out), none)
      ∧ ("_meta" ∈ mapKeys out ↔ p.Meta ≠ none)
      ∧ (p.Meta = some [] → mapGet out "_meta" = some (.obj []))
      ∧ (p.Meta = none → mapGet out "_meta" = none) := by
  refine ⟨p.marshalMap, rfl, ?_, ?_, ?_⟩
  · rw [mem_mapKeys_marshalMap]
    simp
  · intro h
    rw [mapGet_marshalMap_meta, h]
    rfl
  · intro h
    rw [mapGet_marshalMap_meta, h]
    rfl

/-! ## The params container: the reserved key wins (C6) -/

/-- C6: for every `NotificationParams` value, `MarshalJSON` succeeds and what its
object holds under `_meta` is decided by `Meta` alone: the reserved mapping when
`Meta` is non-nil, nothing when it is nil.  An entry of `AdditionalFields` keyed
`_meta` is discarded: the output is the one of the same value without that
entry. -/
theorem C6_reserved_key_wins (p : NotificationParams) :
    ∃ out, p.MarshalJSON = (.text (.obj out), none)
      ∧ mapGet out "_meta" = p.Meta.map Value.obj
      ∧ NotificationParams.MarshalJSON ⟨p.Meta, p.AdditionalFields.map withoutMeta⟩
          = p.MarshalJSON := by
  refine ⟨p.marshalMap, rfl, mapGet_marshalMap_meta p, ?_⟩
  simp only [NotificationParams.MarshalJSON]
  rw [marshalMap_eq_foldl, marshalMap_eq_foldl p]
  cases p.AdditionalFields <;> simp [withoutMeta_idem, withoutMeta]

/-! ## The params container: keys of the encoded object (C7) -/

/-- C7: for every `NotificationParams` value whose `AdditionalFields` is a map
(distinct keys), `MarshalJSON` succeeds and its object has each key at most once;
its keys are `_meta`, when `Meta` is non-nil, and the keys of `AdditionalFields`
other than `_meta`; every such key `k` holds `AdditionalFields[k]`. -/
theorem C7_encoded_keys (p : NotificationParams)
    (h : (mapKeys (p.AdditionalFields.getD [])).Nodup) :
    ∃ out, p.MarshalJSON = (.text (.obj out), none)
      ∧ (mapKeys out).Nodup
      ∧ (∀ k, k ∈ mapKeys out
          ↔ (k = "_meta" ∧ p.Meta ≠ none)
            ∨ (k ≠ "_meta" ∧ k ∈ mapKeys (p.AdditionalFields.getD [])))
      ∧ (∀ k, k ≠ "_meta" → mapGet out k = mapGet (p.AdditionalFields.getD []) k) :=
  ⟨p.marshalMap, rfl, nodup_mapKeys_marshalMap p, mem_mapKeys_marshalMap p,
    fun k hk => mapGet_marshalMap_of_ne p k hk h⟩

/-- Witness of C7 on `Meta = {"progressToken":"abc"}` and additional fields
`{"foo":1,"bar":[1,2,3]}` -/
theorem C7_encoded_keys_witness :
    (mapKeys sampleFields).Nodup
    ∧ ∃ out, NotificationParams.MarshalJSON
          ⟨some [("progressToken", .str "abc")], some sampleFields⟩
          = (.text (.obj out), none)
      ∧ (mapKeys out).Nodup
      ∧ (∀ k, k ∈ mapKeys out
          ↔ (k = "_meta" ∧ some [("progressToken", Value.str "abc")] ≠ none)
            ∨ (k ≠ "_meta" ∧ k ∈ mapKeys sampleFields))
      ∧ (∀ k, k ≠ "_meta" → mapGet out k = mapGet sampleFields k) :=
  ⟨by decide,
    C7_encoded_keys ⟨some [("progressToken", .str "abc")], some sampleFields⟩ (by decide)⟩

/-! ## Lemmas on the member loop of a struct -/

theorem foldl_decodeStep_skip {σ : Type} (fields : List String)
    (store : String → Value → σ → σ × Option JSONError) (kvs : GoMap Value)
    (s : σ × Option JSONError) (h : ∀ k ∈ mapKeys kvs, findField fields k = none) :
    kvs.foldl (decodeStep fields store) s = s := by
  induction kvs generalizing s with
  | nil => rfl
  | cons e rest ih =>
    have h1 : findField fields e.1 = none := h e.1 (by simp [mapKeys])
    have h2 : ∀ k ∈ mapKeys rest, findField fields k = none := by
      intro k hk
      exact h k (by simp only [mapKeys, List.map_cons, List.mem_cons]; exact Or.inr hk)
    simp only [List.foldl_cons, decodeStep, h1]
    exact ih s h2

/-- Members that select no field leave the struct as it is -/
theorem decodeMembers_skip {σ : Type} (fields : List String)
    (store : String → Value → σ → σ × Option JSONError) (kvs : GoMap Value) (v : σ)
    (h : ∀ k ∈ mapKeys kvs, findField fields k = none) :
    decodeMembers fields store kvs v = (v, none) :=
  foldl_decodeStep_skip fields store kvs (v, none) h

/-- Decoding goes on after members decoded without error -/
theorem decodeMembers_append {σ : Type} (fields : List String)
    (store : String → Value → σ → σ × Option JSONError) (l1 l2 : GoMap Value) (v w : σ)
    (h : decodeMembers fields store l1 v = (w, none)) :
    decodeMembers fields store (l1 ++ l2) v = decodeMembers fields store l2 w := by
  unfold decodeMembers at *
  rw [List.foldl_append, h]

theorem not_mem_of_findField_none (fields : List String) (k : String)
    (h : findField fields k = none) : k ∉ fields := by
  intro hk
  simp [findField, hk] at h

/-- What `MarshalJSON` writes, for a key other than `_meta`, after the decoding
of an object: the decoded value of the last member with that key -/
theorem mapGet_marshalMap_decoded (kvs : GoMap Value) (k : String) (hk : k ≠ "_meta") :
    mapGet (NotificationParams.mk (some (metaOf (toGoMembers kvs []).1 []))
        (some (withoutMeta (toGoMembers kvs []).1))).marshalMap k
      = (lastValue kvs k).map Value.decoded := by
  have hg : GoodMap (toGoMembers kvs []).1 := goodMap_toGoMembers kvs [] goodMap_nil
  rw [mapGet_marshalMap_of_ne _ k hk (by simpa using nodup_mapKeys_withoutMeta _ hg.1)]
  simp [mapGet_withoutMeta, hk, mapGet_toGoMembers]

theorem decodeMembers_cons {σ : Type} (fields : List String)
    (store : String → Value → σ → σ × Option JSONError) (name : String) (doc : Value)
    (rest : GoMap Value) (v : σ) (hf : findField fields name = some name)
    (hs : (store name doc v).2 = none) :
    decodeMembers fields store ((name, doc) :: rest) v
      = decodeMembers fields store rest (store name doc v).1 := by
  simp [decodeMembers, decodeStep, hf, hs, firstError]

/-! ## Vendor fields in the params of `Request` and of `Notification` (C8) -/

/-- C8, as stated, fails on `{"method":"m","params":{"foo":1}}`: decoding it into
`Request` succeeds with a nil `Params.Meta` and nothing else, and encoding that
value yields `{"method":"m","params":{}}`, whose `params` have no key `foo`. -/
theorem C8_counterexample :
    Request.unmarshal Request.zero (.text sampleRequest) = (⟨"m", ⟨none⟩⟩, none)
    ∧ Request.marshal ⟨"m", ⟨none⟩⟩
        = (.text (.obj [("method", .str "m"), ("params", .obj [])]), none)
    ∧ mapGet ([] : GoMap Value) "foo" = none := by
  decide

/-- C8, amended: the generic `Request` type does not use the extensible
container.  For every method name `m` and every `params` object `kvs` of vendor
fields (no key selecting the field `_meta`), decoding `{"method":m,"params":kvs}`
into `Request` succeeds and keeps none of them: encoding the result yields
`{"method":m,"params":{}}`.  Whatever is decoded into `Request`, the re-encoded
`params` have no key other than `_meta`.  The container is the params type of
`Notification`: when the numbers of `kvs` are within the range of `float64`,
decoding the same document into `Notification` and encoding it yields `params`
that hold, under every key other than `_meta`, the value `kvs` has there (in its
last member with that key) as the generic decoder stores it; when a number of
`kvs` is out of range, decoding into `Notification` fails with a type error and
the params stay as they were. -/
theorem C8_vendor_fields (m : String) (kvs : GoMap Value)
    (hv : ∀ k ∈ mapKeys kvs, findField ["_meta"] k = none) :
    (Request.unmarshal Request.zero (.text (.obj [("method", .str m), ("params", .obj kvs)]))
        = (⟨m, ⟨none⟩⟩, none)
      ∧ Request.marshal ⟨m, ⟨none⟩⟩
        = (.text (.obj [("method", .str m), ("params", .obj [])]), none))
    ∧ (∀ data, ∃ params,
        (Request.unmarshal Request.zero data).1.marshal
          = (.text (.obj [("method", .str (Request.unmarshal Request.zero data).1.Method),
              ("params", .obj params)]), none)
        ∧ ∀ k ∈ mapKeys params, k = "_meta")
    ∧ (Value.inRangeMembers kvs = true →
        ∃ n out,
          Notification.unmarshal Notification.zero
              (.text (.obj [("method", .str m), ("params", .obj kvs)])) = (n, none)
          ∧ n.marshal = (.text (.obj [("method", .str m), ("params", .obj out)]), none)
          ∧ ∀ k, k ≠ "_meta" → mapGet out k = (lastValue kvs k).map Value.decoded)
    ∧ (Value.inRangeMembers kvs = false →
        Notification.unmarshal Notification.zero
            (.text (.obj [("method", .str m), ("params", .obj kvs)]))
          = (⟨m, NotificationParams.zero⟩, some .UnmarshalTypeError)) := by
  have h1 : findField ["method", "params"] "method" = some "method" := by decide
  have h2 : findField ["method", "params"] "params" = some "params" := by decide
  refine ⟨⟨?_, rfl⟩, ?_, ?_, ?_⟩
  · have h3 : RequestParams.members kvs ⟨none⟩ = (⟨none⟩, none) :=
      decodeMembers_skip _ _ kvs _ hv
    simp [Request.unmarshal, unmarshalStruct, Request.members, decodeMembers, decodeStep, h1, h2,
      Request.store, storeString, storeStruct, h3, Request.zero, firstError]
  · intro data
    cases hm : (Request.unmarshal Request.zero data).1.Params.Meta with
    | none =>
      refine ⟨[], ?_, ?_⟩
      · simp [Request.marshal, RequestParams.encode, hm]
      · simp [mapKeys]
    | some meta =>
      refine ⟨[("_meta", meta.encode)], ?_, ?_⟩
      · simp [Request.marshal, RequestParams.encode, hm]
      · simp [mapKeys]
  · intro hr
    have h3 : NotificationParams.UnmarshalJSON NotificationParams.zero (.text (.obj kvs))
        = (⟨some (metaOf (toGoMembers kvs []).1 []),
            some (withoutMeta (toGoMembers kvs []).1)⟩, none) := decode_obj kvs hr
    refine ⟨⟨m, ⟨some (metaOf (toGoMembers kvs []).1 []),
      some (withoutMeta (toGoMembers kvs []).1)⟩⟩, _, ?_, rfl, ?_⟩
    · simp [Notification.unmarshal, Notification.members, h1, h2, storeString, h3,
        Notification.zero, firstError]
    · intro k hk
      exact mapGet_marshalMap_decoded kvs k hk
  · intro hr
    have h3 : NotificationParams.UnmarshalJSON NotificationParams.zero (.text (.obj kvs))
        = (NotificationParams.zero, some .UnmarshalTypeError) := unmarshal_obj_err _ kvs hr
    simp [Notification.unmarshal, Notification.members, h1, h2, storeString, h3,
      Notification.zero, firstError]

/-- Witness of C8 on `{"method":"m","params":{"foo":1}}` -/
theorem C8_vendor_fields_witness :
    (∀ k ∈ mapKeys [("foo", Value.num 1)], findField ["_meta"] k = none)
    ∧ Value.inRangeMembers [("foo", Value.num 1)] = true
    ∧ (Request.unmarshal Request.zero
          (.text (.obj [("method", .str "m"), ("params", .obj [("foo", .num 1)])]))
        = (⟨"m", ⟨none⟩⟩, none)
      ∧ Request.marshal ⟨"m", ⟨none⟩⟩
        = (.text (.obj [("method", .str "m"), ("params", .obj [])]), none))
    ∧ (∃ n out,
        Notification.unmarshal Notification.zero
            (.text (.obj [("method", .str "m"), ("params", .obj [("foo", .num 1)])])) = (n, none)
        ∧ n.marshal = (.text (.obj [("method", .str "m"), ("params", .obj out)]), none)
        ∧ ∀ k, k ≠ "_meta" →
            mapGet out k = (lastValue [("foo", Value.num 1)] k).map Value.decoded) :=
  ⟨by decide, by decide, (C8_vendor_fields "m" [("foo", .num 1)] (by decide)).1,
    (C8_vendor_fields "m" [("foo", .num 1)] (by decide)).2.2.1 (by decide)⟩

/-! ## Capabilities: known and unknown keys (C9) -/

/-- C9, the code at `{"tools":{"listChanged":true},"fooBar":{"x":1}}`: decoding it
into `ServerCapabilities` succeeds with `Tools` set and nothing kept of `fooBar`,
and encoding the result yields `{"tools":{"listChanged":true}}`, which has no key
`fooBar`; decoding it into `ClientCapabilities`, which declares neither key,
succeeds with the zero value, encoded as `{}`.  The comments on both types say
that the known capabilities are not a closed set and that a client or server can
define additional ones; the structs have no field that keeps them. -/
theorem C9_unknown_capability_dropped :
    ServerCapabilities.unmarshal ServerCapabilities.zero (.text sampleCapabilities)
        = (⟨none, none, none, none, some ⟨true⟩⟩, none)
    ∧ ServerCapabilities.marshal ⟨none, none, none, none, some ⟨true⟩⟩
        = (.text (.obj [("tools", .obj [("listChanged", .bool true)])]), none)
    ∧ mapGet [("tools", Value.obj [("listChanged", .bool true)])] "fooBar" = none
    ∧ ClientCapabilities.unmarshal ClientCapabilities.zero (.text sampleCapabilities)
        = (⟨none, none, none⟩, none)
    ∧ ClientCapabilities.marshal ⟨none, none, none⟩ = (.text (.obj []), none) := by
  decide

/-! ## Objects that carry both `result` and `error` (C10) -/

theorem jsonrpcResponse_store_ok (f : String) (doc : Value) (r : JSONRPCResponse)
    (h : f = "jsonrpc" → doc.isStrOrNull = true)
    (hn : f = "id" ∨ f = "result" → doc.inRange = true) :
    (JSONRPCResponse.store f doc r).2 = none := by
  unfold JSONRPCResponse.store
  by_cases hf : f = "jsonrpc"
  · have hd := h hf
    cases doc <;> simp [hf, storeString, Value.isStrOrNull] at hd ⊢
  · by_cases h2 : f = "id"
    · simp [hf, h2, storeInterface_snd, hn (Or.inl h2)]
    · by_cases h3 : f = "result"
      · simp [hf, h2, h3, storeInterface_snd, hn (Or.inr h3)]
      · simp [hf, h2, h3]

theorem jsonrpcResponse_foldl_decodeStep_ok (kvs : GoMap Value) (r : JSONRPCResponse)
    (h : ∀ kv ∈ kvs, findField JSONRPCResponse.fields kv.1 = some "jsonrpc" →
      kv.2.isStrOrNull = true)
    (hn : ∀ kv ∈ kvs, findField JSONRPCResponse.fields kv.1 = some "id"
      ∨ findField JSONRPCResponse.fields kv.1 = some "result" → kv.2.inRange = true) :
    (kvs.foldl (decodeStep JSONRPCResponse.fields JSONRPCResponse.store) (r, none)).2 = none := by
  induction kvs generalizing r with
  | nil => rfl
  | cons e rest ih =>
    have hrest : ∀ kv ∈ rest, findField JSONRPCResponse.fields kv.1 = some "jsonrpc" →
        kv.2.isStrOrNull = true := fun kv hkv => h kv (List.mem_cons_of_mem _ hkv)
    have hnrest : ∀ kv ∈ rest, findField JSONRPCResponse.fields kv.1 = some "id"
        ∨ findField JSONRPCResponse.fields kv.1 = some "result" → kv.2.inRange = true :=
      fun kv hkv => hn kv (List.mem_cons_of_mem _ hkv)
    simp only [List.foldl_cons]
    cases hf : findField JSONRPCResponse.fields e.1 with
    | none =>
      simp only [decodeStep, hf]
      exact ih r hrest hnrest
    | some f =>
      have hok : (JSONRPCResponse.store f e.2 r).2 = none := by
        apply jsonrpcResponse_store_ok
        · intro hj
          exact h e (List.mem_cons_self _ _) (by rw [hf, hj])
        · intro hj
          apply hn e (List.mem_cons_self _ _)
          rcases hj with hj | hj
          · exact Or.inl (by rw [hf, hj])
          · exact Or.inr (by rw [hf, hj])
      simp only [decodeStep, hf, hok, firstError]
      exact ih _ hrest hnrest

/-- C10, as stated, fails on
`{"jsonrpc":"2.0","id":1,"result":{},"error":{"code":-32600,"message":"x"}}`:
`json.Unmarshal` accepts it without error as a `JSONRPCResponse` (the `error` member
is skipped), as a `JSONRPCError` (the `result` member is skipped) and as a
`JSONRPCMessage`, an `interface{}`. -/
theorem C10_counterexample :
    JSONRPCResponse.unmarshal JSONRPCResponse.zero
        (.text (resultAndError (.num 1) (.obj []) INVALID_REQUEST "x"))
      = (⟨"2.0", .num 1, .obj []⟩, none)
    ∧ JSONRPCError.unmarshal JSONRPCError.zero
        (.text (resultAndError (.num 1) (.obj []) INVALID_REQUEST "x"))
      = (⟨"2.0", .num 1, ⟨INVALID_REQUEST, "x", .null⟩⟩, none)
    ∧ unmarshalInterface (.text (resultAndError (.num 1) (.obj []) INVALID_REQUEST "x"))
      = (resultAndError (.num 1) (.obj []) INVALID_REQUEST "x", none) := by
  decide

/-- C10, amended: the file has no decoder of messages that looks at the shape of
the envelope; a message is decoded by `json.Unmarshal` into the type the caller
chooses, and a member that the type does not declare is skipped.  For every `id`
and `result` whose numbers are within the range of `float64`, every 64-bit `code`
and every `message`, the object
`{"jsonrpc":"2.0","id":id,"result":result,"error":{"code":code,"message":message}}`
is decoded without error as a `JSONRPCMessage` that holds the object with its four
members as the generic decoder stores them, as a `JSONRPCResponse` holding `id`
and `result` as stored, and as a `JSONRPCError` holding `id` as stored, `code` and
`message`.  More generally every JSON object whose members selecting the field
`jsonrpc` are strings or `null`, and whose members selecting `id` or `result` hold
no number out of range, is decoded without error as a `JSONRPCResponse`, whatever
other members, `error` included, it carries.  The only errors are those of
`encoding/json`: `{"jsonrpc":"2.0","id":1,"result":1e400}` is a type error. -/
theorem C10_result_and_error_accepted (id result : Value) (code : Int) (msg : String)
    (kvs : GoMap Value)
    (hi : id.inRange = true) (hr : result.inRange = true)
    (hc : -9223372036854775808 ≤ code ∧ code ≤ 9223372036854775807)
    (hj : ∀ kv ∈ kvs, findField JSONRPCResponse.fields kv.1 = some "jsonrpc" →
      kv.2.isStrOrNull = true)
    (hn : ∀ kv ∈ kvs, findField JSONRPCResponse.fields kv.1 = some "id"
      ∨ findField JSONRPCResponse.fields kv.1 = some "result" → kv.2.inRange = true) :
    (∃ c, toFloat64 code = some c
      ∧ unmarshalInterface (.text (resultAndError id result code msg))
          = (resultAndError id.decoded result.decoded c msg, none))
    ∧ JSONRPCResponse.unmarshal JSONRPCResponse.zero (.text (resultAndError id result code msg))
        = (⟨"2.0", id.decoded, result.decoded⟩, none)
    ∧ JSONRPCError.unmarshal JSONRPCError.zero (.text (resultAndError id result code msg))
        = (⟨"2.0", id.decoded, ⟨code, msg, .null⟩⟩, none)
    ∧ (JSONRPCResponse.unmarshal JSONRPCResponse.zero (.text (.obj kvs))).2 = none
    ∧ JSONRPCResponse.unmarshal JSONRPCResponse.zero
          (.text (.obj [("jsonrpc", .str "2.0"), ("id", .num 1), ("result", .num (10 ^ 400))]))
        = (⟨"2.0", .num 1, .null⟩, some .UnmarshalTypeError) := by
  have h1 : findField JSONRPCResponse.fields "jsonrpc" = some "jsonrpc" := by decide
  have h2 : findField JSONRPCResponse.fields "id" = some "id" := by decide
  have h3 : findField JSONRPCResponse.fields "result" = some "result" := by decide
  have h4 : findField JSONRPCResponse.fields "error" = none := by decide
  have e1 : findField JSONRPCError.fields "jsonrpc" = some "jsonrpc" := by decide
  have e2 : findField JSONRPCError.fields "id" = some "id" := by decide
  have e3 : findField JSONRPCError.fields "result" = none := by decide
  have e4 : findField JSONRPCError.fields "error" = some "error" := by decide
  have d1 : findField ["code", "message", "data"] "code" = some "code" := by decide
  have d2 : findField ["code", "message", "data"] "message" = some "message" := by decide
  have si := storeInterface_of_inRange .null id hi
  have sr := storeInterface_of_inRange .null result hr
  have hcr : (Value.num code).inRange = true := inRange_num_int64 code hc
  refine ⟨?_, ?_, ?_, ?_, by set_option maxRecDepth 100000 in decide⟩
  · simp only [Value.inRange] at hcr
    obtain ⟨c, hc2⟩ := Option.isSome_iff_exists.1 hcr
    refine ⟨c, hc2, ?_⟩
    have hall : (resultAndError id result code msg).inRange = true := by
      simp [resultAndError, Value.inRange, Value.inRangeMembers, hi, hr, hcr]
    rw [unmarshalInterface, storeInterface_of_inRange _ _ hall]
    simp [resultAndError, Value.decoded, toGo, toGoMembers, mapSet, hc2]
  · simp [JSONRPCResponse.unmarshal, unmarshalStruct, resultAndError, decodeMembers, decodeStep,
      h1, h2, h3, h4, JSONRPCResponse.store, storeString, si, sr, firstError,
      JSONRPCResponse.zero]
  · simp [JSONRPCError.unmarshal, unmarshalStruct, resultAndError, decodeMembers, decodeStep,
      e1, e2, e3, e4, d1, d2, JSONRPCError.store, ErrorDetail.members, ErrorDetail.store,
      storeString, si, storeStruct, storeInt, hc, firstError, JSONRPCError.zero]
  · exact jsonrpcResponse_foldl_decodeStep_ok kvs _ hj hn

/-- Witness of C10 on
`{"jsonrpc":"2.0","id":1,"result":{},"error":{"code":-32600,"message":"x"}}` -/
theorem C10_result_and_error_accepted_witness :
    (Value.num 1).inRange = true
    ∧ (Value.obj []).inRange = true
    ∧ (-9223372036854775808 ≤ INVALID_REQUEST ∧ INVALID_REQUEST ≤ 9223372036854775807)
    ∧ (∀ kv ∈ [("jsonrpc", Value.str "2.0"), ("id", Value.num 1), ("result", Value.obj []),
          ("error", Value.obj [("code", .num INVALID_REQUEST), ("message", .str "x")])],
        findField JSONRPCResponse.fields kv.1 = some "jsonrpc" → kv.2.isStrOrNull = true)
    ∧ (∀ kv ∈ [("jsonrpc", Value.str "2.0"), ("id", Value.num 1), ("result", Value.obj []),
          ("error", Value.obj [("code", .num INVALID_REQUEST), ("message", .str "x")])],
        findField JSONRPCResponse.fields kv.1 = some "id"
          ∨ findField JSONRPCResponse.fields kv.1 = some "result" → kv.2.inRange = true)
    ∧ JSONRPCResponse.unmarshal JSONRPCResponse.zero
          (.text (resultAndError (.num 1) (.obj []) INVALID_REQUEST "x"))
        = (⟨"2.0", (Value.num 1).decoded, (Value.obj []).decoded⟩, none)
    ∧ JSONRPCError.unmarshal JSONRPCError.zero
          (.text (resultAndError (.num 1) (.obj []) INVALID_REQUEST "x"))
        = (⟨"2.0", (Value.num 1).decoded, ⟨INVALID_REQUEST, "x", .null⟩⟩, none)
    ∧ (JSONRPCResponse.unmarshal JSONRPCResponse.zero
          (.text (.obj [("jsonrpc", .str "2.0"), ("id", .num 1), ("result", .obj []),
            ("error", .obj [("code", .num INVALID_REQUEST), ("message", .str "x")])]))).2
        = none :=
  ⟨by decide, by decide, by decide, by decide, by decide,
    (C10_result_and_error_accepted (.num 1) (.obj []) INVALID_REQUEST "x"
      [("jsonrpc", .str "2.0"), ("id", .num 1), ("result", .obj []),
        ("error", .obj [("code", .num INVALID_REQUEST), ("message", .str "x")])]
      (by decide) (by decide) (by decide) (by decide) (by decide)).2.1,
    (C10_result_and_error_accepted (.num 1) (.obj []) INVALID_REQUEST "x"
      [("jsonrpc", .str "2.0"), ("id", .num 1), ("result", .obj []),
        ("error", .obj [("code", .num INVALID_REQUEST), ("message", .str "x")])]
      (by decide) (by decide) (by decide) (by decide) (by decide)).2.2.1,
    (C10_result_and_error_accepted (.num 1) (.obj []) INVALID_REQUEST "x"
      [("jsonrpc", .str "2.0"), ("id", .num 1), ("result", .obj []),
        ("error", .obj [("code", .num INVALID_REQUEST), ("message", .str "x")])]
      (by decide) (by decide) (by decide) (by decide) (by decide)).2.2.2.1⟩

/-! ## The `jsonrpc` member on decode (C11) -/

theorem stringField_of_none (fields : List String) (name : String) (kvs : GoMap Value)
    (cur : String) (h : ∀ kv ∈ kvs, findField fields kv.1 ≠ some name) :
    stringField fields name kvs cur = cur := by
  unfold stringField
  induction kvs generalizing cur with
  | nil => rfl
  | cons e rest ih =>
    have h1 : findField fields e.1 ≠ some name := h e (List.mem_cons_self _ _)
    simp only [List.foldl_cons, h1, if_false]
    exact ih cur (fun kv hkv => h kv (List.mem_cons_of_mem _ hkv))

theorem stringField_append (fields : List String) (name : String) (l1 l2 : GoMap Value)
    (cur : String) :
    stringField fields name (l1 ++ l2) cur
      = stringField fields name l2 (stringField fields name l1 cur) := by
  simp [stringField, List.foldl_append]

/-- The string left in the field is the one of the last member that selects it,
when that member holds a string -/
theorem stringField_last (fields : List String) (name : String) (pre post : GoMap Value)
    (k v cur : String) (hk : findField fields k = some name)
    (hp : ∀ kv ∈ post, findField fields kv.1 ≠ some name) :
    stringField fields name (pre ++ (k, .str v) :: post) cur = v := by
  rw [stringField_append]
  have : stringField fields name ((k, Value.str v) :: post) (stringField fields name pre cur)
      = stringField fields name post v := by
    simp [stringField, hk, storeString]
  rw [this, stringField_of_none _ _ _ _ hp]

/-- The member loop writes to a `string` field through the members that select it -/
theorem foldl_decodeStep_stringField {σ : Type} (fields : List String)
    (store : String → Value → σ → σ × Option JSONError) (proj : σ → String) (name : String)
    (hs : ∀ f doc s, proj (store f doc s).1
      = if f = name then (storeString (proj s) doc).1 else proj s)
    (kvs : GoMap Value) (s : σ × Option JSONError) :
    proj (kvs.foldl (decodeStep fields store) s).1 = stringField fields name kvs (proj s.1) := by
  unfold stringField
  induction kvs generalizing s with
  | nil => rfl
  | cons e rest ih =>
    simp only [List.foldl_cons]
    rw [ih]
    congr 1
    cases hf : findField fields e.1 with
    | none => simp [decodeStep, hf]
    | some f =>
      simp only [decodeStep, hf, hs, Option.some.injEq]

theorem foldl_decodeStep_saved {σ : Type} (fields : List String)
    (store : String → Value → σ → σ × Option JSONError) (kvs : GoMap Value)
    (s : σ × Option JSONError) (h : s.2 ≠ none) :
    (kvs.foldl (decodeStep fields store) s).2 ≠ none := by
  induction kvs generalizing s with
  | nil => exact h
  | cons e rest ih =>
    simp only [List.foldl_cons]
    apply ih
    cases hf : findField fields e.1 with
    | none => simpa [decodeStep, hf] using h
    | some f =>
      obtain ⟨x, hx⟩ := Option.ne_none_iff_exists'.1 h
      simp [decodeStep, hf, hx, firstError]

/-- A member that selects a `string` field and is neither a string nor `null`
makes the decoding an error -/
theorem foldl_decodeStep_bad {σ : Type} (fields : List String)
    (store : String → Value → σ → σ × Option JSONError) (name : String)
    (he : ∀ doc s, doc.isStrOrNull = false → (store name doc s).2 ≠ none)
    (kvs : GoMap Value) (s : σ × Option JSONError)
    (hb : ∃ kv ∈ kvs, findField fields kv.1 = some name ∧ kv.2.isStrOrNull = false) :
    (kvs.foldl (decodeStep fields store) s).2 ≠ none := by
  induction kvs generalizing s with
  | nil =>
    obtain ⟨kv, hkv, _⟩ := hb
    simp at hkv
  | cons e rest ih =>
    simp only [List.foldl_cons]
    obtain ⟨kv, hkv, hf, hbad⟩ := hb
    rcases List.mem_cons.1 hkv with h1 | h1
    · subst h1
      apply foldl_decodeStep_saved
      have := he kv.2 s.1 hbad
      obtain ⟨x, hx⟩ := Option.ne_none_iff_exists'.1 this
      cases hs2 : s.2 <;> simp [decodeStep, hf, hx, firstError, hs2]
    · exact ih _ ⟨kv, h1, hf, hbad⟩

theorem storeString_bad (cur : String) (doc : Value) (h : doc.isStrOrNull = false) :
    (storeString cur doc).2 ≠ none := by
  cases doc <;> simp [Value.isStrOrNull, storeString] at h ⊢

theorem jsonrpcNotification_members_saved (kvs : GoMap Value) (n : JSONRPCNotification)
    (saved : Option JSONError) (h : saved ≠ none) :
    (JSONRPCNotification.members kvs n saved).2 ≠ none := by
  have d1 : ¬ ("method" = "jsonrpc") := by decide
  have d2 : ¬ ("params" = "jsonrpc") := by decide
  have d3 : ¬ ("params" = "method") := by decide
  induction kvs generalizing n saved with
  | nil => simpa [JSONRPCNotification.members] using h
  | cons e rest ih =>
    obtain ⟨k, doc⟩ := e
    obtain ⟨x, hx⟩ := Option.ne_none_iff_exists'.1 h
    have hfe : ∀ e2, firstError saved e2 ≠ none := by
      intro e2
      simp [hx, firstError]
    cases hf : findField JSONRPCNotification.fields k with
    | none =>
      simp only [JSONRPCNotification.members, hf]
      exact ih _ _ h
    | some f =>
      by_cases h1 : f = "jsonrpc"
      · simp only [JSONRPCNotification.members, hf, h1, if_true]
        exact ih _ _ (hfe _)
      · by_cases h2 : f = "method"
        · simp only [JSONRPCNotification.members, hf, h1, h2, d1, d2, d3, if_true, if_false]
          exact ih _ _ (hfe _)
        · by_cases h3 : f = "params"
          · rcases hu : n.Notification.Params.UnmarshalJSON (.text doc) with ⟨p, _ | err⟩
            · simp only [JSONRPCNotification.members, hf, h1, h2, d1, d2, d3, h3, if_true, if_false, hu]
              exact ih _ _ h
            · simp [JSONRPCNotification.members, hf, h1, h2, d1, d2, d3, h3, hu]
          · simp only [JSONRPCNotification.members, hf, h1, h2, d1, d2, d3, h3, if_false]
            exact ih _ _ h

theorem jsonrpcNotification_members_absent (kvs : GoMap Value) (n : JSONRPCNotification)
    (saved : Option JSONError)
    (h : ∀ kv ∈ kvs, findField JSONRPCNotification.fields kv.1 ≠ some "jsonrpc") :
    (JSONRPCNotification.members kvs n saved).1.JSONRPC = n.JSONRPC := by
  have d1 : ¬ ("method" = "jsonrpc") := by decide
  have d2 : ¬ ("params" = "jsonrpc") := by decide
  have d3 : ¬ ("params" = "method") := by decide
  induction kvs generalizing n saved with
  | nil => simp [JSONRPCNotification.members]
  | cons e rest ih =>
    obtain ⟨k, doc⟩ := e
    have hrest : ∀ kv ∈ rest, findField JSONRPCNotification.fields kv.1 ≠ some "jsonrpc" :=
      fun kv hkv => h kv (List.mem_cons_of_mem _ hkv)
    have hk : findField JSONRPCNotification.fields k ≠ some "jsonrpc" :=
      h (k, doc) (List.mem_cons_self _ _)
    cases hf : findField JSONRPCNotification.fields k with
    | none =>
      simp only [JSONRPCNotification.members, hf]
      exact ih _ _ hrest
    | some f =>
      have h1 : f ≠ "jsonrpc" := by
        intro hc
        exact hk (by rw [hf, hc])
      by_cases h2 : f = "method"
      · simp only [JSONRPCNotification.members, hf, h1, h2, d1, d2, d3, if_true, if_false]
        rw [ih _ _ hrest]
      · by_cases h3 : f = "params"
        · rcases hu : n.Notification.Params.UnmarshalJSON (.text doc) with ⟨p, _ | err⟩
          · simp only [JSONRPCNotification.members, hf, h1, h2, d1, d2, d3, h3, if_true, if_false, hu]
            rw [ih _ _ hrest]
          · simp [JSONRPCNotification.members, hf, h1, h2, d1, d2, d3, h3, hu]
        · simp only [JSONRPCNotification.members, hf, h1, h2, d1, d2, d3, h3, if_false]
          exact ih _ _ hrest

theorem jsonrpcNotification_members_stringField (kvs : GoMap Value) (n : JSONRPCNotification)
    (saved : Option JSONError) (h : (JSONRPCNotification.members kvs n saved).2 = none) :
    (JSONRPCNotification.members kvs n saved).1.JSONRPC
      = stringField JSONRPCNotification.fields "jsonrpc" kvs n.JSONRPC := by
  have d1 : ¬ ("method" = "jsonrpc") := by decide
  have d2 : ¬ ("params" = "jsonrpc") := by decide
  have d3 : ¬ ("params" = "method") := by decide
  induction kvs generalizing n saved with
  | nil => simp [JSONRPCNotification.members, stringField]
  | cons e rest ih =>
    obtain ⟨k, doc⟩ := e
    cases hf : findField JSONRPCNotification.fields k with
    | none =>
      simp only [JSONRPCNotification.members, hf] at h ⊢
      rw [ih _ _ h]
      simp [stringField, hf]
    | some f =>
      by_cases h1 : f = "jsonrpc"
      · simp only [JSONRPCNotification.members, hf, h1, if_true] at h ⊢
        rw [ih _ _ h]
        simp [stringField, hf, h1]
      · have hne : ¬ (some f = some "jsonrpc") := by simpa using h1
        by_cases h2 : f = "method"
        · simp only [JSONRPCNotification.members, hf, h1, h2, d1, d2, d3, if_true, if_false] at h ⊢
          rw [ih _ _ h]
          simp [stringField, hf, h2]
        · by_cases h3 : f = "params"
          · rcases hu : n.Notification.Params.UnmarshalJSON (.text doc) with ⟨p, _ | err⟩
            · simp only [JSONRPCNotification.members, hf, h1, h2, d1, d2, d3, h3, if_true, if_false, hu]
                at h ⊢
              rw [ih _ _ h]
              simp [stringField, hf, h3]
            · simp [JSONRPCNotification.members, hf, h1, h2, d1, d2, d3, h3, hu] at h
          · simp only [JSONRPCNotification.members, hf, h1, h2, d1, d2, d3, h3, if_false] at h ⊢
            rw [ih _ _ h]
            simp [stringField, hf, h1]

theorem jsonrpcNotification_members_bad (kvs : GoMap Value) (n : JSONRPCNotification)
    (saved : Option JSONError)
    (hb : ∃ kv ∈ kvs, findField JSONRPCNotification.fields kv.1 = some "jsonrpc"
      ∧ kv.2.isStrOrNull = false) :
    (JSONRPCNotification.members kvs n saved).2 ≠ none := by
  have d1 : ¬ ("method" = "jsonrpc") := by decide
  have d2 : ¬ ("params" = "jsonrpc") := by decide
  have d3 : ¬ ("params" = "method") := by decide
  induction kvs generalizing n saved with
  | nil =>
    obtain ⟨kv, hkv, _⟩ := hb
    simp at hkv
  | cons e rest ih =>
    obtain ⟨k, doc⟩ := e
    obtain ⟨kv, hkv, hfk, hbad⟩ := hb
    rcases List.mem_cons.1 hkv with h0 | h0
    · subst h0
      simp only at hfk hbad
      simp only [JSONRPCNotification.members, hfk, if_true]
      apply jsonrpcNotification_members_saved
      obtain ⟨x, hx⟩ := Option.ne_none_iff_exists'.1 (storeString_bad n.JSONRPC doc hbad)
      cases saved <;> simp [firstError, hx]
    · have hb2 : ∃ kv ∈ rest, findField JSONRPCNotification.fields kv.1 = some "jsonrpc"
          ∧ kv.2.isStrOrNull = false := ⟨kv, h0, hfk, hbad⟩
      cases hf : findField JSONRPCNotification.fields k with
      | none =>
        simp only [JSONRPCNotification.members, hf]
        exact ih _ _ hb2
      | some f =>
        by_cases h1 : f = "jsonrpc"
        · simp only [JSONRPCNotification.members, hf, h1, if_true]
          exact ih _ _ hb2
        · by_cases h2 : f = "method"
          · simp only [JSONRPCNotification.members, hf, h1, h2, d1, d2, d3, if_true, if_false]
            exact ih _ _ hb2
          · by_cases h3 : f = "params"
            · rcases hu : n.Notification.Params.UnmarshalJSON (.text doc) with ⟨p, _ | err⟩
              · simp only [JSONRPCNotification.members, hf, h1, h2, d1, d2, d3, h3, if_true, if_false, hu]
                exact ih _ _ hb2
              · simp [JSONRPCNotification.members, hf, h1, h2, d1, d2, d3, h3, hu]
            · simp only [JSONRPCNotification.members, hf, h1, h2, d1, d2, d3, h3, if_false]
              exact ih _ _ hb2

theorem jsonrpcRequest_store_jsonrpc (f : String) (doc : Value) (r : JSONRPCRequest) :
    (JSONRPCRequest.store f doc r).1.JSONRPC
      = if f = "jsonrpc" then (storeString r.JSONRPC doc).1 else r.JSONRPC := by
  unfold JSONRPCRequest.store
  by_cases h1 : f = "jsonrpc"
  · simp [h1]
  · by_cases h2 : f = "id"
    · simp [h1, h2]
    · by_cases h3 : f = "method"
      · simp [h1, h2, h3]
      · by_cases h4 : f = "params" <;> simp [h1, h2, h3, h4]

theorem jsonrpcResponse_store_jsonrpc (f : String) (doc : Value) (r : JSONRPCResponse) :
    (JSONRPCResponse.store f doc r).1.JSONRPC
      = if f = "jsonrpc" then (storeString r.JSONRPC doc).1 else r.JSONRPC := by
  unfold JSONRPCResponse.store
  by_cases h1 : f = "jsonrpc"
  · simp [h1]
  · by_cases h2 : f = "id"
    · simp [h1, h2]
    · by_cases h3 : f = "result" <;> simp [h1, h2, h3]

theorem jsonrpcError_store_jsonrpc (f : String) (doc : Value) (r : JSONRPCError) :
    (JSONRPCError.store f doc r).1.JSONRPC
      = if f = "jsonrpc" then (storeString r.JSONRPC doc).1 else r.JSONRPC := by
  unfold JSONRPCError.store
  by_cases h1 : f = "jsonrpc"
  · simp [h1]
  · by_cases h2 : f = "id"
    · simp [h1, h2]
    · by_cases h3 : f = "error" <;> simp [h1, h2, h3]

/-- C11, as stated, fails on `{"jsonrpc":"1.0","id":1,"result":{}}` and on
`{"id":1,"result":{}}`: both are decoded without error as a `JSONRPCResponse`, the
first with `JSONRPC == "1.0"`, the second with `JSONRPC == ""`, neither being
`JSONRPC_VERSION`; the other three envelope types accept `"1.0"` as well. -/
theorem C11_counterexample :
    JSONRPCResponse.unmarshal JSONRPCResponse.zero
        (.text (.obj [("jsonrpc", .str "1.0"), ("id", .num 1), ("result", .obj [])]))
      = (⟨"1.0", .num 1, .obj []⟩, none)
    ∧ JSONRPCResponse.unmarshal JSONRPCResponse.zero
        (.text (.obj [("id", .num 1), ("result", .obj [])]))
      = (⟨"", .num 1, .obj []⟩, none)
    ∧ "1.0" ≠ JSONRPC_VERSION ∧ "" ≠ JSONRPC_VERSION
    ∧ JSONRPCRequest.unmarshal JSONRPCRequest.zero
        (.text (.obj [("jsonrpc", .str "1.0"), ("id", .num 1), ("method", .str "ping")]))
      = (⟨"1.0", .num 1, ⟨"ping", ⟨none⟩⟩⟩, none)
    ∧ JSONRPCNotification.unmarshal JSONRPCNotification.zero
        (.text (.obj [("jsonrpc", .str "1.0"), ("method", .str "ping")]))
      = (⟨"1.0", ⟨"ping", ⟨none, none⟩⟩⟩, none)
    ∧ JSONRPCError.unmarshal JSONRPCError.zero
        (.text (.obj [("jsonrpc", .str "1.0"), ("id", .num 1),
          ("error", .obj [("code", .num INVALID_REQUEST), ("message", .str "x")])]))
      = (⟨"1.0", .num 1, ⟨INVALID_REQUEST, "x", .null⟩⟩, none) := by
  decide

/-- C11, amended: the `jsonrpc` member is copied, not validated, and
`JSONRPC_VERSION` is not consulted by any decoder.  For every JSON object decoded
into `JSONRPCRequest`, `JSONRPCResponse` or `JSONRPCError`, and for every one
decoded without error into `JSONRPCNotification`: when the last member whose key
selects the field `jsonrpc` (the key `jsonrpc`, or one that `encoding/json`
matches to it by case folding) holds a string `v`, `JSONRPC == v` afterwards,
whatever `v` is.  For every JSON object in which no key selects the field,
`JSONRPC == ""` afterwards.  The only decode error the member causes is the type
error of `encoding/json`: an object with a member that selects the field and is
neither a string nor `null` is a decode error for all four types.  The envelopes
`{"jsonrpc":v,"method":m}` and `{"method":m}` are decoded without error as a
`JSONRPCRequest` and as a `JSONRPCNotification`, `{"jsonrpc":v}` and `{}` as a
`JSONRPCResponse` and as a `JSONRPCError`, with `JSONRPC == v` and `JSONRPC == ""`. -/
theorem C11_jsonrpc_not_validated :
    (∀ (pre post : GoMap Value) (k v : String),
        findField JSONRPCRequest.fields k = some "jsonrpc" →
        (∀ kv ∈ post, findField JSONRPCRequest.fields kv.1 ≠ some "jsonrpc") →
        (JSONRPCRequest.unmarshal JSONRPCRequest.zero
          (.text (.obj (pre ++ (k, .str v) :: post)))).1.JSONRPC = v)
    ∧ (∀ (pre post : GoMap Value) (k v : String),
        findField JSONRPCResponse.fields k = some "jsonrpc" →
        (∀ kv ∈ post, findField JSONRPCResponse.fields kv.1 ≠ some "jsonrpc") →
        (JSONRPCResponse.unmarshal JSONRPCResponse.zero
          (.text (.obj (pre ++ (k, .str v) :: post)))).1.JSONRPC = v)
    ∧ (∀ (pre post : GoMap Value) (k v : String),
        findField JSONRPCError.fields k = some "jsonrpc" →
        (∀ kv ∈ post, findField JSONRPCError.fields kv.1 ≠ some "jsonrpc") →
        (JSONRPCError.unmarshal JSONRPCError.zero
          (.text (.obj (pre ++ (k, .str v) :: post)))).1.JSONRPC = v)
    ∧ (∀ (pre post : GoMap Value) (k v : String),
        findField JSONRPCNotification.fields k = some "jsonrpc" →
        (∀ kv ∈ post, findField JSONRPCNotification.fields kv.1 ≠ some "jsonrpc") →
        (JSONRPCNotification.unmarshal JSONRPCNotification.zero
          (.text (.obj (pre ++ (k, .str v) :: post)))).2 = none →
        (JSONRPCNotification.unmarshal JSONRPCNotification.zero
          (.text (.obj (pre ++ (k, .str v) :: post)))).1.JSONRPC = v)
    ∧ (∀ kvs : GoMap Value,
        ((∀ kv ∈ kvs, findField JSONRPCRequest.fields kv.1 ≠ some "jsonrpc") →
          (JSONRPCRequest.unmarshal JSONRPCRequest.zero (.text (.obj kvs))).1.JSONRPC = "")
        ∧ ((∀ kv ∈ kvs, findField JSONRPCResponse.fields kv.1 ≠ some "jsonrpc") →
          (JSONRPCResponse.unmarshal JSONRPCResponse.zero (.text (.obj kvs))).1.JSONRPC = "")
        ∧ ((∀ kv ∈ kvs, findField JSONRPCError.fields kv.1 ≠ some "jsonrpc") →
          (JSONRPCError.unmarshal JSONRPCError.zero (.text (.obj kvs))).1.JSONRPC = "")
        ∧ ((∀ kv ∈ kvs, findField JSONRPCNotification.fields kv.1 ≠ some "jsonrpc") →
          (JSONRPCNotification.unmarshal JSONRPCNotification.zero
            (.text (.obj kvs))).1.JSONRPC = ""))
    ∧ (∀ kvs : GoMap Value,
        ((∃ kv ∈ kvs, findField JSONRPCRequest.fields kv.1 = some "jsonrpc"
            ∧ kv.2.isStrOrNull = false) →
          (JSONRPCRequest.unmarshal JSONRPCRequest.zero (.text (.obj kvs))).2 ≠ none)
        ∧ ((∃ kv ∈ kvs, findField JSONRPCResponse.fields kv.1 = some "jsonrpc"
            ∧ kv.2.isStrOrNull = false) →
          (JSONRPCResponse.unmarshal JSONRPCResponse.zero (.text (.obj kvs))).2 ≠ none)
        ∧ ((∃ kv ∈ kvs, findField JSONRPCError.fields kv.1 = some "jsonrpc"
            ∧ kv.2.isStrOrNull = false) →
          (JSONRPCError.unmarshal JSONRPCError.zero (.text (.obj kvs))).2 ≠ none)
        ∧ ((∃ kv ∈ kvs, findField JSONRPCNotification.fields kv.1 = some "jsonrpc"
            ∧ kv.2.isStrOrNull = false) →
          (JSONRPCNotification.unmarshal JSONRPCNotification.zero
            (.text (.obj kvs))).2 ≠ none))
    ∧ (∀ v m : String,
        JSONRPCRequest.unmarshal JSONRPCRequest.zero
            (.text (.obj [("jsonrpc", .str v), ("method", .str m)]))
          = (⟨v, .null, ⟨m, ⟨none⟩⟩⟩, none)
        ∧ JSONRPCNotification.unmarshal JSONRPCNotification.zero
            (.text (.obj [("jsonrpc", .str v), ("method", .str m)]))
          = (⟨v, ⟨m, ⟨none, none⟩⟩⟩, none)
        ∧ JSONRPCResponse.unmarshal JSONRPCResponse.zero (.text (.obj [("jsonrpc", .str v)]))
          = (⟨v, .null, .null⟩, none)
        ∧ JSONRPCError.unmarshal JSONRPCError.zero (.text (.obj [("jsonrpc", .str v)]))
          = (⟨v, .null, ⟨0, "", .null⟩⟩, none)
        ∧ JSONRPCRequest.unmarshal JSONRPCRequest.zero (.text (.obj [("method", .str m)]))
          = (⟨"", .null, ⟨m, ⟨none⟩⟩⟩, none)
        ∧ JSONRPCNotification.unmarshal JSONRPCNotification.zero
            (.text (.obj [("method", .str m)]))
          = (⟨"", ⟨m, ⟨none, none⟩⟩⟩, none)
        ∧ JSONRPCResponse.unmarshal JSONRPCResponse.zero (.text (.obj []))
          = (⟨"", .null, .null⟩, none)
        ∧ JSONRPCError.unmarshal JSONRPCError.zero (.text (.obj []))
          = (⟨"", .null, ⟨0, "", .null⟩⟩, none)) := by
  have q1 : findField JSONRPCRequest.fields "jsonrpc" = some "jsonrpc" := by decide
  have q3 : findField JSONRPCRequest.fields "method" = some "method" := by decide
  have n1 : findField JSONRPCNotification.fields "jsonrpc" = some "jsonrpc" := by decide
  have n2 : findField JSONRPCNotification.fields "method" = some "method" := by decide
  have r1 : findField JSONRPCResponse.fields "jsonrpc" = some "jsonrpc" := by decide
  have e1 : findField JSONRPCError.fields "jsonrpc" = some "jsonrpc" := by decide
  have pq := foldl_decodeStep_stringField JSONRPCRequest.fields JSONRPCRequest.store
    (fun r => r.JSONRPC) "jsonrpc" jsonrpcRequest_store_jsonrpc
  have pr := foldl_decodeStep_stringField JSONRPCResponse.fields JSONRPCResponse.store
    (fun r => r.JSONRPC) "jsonrpc" jsonrpcResponse_store_jsonrpc
  have pe := foldl_decodeStep_stringField JSONRPCError.fields JSONRPCError.store
    (fun r => r.JSONRPC) "jsonrpc" jsonrpcError_store_jsonrpc
  refine ⟨?_, ?_, ?_, ?_, ?_, ?_, ?_⟩
  · intro pre post k v hk hp
    have := pq (pre ++ (k, .str v) :: post) (JSONRPCRequest.zero, none)
    simp only [JSONRPCRequest.unmarshal, unmarshalStruct, decodeMembers]
    exact this.trans (stringField_last _ _ _ _ _ _ _ hk hp)
  · intro pre post k v hk hp
    have := pr (pre ++ (k, .str v) :: post) (JSONRPCResponse.zero, none)
    simp only [JSONRPCResponse.unmarshal, unmarshalStruct, decodeMembers]
    exact this.trans (stringField_last _ _ _ _ _ _ _ hk hp)
  · intro pre post k v hk hp
    have := pe (pre ++ (k, .str v) :: post) (JSONRPCError.zero, none)
    simp only [JSONRPCError.unmarshal, unmarshalStruct, decodeMembers]
    exact this.trans (stringField_last _ _ _ _ _ _ _ hk hp)
  · intro pre post k v hk hp hok
    simp only [JSONRPCNotification.unmarshal] at hok ⊢
    rw [jsonrpcNotification_members_stringField _ _ _ hok, stringField_last _ _ _ _ _ _ _ hk hp]
  · intro kvs
    refine ⟨?_, ?_, ?_, ?_⟩
    · intro h
      have := pq kvs (JSONRPCRequest.zero, none)
      simp only [JSONRPCRequest.unmarshal, unmarshalStruct, decodeMembers]
      exact this.trans (stringField_of_none _ _ _ _ h)
    · intro h
      have := pr kvs (JSONRPCResponse.zero, none)
      simp only [JSONRPCResponse.unmarshal, unmarshalStruct, decodeMembers]
      exact this.trans (stringField_of_none _ _ _ _ h)
    · intro h
      have := pe kvs (JSONRPCError.zero, none)
      simp only [JSONRPCError.unmarshal, unmarshalStruct, decodeMembers]
      exact this.trans (stringField_of_none _ _ _ _ h)
    · intro h
      simp only [JSONRPCNotification.unmarshal]
      rw [jsonrpcNotification_members_absent _ _ _ h]
      rfl
  · intro kvs
    refine ⟨?_, ?_, ?_, ?_⟩
    · intro h
      simp only [JSONRPCRequest.unmarshal, unmarshalStruct, decodeMembers]
      apply foldl_decodeStep_bad _ _ "jsonrpc" _ _ _ h
      intro doc s hd
      simpa [JSONRPCRequest.store] using storeString_bad s.JSONRPC doc hd
    · intro h
      simp only [JSONRPCResponse.unmarshal, unmarshalStruct, decodeMembers]
      apply foldl_decodeStep_bad _ _ "jsonrpc" _ _ _ h
      intro doc s hd
      simpa [JSONRPCResponse.store] using storeString_bad s.JSONRPC doc hd
    · intro h
      simp only [JSONRPCError.unmarshal, unmarshalStruct, decodeMembers]
      apply foldl_decodeStep_bad _ _ "jsonrpc" _ _ _ h
      intro doc s hd
      simpa [JSONRPCError.store] using storeString_bad s.JSONRPC doc hd
    · intro h
      simp only [JSONRPCNotification.unmarshal]
      exact jsonrpcNotification_members_bad _ _ _ h
  · intro v m
    refine ⟨?_, ?_, ?_, ?_, ?_, ?_, ?_, ?_⟩
    · simp [JSONRPCRequest.unmarshal, unmarshalStruct, decodeMembers, decodeStep, q1, q3,
        JSONRPCRequest.store, storeString, firstError, JSONRPCRequest.zero, Request.zero]
    · simp [JSONRPCNotification.unmarshal, JSONRPCNotification.members, n1, n2, storeString,
        firstError, JSONRPCNotification.zero, Notification.zero, NotificationParams.zero]
    · simp [JSONRPCResponse.unmarshal, unmarshalStruct, decodeMembers, decodeStep, r1,
        JSONRPCResponse.store, storeString, firstError, JSONRPCResponse.zero]
    · simp [JSONRPCError.unmarshal, unmarshalStruct, decodeMembers, decodeStep, e1,
        JSONRPCError.store, storeString, firstError, JSONRPCError.zero]
    · simp [JSONRPCRequest.unmarshal, unmarshalStruct, decodeMembers, decodeStep, q3,
        JSONRPCRequest.store, storeString, firstError, JSONRPCRequest.zero, Request.zero]
    · simp [JSONRPCNotification.unmarshal, JSONRPCNotification.members, n2, storeString,
        firstError, JSONRPCNotification.zero, Notification.zero, NotificationParams.zero]
    · rfl
    · rfl

/-- Witness of C11 on `{"id":1,"JSONRPC":"0.9","result":{},"jsonrpc":"1.0","x":2}`,
decoded as a `JSONRPCResponse`: the last member that selects the field holds
`"1.0"`, and the one before selects it by case folding -/
theorem C11_jsonrpc_not_validated_witness :
    findField JSONRPCResponse.fields "jsonrpc" = some "jsonrpc"
    ∧ findField JSONRPCResponse.fields "JSONRPC" = some "jsonrpc"
    ∧ (∀ kv ∈ [("x", Value.num 2)], findField JSONRPCResponse.fields kv.1 ≠ some "jsonrpc")
    ∧ (JSONRPCResponse.unmarshal JSONRPCResponse.zero
        (.text (.obj ([("id", .num 1), ("JSONRPC", .str "0.9"), ("result", .obj [])]
          ++ ("jsonrpc", .str "1.0") :: [("x", .num 2)])))).1.JSONRPC = "1.0"
    ∧ JSONRPCResponse.unmarshal JSONRPCResponse.zero
        (.text (.obj [("id", .num 1), ("JSONRPC", .str "0.9"), ("result", .obj []),
          ("jsonrpc", .str "1.0"), ("x", .num 2)]))
      = (⟨"1.0", .num 1, .obj []⟩, none) :=
  ⟨by decide, by decide, by decide,
    C11_jsonrpc_not_validated.2.1 [("id", .num 1), ("JSONRPC", .str "0.9"), ("result", .obj [])]
      [("x", .num 2)] "jsonrpc" "1.0" (by decide) (by decide),
    by decide⟩

/-! ## Resource contents on decode (C12) -/

/-- C12, as stated, fails on `{"uri":"file:///a","text":"hi","blob":"aGk="}` and on
`{"uri":"file:///a"}`: as elements of `ReadResourceResult.Contents` both are decoded
without error and kept as generic objects, and each is decoded without error both
as a `TextResourceContents` and as a `BlobResourceContents`, a missing member
leaving the empty string. -/
theorem C12_counterexample :
    ReadResourceResult.unmarshal ReadResourceResult.zero
        (.text (.obj [("contents", .arr [
          .obj [("uri", .str "file:///a"), ("text", .str "hi"), ("blob", .str "aGk=")],
          .obj [("uri", .str "file:///a")]])]))
      = (⟨⟨none⟩, some [
          .obj [("uri", .str "file:///a"), ("text", .str "hi"), ("blob", .str "aGk=")],
          .obj [("uri", .str "file:///a")]]⟩, none)
    ∧ TextResourceContents.unmarshal TextResourceContents.zero
        (.text (.obj [("uri", .str "file:///a"), ("text", .str "hi"), ("blob", .str "aGk=")]))
      = (⟨⟨"file:///a", ""⟩, "hi"⟩, none)
    ∧ BlobResourceContents.unmarshal BlobResourceContents.zero
        (.text (.obj [("uri", .str "file:///a"), ("text", .str "hi"), ("blob", .str "aGk=")]))
      = (⟨⟨"file:///a", ""⟩, "aGk="⟩, none)
    ∧ TextResourceContents.unmarshal TextResourceContents.zero
        (.text (.obj [("uri", .str "file:///a")]))
      = (⟨⟨"file:///a", ""⟩, ""⟩, none)
    ∧ BlobResourceContents.unmarshal BlobResourceContents.zero
        (.text (.obj [("uri", .str "file:///a")]))
      = (⟨⟨"file:///a", ""⟩, ""⟩, none) := by
  decide

/-- C12, amended: the code does not disambiguate resource contents.  Every array
`xs` is decoded as `ReadResourceResult.Contents` element by element, each element
stored as the generic decoder stores it, whatever members it carries; the only
error is the type error for a number outside the range of `float64`
(`{"contents":[1e400]}`), and the elements are stored all the same.  For all
strings `u`, `t`, `b` the elements `{"uri":u,"text":t,"blob":b}` and `{"uri":u}`
are stored as they are, without error.  Each of the objects `{"uri":u,"text":t}`,
`{"uri":u,"blob":b}`, `{"uri":u,"text":t,"blob":b}` and `{"uri":u}` is decoded
without error as a `TextResourceContents` and as a `BlobResourceContents`: a member
the type does not declare is skipped, and a missing `text` or `blob` leaves the
empty string. -/
theorem C12_contents_not_disambiguated (xs : List Value) (u t b : String) :
    ReadResourceResult.unmarshal ReadResourceResult.zero (.text (.obj [("contents", .arr xs)]))
      = (⟨⟨none⟩, some (xs.map Value.decoded)⟩,
          if Value.inRangeList xs = true then none else some .UnmarshalTypeError)
    ∧ ReadResourceResult.unmarshal ReadResourceResult.zero
        (.text (.obj [("contents", .arr [
          .obj [("uri", .str u), ("text", .str t), ("blob", .str b)],
          .obj [("uri", .str u)]])]))
      = (⟨⟨none⟩, some [
          .obj [("uri", .str u), ("text", .str t), ("blob", .str b)],
          .obj [("uri", .str u)]]⟩, none)
    ∧ ReadResourceResult.unmarshal ReadResourceResult.zero
        (.text (.obj [("contents", .arr [.num (10 ^ 400)])]))
      = (⟨⟨none⟩, some [.null]⟩, some .UnmarshalTypeError)
    ∧ (TextResourceContents.unmarshal TextResourceContents.zero
          (.text (.obj [("uri", .str u), ("text", .str t)])) = (⟨⟨u, ""⟩, t⟩, none)
      ∧ BlobResourceContents.unmarshal BlobResourceContents.zero
          (.text (.obj [("uri", .str u), ("text", .str t)])) = (⟨⟨u, ""⟩, ""⟩, none))
    ∧ (TextResourceContents.unmarshal TextResourceContents.zero
          (.text (.obj [("uri", .str u), ("blob", .str b)])) = (⟨⟨u, ""⟩, ""⟩, none)
      ∧ BlobResourceContents.unmarshal BlobResourceContents.zero
          (.text (.obj [("uri", .str u), ("blob", .str b)])) = (⟨⟨u, ""⟩, b⟩, none))
    ∧ (TextResourceContents.unmarshal TextResourceContents.zero
          (.text (.obj [("uri", .str u), ("text", .str t), ("blob", .str b)]))
        = (⟨⟨u, ""⟩, t⟩, none)
      ∧ BlobResourceContents.unmarshal BlobResourceContents.zero
          (.text (.obj [("uri", .str u), ("text", .str t), ("blob", .str b)]))
        = (⟨⟨u, ""⟩, b⟩, none))
    ∧ (TextResourceContents.unmarshal TextResourceContents.zero (.text (.obj [("uri", .str u)]))
        = (⟨⟨u, ""⟩, ""⟩, none)
      ∧ BlobResourceContents.unmarshal BlobResourceContents.zero
          (.text (.obj [("uri", .str u)])) = (⟨⟨u, ""⟩, ""⟩, none)) := by
  have c1 : findField ReadResourceResult.fields "contents" = some "contents" := by decide
  have t1 : findField TextResourceContents.fields "uri" = some "uri" := by decide
  have t2 : findField TextResourceContents.fields "text" = some "text" := by decide
  have t3 : findField TextResourceContents.fields "blob" = none := by decide
  have b1 : findField BlobResourceContents.fields "uri" = some "uri" := by decide
  have b2 : findField BlobResourceContents.fields "text" = none := by decide
  have b3 : findField BlobResourceContents.fields "blob" = some "blob" := by decide
  have hgen : ∀ ys : List Value,
      ReadResourceResult.unmarshal ReadResourceResult.zero
          (.text (.obj [("contents", .arr ys)]))
        = (⟨⟨none⟩, some (ys.map Value.decoded)⟩,
            if Value.inRangeList ys = true then none else some .UnmarshalTypeError) := by
    intro ys
    simp [ReadResourceResult.unmarshal, unmarshalStruct, decodeMembers, decodeStep, c1,
      ReadResourceResult.store, storeInterfaceSlice, firstError, ReadResourceResult.zero,
      storeInterfaces_nil, toGoList_fst, toGoList_snd]
  refine ⟨hgen xs, ?_, by set_option maxRecDepth 100000 in decide, ⟨?_, ?_⟩, ⟨?_, ?_⟩, ⟨?_, ?_⟩, ⟨?_, ?_⟩⟩
  · rw [hgen]
    simp [Value.decoded, toGo, toGoMembers, mapSet, Value.inRangeList, Value.inRange,
      Value.inRangeMembers]
  all_goals
    simp [TextResourceContents.unmarshal, BlobResourceContents.unmarshal, unmarshalStruct,
      decodeMembers, decodeStep, t1, t2, t3, b1, b2, b3, TextResourceContents.store,
      BlobResourceContents.store, storeString, firstError, TextResourceContents.zero,
      BlobResourceContents.zero]

/-! ## Content of an unknown type (C13) -/

/-- C13, as stated, fails on the content `{"type":"video","n":9007199254740993}`:
decoding it in `SamplingMessage.Content` succeeds, but the value stored has
`9007199254740992` under `n`, and re-encoding yields
`{"type":"video","n":9007199254740992}`, which is not the input; the content
`{"type":"video","n":1e400}` makes the decoding fail. -/
theorem C13_counterexample :
    SamplingMessage.unmarshal SamplingMessage.zero
        (.text (.obj [("role", .str "user"),
          ("content", .obj [("type", .str "video"), ("n", .num 9007199254740993)])]))
      = (⟨"user", .obj [("type", .str "video"), ("n", .num 9007199254740992)]⟩, none)
    ∧ SamplingMessage.marshal
        ⟨"user", .obj [("type", .str "video"), ("n", .num 9007199254740992)]⟩
      = (.text (.obj [("role", .str "user"),
          ("content", .obj [("type", .str "video"), ("n", .num 9007199254740992)])]), none)
    ∧ Value.obj [("type", .str "video"), ("n", .num 9007199254740992)]
      ≠ Value.obj [("type", .str "video"), ("n", .num 9007199254740993)]
    ∧ (SamplingMessage.unmarshal SamplingMessage.zero
        (.text (.obj [("role", .str "user"),
          ("content", .obj [("type", .str "video"), ("n", .num (10 ^ 400))])]))).2
      = some .UnmarshalTypeError := by
  set_option maxRecDepth 100000 in decide

/-- C13, amended: for every content object `kvs`, whatever its `type`, and every
role, decoding the sampling message `{"role":role,"content":kvs}` stores in
`Content` the object as the generic decoder stores it: a map that has exactly the
keys of `kvs` and holds under each the stored value of the last member with that
key; nothing is dropped and the `type` is not looked at.  The decoding fails, with
a type error, exactly when `kvs` holds a number outside the range of `float64`.
Encoding a message writes `Content` as it is.  So when decoding leaves `kvs` as it
is (numbers that are `float64` values, no repeated keys), decoding then encoding
`{"role":role,"content":kvs}` yields the same document; so it is for
`{"type":"video","data":"xyz"}`. -/
theorem C13_unknown_content_kept (role : String) (kvs : GoMap Value) :
    SamplingMessage.unmarshal SamplingMessage.zero
        (.text (.obj [("role", .str role), ("content", .obj kvs)]))
      = (⟨role, (Value.obj kvs).decoded⟩,
          if Value.inRangeMembers kvs = true then none else some .UnmarshalTypeError)
    ∧ (∃ m, (Value.obj kvs).decoded = .obj m ∧ (mapKeys m).Nodup
        ∧ (∀ k, k ∈ mapKeys m ↔ k ∈ mapKeys kvs)
        ∧ ∀ k, mapGet m k = (lastValue kvs k).map Value.decoded)
    ∧ (∀ c, SamplingMessage.marshal ⟨role, c⟩
        = (.text (.obj [("role", .str role), ("content", c)]), none))
    ∧ (toGo (.obj kvs) = (.obj kvs, none) →
        SamplingMessage.unmarshal SamplingMessage.zero
            (.text (.obj [("role", .str role), ("content", .obj kvs)]))
          = (⟨role, .obj kvs⟩, none)
        ∧ SamplingMessage.marshal ⟨role, .obj kvs⟩
          = (.text (.obj [("role", .str role), ("content", .obj kvs)]), none))
    ∧ (SamplingMessage.unmarshal SamplingMessage.zero
          (.text (.obj [("role", .str "user"),
            ("content", .obj [("type", .str "video"), ("data", .str "xyz")])]))
        = (⟨"user", .obj [("type", .str "video"), ("data", .str "xyz")]⟩, none)
      ∧ SamplingMessage.marshal ⟨"user", .obj [("type", .str "video"), ("data", .str "xyz")]⟩
        = (.text (.obj [("role", .str "user"),
            ("content", .obj [("type", .str "video"), ("data", .str "xyz")])]), none)) := by
  have h1 : findField SamplingMessage.fields "role" = some "role" := by decide
  have h2 : findField SamplingMessage.fields "content" = some "content" := by decide
  have hgen : SamplingMessage.unmarshal SamplingMessage.zero
        (.text (.obj [("role", .str role), ("content", .obj kvs)]))
      = (⟨role, (Value.obj kvs).decoded⟩,
          if Value.inRangeMembers kvs = true then none else some .UnmarshalTypeError) := by
    have hs : storeInterface .null (.obj kvs)
        = ((Value.obj kvs).decoded,
            if Value.inRangeMembers kvs = true then none else some .UnmarshalTypeError) := by
      rw [storeInterface_null]
      apply Prod.ext
      · rfl
      · rw [toGo_snd]
        rfl
    simp [SamplingMessage.unmarshal, unmarshalStruct, decodeMembers, decodeStep, h1, h2,
      SamplingMessage.store, storeString, hs, firstError, SamplingMessage.zero]
  refine ⟨hgen, decoded_obj kvs, fun _ => rfl, ?_, by decide⟩
  intro hs
  refine ⟨?_, rfl⟩
  rw [hgen]
  have h3 : (Value.obj kvs).decoded = .obj kvs := by
    simp [Value.decoded, hs]
  have h4 := toGo_snd (.obj kvs)
  rw [hs] at h4
  simp only [Value.inRange] at h4
  have h5 : Value.inRangeMembers kvs = true := by
    by_contra hc
    simp [hc] at h4
  simp [h3, h5]

/-- Witness of C13 on the content `{"type":"video","data":"xyz"}`, which decoding
leaves as it is -/
theorem C13_unknown_content_kept_witness :
    toGo (.obj [("type", .str "video"), ("data", .str "xyz")])
      = (.obj [("type", .str "video"), ("data", .str "xyz")], none)
    ∧ SamplingMessage.unmarshal SamplingMessage.zero
        (.text (.obj [("role", .str "user"),
          ("content", .obj [("type", .str "video"), ("data", .str "xyz")])]))
      = (⟨"user", .obj [("type", .str "video"), ("data", .str "xyz")]⟩, none)
    ∧ SamplingMessage.marshal ⟨"user", .obj [("type", .str "video"), ("data", .str "xyz")]⟩
      = (.text (.obj [("role", .str "user"),
          ("content", .obj [("type", .str "video"), ("data", .str "xyz")])]), none) :=
  ⟨by decide,
    (C13_unknown_content_kept "user" [("type", .str "video"), ("data", .str "xyz")]).2.2.2.1
      (by decide)⟩

/-! ## Required fields of the known content variants (C14) -/

/-- C14, as stated, fails on `{"type":"text"}` and on `{"type":"image"}`: the first
is decoded without error as a `TextContent` whose `Text` is the empty string, the
second as an `ImageContent` whose `Data` and `MIMEType` are empty strings. -/
theorem C14_counterexample :
    TextContent.unmarshal TextContent.zero (.text (.obj [("type", .str "text")]))
      = (⟨⟨none⟩, "text", ""⟩, none)
    ∧ ImageContent.unmarshal ImageContent.zero (.text (.obj [("type", .str "image")]))
      = (⟨⟨none⟩, "image", "", ""⟩, none) := by
  decide

/-- C14, amended: decoding a content object as `TextContent` or `ImageContent`
requires no member and does not look at the value of `type`.  For every string
`t`, the object `{"type":t}` is decoded without error as a `TextContent` with an
empty `Text` and as an `ImageContent` with empty `Data` and `MIMEType`; members
that are present and are strings are stored.  What is rejected, with the type error
of `encoding/json`, is a member `text` (resp. `data`, `mimeType`) whose value is
neither a string nor `null`. -/
theorem C14_no_required_fields (t txt d mime : String) (bad : Value)
    (hb : bad.isStrOrNull = false) :
    (TextContent.unmarshal TextContent.zero (.text (.obj [("type", .str t)]))
        = (⟨⟨none⟩, t, ""⟩, none)
      ∧ ImageContent.unmarshal ImageContent.zero (.text (.obj [("type", .str t)]))
        = (⟨⟨none⟩, t, "", ""⟩, none))
    ∧ (TextContent.unmarshal TextContent.zero
          (.text (.obj [("type", .str t), ("text", .str txt)]))
        = (⟨⟨none⟩, t, txt⟩, none)
      ∧ ImageContent.unmarshal ImageContent.zero
          (.text (.obj [("type", .str t), ("data", .str d), ("mimeType", .str mime)]))
        = (⟨⟨none⟩, t, d, mime⟩, none))
    ∧ (TextContent.unmarshal TextContent.zero (.text (.obj [("type", .str t), ("text", bad)]))
        = (⟨⟨none⟩, t, ""⟩, some .UnmarshalTypeError)
      ∧ ImageContent.unmarshal ImageContent.zero
          (.text (.obj [("type", .str t), ("data", bad), ("mimeType", .str mime)]))
        = (⟨⟨none⟩, t, "", mime⟩, some .UnmarshalTypeError)
      ∧ ImageContent.unmarshal ImageContent.zero
          (.text (.obj [("type", .str t), ("data", .str d), ("mimeType", bad)]))
        = (⟨⟨none⟩, t, d, ""⟩, some .UnmarshalTypeError)) := by
  have t1 : findField TextContent.fields "type" = some "type" := by decide
  have t2 : findField TextContent.fields "text" = some "text" := by decide
  have i1 : findField ImageContent.fields "type" = some "type" := by decide
  have i2 : findField ImageContent.fields "data" = some "data" := by decide
  have i3 : findField ImageContent.fields "mimeType" = some "mimeType" := by decide
  have hs : storeString "" bad = ("", some .UnmarshalTypeError) := by
    cases bad <;> simp [Value.isStrOrNull] at hb <;> rfl
  refine ⟨⟨?_, ?_⟩, ⟨?_, ?_⟩, ⟨?_, ?_, ?_⟩⟩
  · simp [TextContent.unmarshal, unmarshalStruct, decodeMembers, decodeStep, t1, t2,
      TextContent.store, storeString, firstError, TextContent.zero]
  · simp [ImageContent.unmarshal, unmarshalStruct, decodeMembers, decodeStep, i1, i2, i3,
      ImageContent.store, storeString, firstError, ImageContent.zero]
  · simp [TextContent.unmarshal, unmarshalStruct, decodeMembers, decodeStep, t1, t2,
      TextContent.store, storeString, firstError, TextContent.zero]
  · simp [ImageContent.unmarshal, unmarshalStruct, decodeMembers, decodeStep, i1, i2, i3,
      ImageContent.store, storeString, firstError, ImageContent.zero]
  · simp [TextContent.unmarshal, unmarshalStruct, decodeMembers, decodeStep, t1, t2,
      TextContent.store, hs, firstError, TextContent.zero]
    simp [storeString]
  · simp [ImageContent.unmarshal, unmarshalStruct, decodeMembers, decodeStep, i1, i2, i3,
      ImageContent.store, hs, firstError, ImageContent.zero]
    simp [storeString]
  · simp [ImageContent.unmarshal, unmarshalStruct, decodeMembers, decodeStep, i1, i2, i3,
      ImageContent.store, hs, firstError, ImageContent.zero]
    simp [storeString]

/-- Witness of C14 on the type `text`, the text `hi`, the data `aGk=`, the MIME type
`image/png` and the wrongly typed value `1` -/
theorem C14_no_required_fields_witness :
    (Value.num 1).isStrOrNull = false
    ∧ (TextContent.unmarshal TextContent.zero (.text (.obj [("type", .str "text")]))
        = (⟨⟨none⟩, "text", ""⟩, none)
      ∧ ImageContent.unmarshal ImageContent.zero (.text (.obj [("type", .str "text")]))
        = (⟨⟨none⟩, "text", "", ""⟩, none))
    ∧ (TextContent.unmarshal TextContent.zero
          (.text (.obj [("type", .str "text"), ("text", .str "hi")]))
        = (⟨⟨none⟩, "text", "hi"⟩, none)
      ∧ ImageContent.unmarshal ImageContent.zero
          (.text (.obj [("type", .str "text"), ("data", .str "aGk="),
            ("mimeType", .str "image/png")]))
        = (⟨⟨none⟩, "text", "aGk=", "image/png"⟩, none))
    ∧ (TextContent.unmarshal TextContent.zero
          (.text (.obj [("type", .str "text"), ("text", .num 1)]))
        = (⟨⟨none⟩, "text", ""⟩, some .UnmarshalTypeError)
      ∧ ImageContent.unmarshal ImageContent.zero
          (.text (.obj [("type", .str "text"), ("data", .num 1),
            ("mimeType", .str "image/png")]))
        = (⟨⟨none⟩, "text", "", "image/png"⟩, some .UnmarshalTypeError)
      ∧ ImageContent.unmarshal ImageContent.zero
          (.text (.obj [("type", .str "text"), ("data", .str "aGk="), ("mimeType", .num 1)]))
        = (⟨⟨none⟩, "text", "aGk=", ""⟩, some .UnmarshalTypeError)) :=
  ⟨by decide, C14_no_required_fields "text" "hi" "aGk=" "image/png" (.num 1) (by decide)⟩

/-! ## Malformed input (C15) -/

/-- C15, as stated, fails on a buffer that is not valid JSON, such as `{not json`:
`UnmarshalJSON` fails, and what it reports is the syntax error of `encoding/json`,
an error value that carries no JSON-RPC code; it is not `PARSE_ERROR`. -/
theorem C15_counterexample :
    decode .malformed = (NotificationParams.zero, some JSONError.SyntaxError) := by
  decide

/-- C15, amended: for every receiver and every byte input that is not valid JSON,
`NotificationParams.UnmarshalJSON` fails; the failure reported to the caller is the
syntax error returned by `json.Unmarshal`, passed on as it is, and the receiver is
left as it was.  The code does not turn it into `PARSE_ERROR`. -/
theorem C15_malformed_input (p : NotificationParams) :
    p.UnmarshalJSON .malformed = (p, some JSONError.SyntaxError) := by
  rfl

/-! ## The `id` member on encode (C16) -/

/-- C16: for every `JSONRPCNotification` value the encoding succeeds and the
encoded object has no key `id`; for every `JSONRPCRequest` value the encoding
succeeds and the encoded object has the key `id`. -/
theorem C16_id_on_encode (n : JSONRPCNotification) (r : JSONRPCRequest) :
    (∃ out, n.marshal = (.text (.obj out), none) ∧ "id" ∉ mapKeys out)
    ∧ (∃ out, r.marshal = (.text (.obj out), none) ∧ "id" ∈ mapKeys out
        ∧ mapGet out "id" = some r.ID) := by
  refine ⟨⟨_, rfl, ?_⟩, ⟨_, rfl, ?_, ?_⟩⟩
  · simp [mapKeys]
  · simp [mapKeys]
  · simp [mapGet]

/-! ## `result` and `error` on encode (C17) -/

/-- C17: for every `JSONRPCResponse` value the encoding succeeds and the encoded
object has the key `result` and no key `error`; for every `JSONRPCError` value the
encoding succeeds and the encoded object has the key `error` and no key `result`. -/
theorem C17_result_xor_error (r : JSONRPCResponse) (e : JSONRPCError) :
    (∃ out, r.marshal = (.text (.obj out), none)
        ∧ "result" ∈ mapKeys out ∧ "error" ∉ mapKeys out)
    ∧ (∃ out, e.marshal = (.text (.obj out), none)
        ∧ "error" ∈ mapKeys out ∧ "result" ∉ mapKeys out) := by
  refine ⟨⟨_, rfl, ?_, ?_⟩, ⟨_, rfl, ?_, ?_⟩⟩ <;> simp [mapKeys]

/-! ## Presence of a sub-capability (C18) -/

/-- C18: for every `ServerCapabilities` and `ClientCapabilities` value, the encoded
object has the key of a named sub-capability (`logging`, `prompts`, `resources`,
`tools`; `roots`, `sampling`) exactly when that sub-capability is present (its
pointer is non-nil) in the value.  A sub-capability given as the empty object is
decoded as present with every flag false, and that value is encoded with the
sub-capability as the empty object again. -/
theorem C18_sub_capability_presence (s : ServerCapabilities) (c : ClientCapabilities) :
    (("logging" ∈ mapKeys s.encode ↔ s.Logging ≠ none)
      ∧ ("prompts" ∈ mapKeys s.encode ↔ s.Prompts ≠ none)
      ∧ ("resources" ∈ mapKeys s.encode ↔ s.Resources ≠ none)
      ∧ ("tools" ∈ mapKeys s.encode ↔ s.Tools ≠ none)
      ∧ s.marshal = (.text (.obj s.encode), none))
    ∧ (("roots" ∈ mapKeys c.encode ↔ c.Roots ≠ none)
      ∧ ("sampling" ∈ mapKeys c.encode ↔ c.Sampling ≠ none)
      ∧ c.marshal = (.text (.obj c.encode), none))
    ∧ (ServerCapabilities.unmarshal ServerCapabilities.zero (.text (.obj [("logging", .obj [])]))
        = (⟨none, some (), none, none, none⟩, none)
      ∧ ServerCapabilities.marshal ⟨none, some (), none, none, none⟩
        = (.text (.obj [("logging", .obj [])]), none)
      ∧ ServerCapabilities.unmarshal ServerCapabilities.zero
          (.text (.obj [("prompts", .obj [])]))
        = (⟨none, none, some ⟨false⟩, none, none⟩, none)
      ∧ ServerCapabilities.marshal ⟨none, none, some ⟨false⟩, none, none⟩
        = (.text (.obj [("prompts", .obj [])]), none)
      ∧ ServerCapabilities.unmarshal ServerCapabilities.zero
          (.text (.obj [("resources", .obj [])]))
        = (⟨none, none, none, some ⟨false, false⟩, none⟩, none)
      ∧ ServerCapabilities.marshal ⟨none, none, none, some ⟨false, false⟩, none⟩
        = (.text (.obj [("resources", .obj [])]), none)
      ∧ ServerCapabilities.unmarshal ServerCapabilities.zero (.text (.obj [("tools", .obj [])]))
        = (⟨none, none, none, none, some ⟨false⟩⟩, none)
      ∧ ServerCapabilities.marshal ⟨none, none, none, none, some ⟨false⟩⟩
        = (.text (.obj [("tools", .obj [])]), none))
    ∧ (ClientCapabilities.unmarshal ClientCapabilities.zero (.text (.obj [("roots", .obj [])]))
        = (⟨none, some ⟨false⟩, none⟩, none)
      ∧ ClientCapabilities.marshal ⟨none, some ⟨false⟩, none⟩
        = (.text (.obj [("roots", .obj [])]), none)
      ∧ ClientCapabilities.unmarshal ClientCapabilities.zero
          (.text (.obj [("sampling", .obj [])]))
        = (⟨none, none, some ()⟩, none)
      ∧ ClientCapabilities.marshal ⟨none, none, some ()⟩
        = (.text (.obj [("sampling", .obj [])]), none)) := by
  refine ⟨?_, ?_, by decide, by decide⟩
  · obtain ⟨e, l, p, r, t⟩ := s
    rcases e with _ | _ | ⟨x, xs⟩ <;> cases l <;> cases p <;> cases r <;> cases t <;>
      simp [ServerCapabilities.encode, ServerCapabilities.marshal, encodeExperimental,
        encodePointer, mapKeys]
  · obtain ⟨e, r, t⟩ := c
    rcases e with _ | _ | ⟨x, xs⟩ <;> cases r <;> cases t <;>
      simp [ClientCapabilities.encode, ClientCapabilities.marshal, encodeExperimental,
        encodePointer, mapKeys]

/-! ## The error codes (C19) -/

/-- C19: the error-code constants have the documented values, `PARSE_ERROR` =
-32700, `INVALID_REQUEST` = -32600, `METHOD_NOT_FOUND` = -32601, `INVALID_PARAMS` =
-32602, `INTERNAL_ERROR` = -32603, and are pairwise distinct. -/
theorem C19_error_codes :
    PARSE_ERROR = -32700 ∧ INVALID_REQUEST = -32600 ∧ METHOD_NOT_FOUND = -32601
    ∧ INVALID_PARAMS = -32602 ∧ INTERNAL_ERROR = -32603
    ∧ [PARSE_ERROR, INVALID_REQUEST, METHOD_NOT_FOUND, INVALID_PARAMS, INTERNAL_ERROR].Nodup := by
  decide

/-! ## A `_meta` member that is not an object (C20) -/

/-- C20, as stated, fails on `{"_meta":1e400}`, an object whose `_meta` member is
a number: decoding it into a fresh value does not succeed, it returns a type
error and leaves the zero value; so does `{"_meta":"x","n":1e400}`. -/
theorem C20_counterexample :
    decode (.text (.obj [("_meta", .num (10 ^ 400))]))
      = (⟨none, none⟩, some .UnmarshalTypeError)
    ∧ decode (.text (.obj [("_meta", .str "x"), ("n", .num (10 ^ 400))]))
      = (⟨none, none⟩, some .UnmarshalTypeError) := by
  set_option maxRecDepth 100000 in decide

/-- C20, amended: for every JSON object `o` whose `_meta` member (the last one)
holds a value that is not an object: when the numbers of `o` are within the range
of `float64`, decoding `o` into a fresh value succeeds, leaves `Meta` the empty
non-nil mapping, and gives `AdditionalFields` the members of `o` other than
`_meta` only, as the generic decoder stores them: it has no key `_meta`, so the
value is in neither part; when `o` holds a number out of range, decoding fails
with a type error. -/
theorem C20_non_object_meta_lost (kvs : GoMap Value) (v : Value)
    (hv : lastValue kvs "_meta" = some v) (hn : ∀ m, v ≠ .obj m) :
    (Value.inRangeMembers kvs = false →
        decode (.text (.obj kvs)) = (⟨none, none⟩, some .UnmarshalTypeError))
    ∧ (Value.inRangeMembers kvs = true →
        ∃ fields, decode (.text (.obj kvs)) = (⟨some [], some fields⟩, none)
          ∧ "_meta" ∉ mapKeys fields
          ∧ mapGet fields "_meta" = none
          ∧ (∀ k, k ∈ mapKeys fields ↔ k ≠ "_meta" ∧ k ∈ mapKeys kvs)
          ∧ (∀ k, k ≠ "_meta" → mapGet fields k = (lastValue kvs k).map Value.decoded)) := by
  refine ⟨decode_obj_err kvs, fun hr => ?_⟩
  have hm : metaOf (toGoMembers kvs []).1 [] = [] := by
    rw [metaOf_toGoMembers, hv]
    cases v with
    | obj m => exact absurd rfl (hn m)
    | _ => rfl
  refine ⟨withoutMeta (toGoMembers kvs []).1, ?_, not_mem_mapKeys_withoutMeta _, ?_, ?_, ?_⟩
  · rw [decode_obj kvs hr, hm]
  · exact (mapGet_eq_none_iff _ _).2 (not_mem_mapKeys_withoutMeta _)
  · intro k
    rw [mem_mapKeys_withoutMeta, mem_mapKeys_toGoMembers]
    simp [mapKeys]
  · intro k hk
    simp [mapGet_withoutMeta, hk, mapGet_toGoMembers]

/-- Witness of C20 on `{"_meta":"x","foo":1}` -/
theorem C20_non_object_meta_lost_witness :
    lastValue [("_meta", Value.str "x"), ("foo", Value.num 1)] "_meta" = some (.str "x")
    ∧ (∀ m, Value.str "x" ≠ .obj m)
    ∧ decode (.text (.obj [("_meta", .str "x"), ("foo", .num 1)]))
        = (⟨some [], some [("foo", .num 1)]⟩, none)
    ∧ ∃ fields, decode (.text (.obj [("_meta", .str "x"), ("foo", .num 1)]))
          = (⟨some [], some fields⟩, none)
      ∧ "_meta" ∉ mapKeys fields
      ∧ mapGet fields "_meta" = none
      ∧ (∀ k, k ∈ mapKeys fields
          ↔ k ≠ "_meta" ∧ k ∈ mapKeys [("_meta", Value.str "x"), ("foo", Value.num 1)])
      ∧ (∀ k, k ≠ "_meta" →
          mapGet fields k
            = (lastValue [("_meta", Value.str "x"), ("foo", Value.num 1)] k).map
                Value.decoded) :=
  ⟨by decide, fun m h => Value.noConfusion h, by decide,
    (C20_non_object_meta_lost [("_meta", .str "x"), ("foo", .num 1)] (.str "x") (by decide)
      (fun m h => Value.noConfusion h)).2 (by decide)⟩

/-! ## Failure leaves the receiver as it was (C21) -/

/-- C21: for every receiver and every input on which
`NotificationParams.UnmarshalJSON` returns an error, the receiver after the call is
the receiver before the call, `Meta` and `AdditionalFields` included; and the
inputs on which it returns an error are the buffers that are not valid JSON, the
JSON documents that are neither an object nor `null`, and the objects that hold a
number outside the range of `float64`. -/
theorem C21_failure_keeps_receiver (p : NotificationParams) (data : Bytes)
    (h : (p.UnmarshalJSON data).2 ≠ none) :
    (p.UnmarshalJSON data).1 = p
    ∧ (p.UnmarshalJSON data).1.Meta = p.Meta
    ∧ (p.UnmarshalJSON data).1.AdditionalFields = p.AdditionalFields
    ∧ (data = .malformed
        ∨ (∃ doc, data = .text doc ∧ doc ≠ .null ∧ ∀ kvs, doc ≠ .obj kvs)
        ∨ ∃ kvs, data = .text (.obj kvs) ∧ Value.inRangeMembers kvs = false) := by
  have key : (p.UnmarshalJSON data).1 = p
      ∧ (data = .malformed
        ∨ (∃ doc, data = .text doc ∧ doc ≠ .null ∧ ∀ kvs, doc ≠ .obj kvs)
        ∨ ∃ kvs, data = .text (.obj kvs) ∧ Value.inRangeMembers kvs = false) := by
    cases data with
    | malformed => exact ⟨rfl, Or.inl rfl⟩
    | text doc =>
      cases doc with
      | null => exact absurd rfl h
      | obj kvs =>
        cases hr : Value.inRangeMembers kvs with
        | true =>
          rw [unmarshal_obj p kvs hr] at h
          exact absurd rfl h
        | false =>
          rw [unmarshal_obj_err p kvs hr]
          exact ⟨rfl, Or.inr (Or.inr ⟨kvs, rfl, hr⟩)⟩
      | bool b => exact ⟨rfl, Or.inr (Or.inl ⟨_, rfl, by simp, by simp⟩)⟩
      | num n => exact ⟨rfl, Or.inr (Or.inl ⟨_, rfl, by simp, by simp⟩)⟩
      | str t => exact ⟨rfl, Or.inr (Or.inl ⟨_, rfl, by simp, by simp⟩)⟩
      | arr xs => exact ⟨rfl, Or.inr (Or.inl ⟨_, rfl, by simp, by simp⟩)⟩
  refine ⟨key.1, ?_, ?_, key.2⟩
  · rw [key.1]
  · rw [key.1]

/-- Witness of C21 on the receiver `({"progressToken":"abc"}, {"foo":1})` and the
input `{"a":1,"n":1e400}`, an object that holds a number out of range -/
theorem C21_failure_keeps_receiver_witness :
    (NotificationParams.UnmarshalJSON
        ⟨some [("progressToken", .str "abc")], some [("foo", .num 1)]⟩
        (.text (.obj [("a", .num 1), ("n", .num (10 ^ 400))]))).2 ≠ none
    ∧ (NotificationParams.UnmarshalJSON
          ⟨some [("progressToken", .str "abc")], some [("foo", .num 1)]⟩
          (.text (.obj [("a", .num 1), ("n", .num (10 ^ 400))]))).1
        = ⟨some [("progressToken", .str "abc")], some [("foo", .num 1)]⟩
    ∧ (NotificationParams.UnmarshalJSON
          ⟨some [("progressToken", .str "abc")], some [("foo", .num 1)]⟩
          (.text (.arr [.num 1]))).1
        = ⟨some [("progressToken", .str "abc")], some [("foo", .num 1)]⟩
    ∧ (NotificationParams.UnmarshalJSON
          ⟨some [("progressToken", .str "abc")], some [("foo", .num 1)]⟩ .malformed).1
        = ⟨some [("progressToken", .str "abc")], some [("foo", .num 1)]⟩ :=
  ⟨by set_option maxRecDepth 100000 in decide,
    (C21_failure_keeps_receiver ⟨some [("progressToken", .str "abc")], some [("foo", .num 1)]⟩
      (.text (.obj [("a", .num 1), ("n", .num (10 ^ 400))]))
      (by set_option maxRecDepth 100000 in decide)).1,
    (C21_failure_keeps_receiver ⟨some [("progressToken", .str "abc")], some [("foo", .num 1)]⟩
      (.text (.arr [.num 1])) (by decide)).1,
    (C21_failure_keeps_receiver ⟨some [("progressToken", .str "abc")], some [("foo", .num 1)]⟩
      .malformed (by decide)).1⟩

/-! ## Decoding into a populated receiver merges (C22) -/

/-- C22: for every receiver, with additional fields `A0` and reserved mapping `M0`,
and every JSON object `o` on which `NotificationParams.UnmarshalJSON` succeeds,
afterwards `AdditionalFields` is `A0` overlaid with the members of `o` other than
`_meta` (a key of `o` holds the value of `o`, of its last member with that key, as
the generic decoder stores it, which is the value itself whenever decoding leaves
it as it is; any other key holds what `A0` held, and no key is added besides those
of `o`), and `Meta` is the `_meta` object of `o`, as stored, when `o`
has one and `M0` otherwise (the empty mapping when `M0` is nil).  The call
succeeds exactly when the numbers of `o` are within the range of `float64`. -/
theorem C22_decode_merges (p : NotificationParams) (kvs : GoMap Value)
    (h : (p.UnmarshalJSON (.text (.obj kvs))).2 = none) :
    Value.inRangeMembers kvs = true
    ∧ ∃ meta fields, p.UnmarshalJSON (.text (.obj kvs)) = (⟨some meta, some fields⟩, none)
      ∧ (∀ k v, k ≠ "_meta" → lastValue kvs k = some v → mapGet fields k = some v.decoded)
      ∧ (∀ k v, k ≠ "_meta" → lastValue kvs k = some v → v.decoded = v →
          mapGet fields k = some v)
      ∧ (∀ k, k ≠ "_meta" → lastValue kvs k = none →
          mapGet fields k = mapGet (p.AdditionalFields.getD []) k)
      ∧ mapGet fields "_meta" = mapGet (p.AdditionalFields.getD []) "_meta"
      ∧ (∀ k, k ∈ mapKeys fields
          ↔ k ∈ mapKeys (p.AdditionalFields.getD []) ∨ (k ≠ "_meta" ∧ k ∈ mapKeys kvs))
      ∧ (∀ m, lastValue kvs "_meta" = some (.obj m) → Value.obj meta = (Value.obj m).decoded)
      ∧ ((∀ m, lastValue kvs "_meta" ≠ some (.obj m)) → meta = p.Meta.getD []) := by
  have hr : Value.inRangeMembers kvs = true := by
    by_contra hc
    rw [unmarshal_obj_err p kvs (by simpa using hc)] at h
    simp at h
  have hg : GoodMap (toGoMembers kvs []).1 := goodMap_toGoMembers kvs [] goodMap_nil
  have hw : (mapKeys (withoutMeta (toGoMembers kvs []).1)).Nodup :=
    nodup_mapKeys_withoutMeta _ hg.1
  refine ⟨hr, _, _, unmarshal_obj p kvs hr, ?_, ?_, ?_, ?_, ?_, ?_, ?_⟩
  · intro k v hk hv
    rw [foldl_mapSet_get _ _ _ hw, mapGet_withoutMeta]
    simp [hk, mapGet_toGoMembers, hv]
  · intro k v hk hv hd
    rw [foldl_mapSet_get _ _ _ hw, mapGet_withoutMeta]
    simp [hk, mapGet_toGoMembers, hv, hd]
  · intro k hk hv
    rw [foldl_mapSet_get _ _ _ hw, mapGet_withoutMeta]
    simp [hk, mapGet_toGoMembers, hv]
  · rw [foldl_mapSet_get _ _ _ hw, mapGet_withoutMeta]
    simp
  · intro k
    rw [foldl_mapSet_mem, mem_mapKeys_withoutMeta, mem_mapKeys_toGoMembers]
    simp [mapKeys]
  · intro m hm
    rw [metaOf_toGoMembers, hm]
    rfl
  · intro hm
    rw [metaOf_toGoMembers]
    cases hl : lastValue kvs "_meta" with
    | none => rfl
    | some v =>
      cases v with
      | obj m => exact absurd hl (hm m)
      | _ => rfl

/-- Witness of C22 on the receiver `({"t":1}, {"a":1,"b":2})` and the object
`{"b":3,"c":4}` -/
theorem C22_decode_merges_witness :
    (NotificationParams.UnmarshalJSON
        ⟨some [("t", .num 1)], some [("a", .num 1), ("b", .num 2)]⟩
        (.text (.obj [("b", .num 3), ("c", .num 4)]))).2 = none
    ∧ NotificationParams.UnmarshalJSON
        ⟨some [("t", .num 1)], some [("a", .num 1), ("b", .num 2)]⟩
        (.text (.obj [("b", .num 3), ("c", .num 4)]))
      = (⟨some [("t", .num 1)], some [("a", .num 1), ("b", .num 3), ("c", .num 4)]⟩, none)
    ∧ ∃ meta fields,
        NotificationParams.UnmarshalJSON
            ⟨some [("t", .num 1)], some [("a", .num 1), ("b", .num 2)]⟩
            (.text (.obj [("b", .num 3), ("c", .num 4)]))
          = (⟨some meta, some fields⟩, none)
      ∧ (∀ k v, k ≠ "_meta" → lastValue [("b", Value.num 3), ("c", Value.num 4)] k = some v →
          mapGet fields k = some v.decoded)
      ∧ (∀ k v, k ≠ "_meta" → lastValue [("b", Value.num 3), ("c", Value.num 4)] k = some v →
          v.decoded = v → mapGet fields k = some v)
      ∧ (∀ k, k ≠ "_meta" → lastValue [("b", Value.num 3), ("c", Value.num 4)] k = none →
          mapGet fields k = mapGet [("a", Value.num 1), ("b", Value.num 2)] k)
      ∧ mapGet fields "_meta" = mapGet [("a", Value.num 1), ("b", Value.num 2)] "_meta"
      ∧ (∀ k, k ∈ mapKeys fields
          ↔ k ∈ mapKeys [("a", Value.num 1), ("b", Value.num 2)]
            ∨ (k ≠ "_meta" ∧ k ∈ mapKeys [("b", Value.num 3), ("c", Value.num 4)]))
      ∧ (∀ m, lastValue [("b", Value.num 3), ("c", Value.num 4)] "_meta" = some (.obj m) →
          Value.obj meta = (Value.obj m).decoded)
      ∧ ((∀ m, lastValue [("b", Value.num 3), ("c", Value.num 4)] "_meta" ≠ some (.obj m)) →
          meta = [("t", .num 1)]) :=
  ⟨by decide, by decide,
    (C22_decode_merges ⟨some [("t", .num 1)], some [("a", .num 1), ("b", .num 2)]⟩
      [("b", .num 3), ("c", .num 4)] (by decide)).2⟩

/-! ## After a successful decode into a fresh value (C23) -/

/-- C23: for every input on which `NotificationParams.UnmarshalJSON` into a fresh
value succeeds, `Meta` and `AdditionalFields` are non-nil mappings afterwards and
`AdditionalFields` has distinct keys, none equal to `_meta`; on `null` and on the
empty object both mappings are empty and non-nil. -/
theorem C23_post_decode_invariant (data : Bytes) (h : (decode data).2 = none) :
    (∃ meta fields, (decode data).1 = ⟨some meta, some fields⟩
        ∧ "_meta" ∉ mapKeys fields ∧ (mapKeys fields).Nodup)
    ∧ decode (.text .null) = (⟨some [], some []⟩, none)
    ∧ decode (.text (.obj [])) = (⟨some [], some []⟩, none) := by
  refine ⟨?_, rfl, rfl⟩
  cases data with
  | malformed => exact absurd h (by decide)
  | text doc =>
    cases doc with
    | null => exact ⟨[], [], rfl, by simp [mapKeys], by simp [mapKeys]⟩
    | obj kvs =>
      have hn : (mapKeys (toGoMembers kvs []).1).Nodup :=
        (goodMap_toGoMembers kvs [] goodMap_nil).1
      have hr : Value.inRangeMembers kvs = true := by
        by_contra hc
        rw [decode_obj_err kvs (by simpa using hc)] at h
        exact absurd h (by decide)
      refine ⟨metaOf (toGoMembers kvs []).1 [], withoutMeta (toGoMembers kvs []).1, ?_,
        not_mem_mapKeys_withoutMeta _, nodup_mapKeys_withoutMeta _ hn⟩
      rw [decode_obj kvs hr]
    | bool b => exact absurd h (by simp [decode, NotificationParams.UnmarshalJSON,
        jsonUnmarshalMap])
    | num n => exact absurd h (by simp [decode, NotificationParams.UnmarshalJSON,
        jsonUnmarshalMap])
    | str t => exact absurd h (by simp [decode, NotificationParams.UnmarshalJSON,
        jsonUnmarshalMap])
    | arr xs => exact absurd h (by simp [decode, NotificationParams.UnmarshalJSON,
        jsonUnmarshalMap])

/-- Witness of C23 on `{"_meta":{"progressToken":"abc"},"foo":1,"bar":[1,2,3]}` -/
theorem C23_post_decode_invariant_witness :
    (decode (.text (.obj sampleParams))).2 = none
    ∧ (∃ meta fields, (decode (.text (.obj sampleParams))).1 = ⟨some meta, some fields⟩
        ∧ "_meta" ∉ mapKeys fields ∧ (mapKeys fields).Nodup)
    ∧ decode (.text .null) = (⟨some [], some []⟩, none)
    ∧ decode (.text (.obj [])) = (⟨some [], some []⟩, none) :=
  ⟨by decide, C23_post_decode_invariant (.text (.obj sampleParams)) (by decide)⟩

/-! ## Typed requests and the reserved metadata (C24) -/

/-- A part of a struct that no field decoding changes is left as it was by the
member loop -/
theorem foldl_decodeStep_preserves {σ τ : Type} (proj : σ → τ) (fields : List String)
    (store : String → Value → σ → σ × Option JSONError)
    (hs : ∀ f doc v, proj (store f doc v).1 = proj v) (kvs : GoMap Value)
    (s : σ × Option JSONError) :
    proj (kvs.foldl (decodeStep fields store) s).1 = proj s.1 := by
  induction kvs generalizing s with
  | nil => rfl
  | cons e rest ih =>
    simp only [List.foldl_cons]
    rw [ih]
    cases hf : findField fields e.1 with
    | none => simp [decodeStep, hf]
    | some f => simp [decodeStep, hf, hs]

/-- Decoding into a struct leaves alone every part that no field decoding
changes -/
theorem unmarshalStruct_preserves {σ τ : Type} (proj : σ → τ) (fields : List String)
    (store : String → Value → σ → σ × Option JSONError)
    (hs : ∀ f doc v, proj (store f doc v).1 = proj v) (v : σ) (data : Bytes) :
    proj (unmarshalStruct (decodeMembers fields store) v data).1 = proj v := by
  cases data with
  | malformed => rfl
  | text doc =>
    cases doc with
    | obj kvs => exact foldl_decodeStep_preserves proj fields store hs kvs (v, none)
    | _ => rfl

theorem initializeRequest_store_keeps (f : String) (doc : Value) (r : InitializeRequest) :
    (InitializeRequest.store f doc r).1.Request.Params = r.Request.Params := by
  unfold InitializeRequest.store
  by_cases h1 : f = "method"
  · simp [h1]
  · by_cases h2 : f = "params"
    · simp [h2]
    · simp [h1, h2]

theorem paginatedRequest_store_keeps (f : String) (doc : Value) (r : PaginatedRequest) :
    (PaginatedRequest.store f doc r).1.Request.Params = r.Request.Params := by
  unfold PaginatedRequest.store
  by_cases h1 : f = "method"
  · simp [h1]
  · by_cases h2 : f = "params"
    · simp [h2]
    · simp [h1, h2]

theorem readResourceRequest_store_keeps (f : String) (doc : Value) (r : ReadResourceRequest) :
    (ReadResourceRequest.store f doc r).1.Request.Params = r.Request.Params := by
  unfold ReadResourceRequest.store
  by_cases h1 : f = "method"
  · simp [h1]
  · by_cases h2 : f = "params"
    · simp [h2]
    · simp [h1, h2]

theorem subscribeRequest_store_keeps (f : String) (doc : Value) (r : SubscribeRequest) :
    (SubscribeRequest.store f doc r).1.Request.Params = r.Request.Params := by
  unfold SubscribeRequest.store
  by_cases h1 : f = "method"
  · simp [h1]
  · by_cases h2 : f = "params"
    · simp [h2]
    · simp [h1, h2]

theorem unsubscribeRequest_store_keeps (f : String) (doc : Value) (r : UnsubscribeRequest) :
    (UnsubscribeRequest.store f doc r).1.Request.Params = r.Request.Params := by
  unfold UnsubscribeRequest.store
  by_cases h1 : f = "method"
  · simp [h1]
  · by_cases h2 : f = "params"
    · simp [h2]
    · simp [h1, h2]

theorem setLevelRequest_store_keeps (f : String) (doc : Value) (r : SetLevelRequest) :
    (SetLevelRequest.store f doc r).1.Request.Params = r.Request.Params := by
  unfold SetLevelRequest.store
  by_cases h1 : f = "method"
  · simp [h1]
  · by_cases h2 : f = "params"
    · simp [h2]
    · simp [h1, h2]

theorem createMessageRequest_store_keeps (f : String) (doc : Value) (r : CreateMessageRequest) :
    (CreateMessageRequest.store f doc r).1.Request.Params = r.Request.Params := by
  unfold CreateMessageRequest.store
  by_cases h1 : f = "method"
  · simp [h1]
  · by_cases h2 : f = "params"
    · simp [h2]
    · simp [h1, h2]

theorem completeRequest_store_keeps (f : String) (doc : Value) (r : CompleteRequest) :
    (CompleteRequest.store f doc r).1.Request.Params = r.Request.Params := by
  unfold CompleteRequest.store
  by_cases h1 : f = "method"
  · simp [h1]
  · by_cases h2 : f = "params"
    · simp [h2]
    · simp [h1, h2]

theorem mem_mapKeys_encodeMap (name : String) (m : Option (GoMap Value)) (k : String)
    (h : k ∈ mapKeys (encodeMap name m)) : k = name := by
  rcases m with _ | _ | ⟨x, xs⟩ <;> simp [encodeMap, mapKeys] at h
  exact h

/-- C24: for every value of each of the eight request types that embed `Request`
and declare their own `Params` under the key `params` (`InitializeRequest`,
`PaginatedRequest`, `ReadResourceRequest`, `SubscribeRequest`, `UnsubscribeRequest`,
`SetLevelRequest`, `CreateMessageRequest`, `CompleteRequest`), the encoding succeeds
and is `{"method":m,"params":params}`, where `params` is the object written from
the fields of the `Params` of the struct itself, spelled out here field by field:
it has neither the key `_meta` nor the key `progressToken`, and the encoding is the
same whatever the embedded `Request.Params` (its `Meta` included) holds.  For every
receiver and every input, decoding leaves the embedded `Request.Params` as it was;
decoded into a fresh value, a request whose `params` carry
`"_meta":{"progressToken":"abc"}` next to members of its own fills the `Params` of
the struct and leaves `Request.Params.Meta` nil. -/
theorem C24_typed_requests_shadow_meta (r1 : InitializeRequest) (r2 : PaginatedRequest) (r3 : ReadResourceRequest) (r4 : SubscribeRequest) (r5 : UnsubscribeRequest) (r6 : SetLevelRequest) (r7 : CreateMessageRequest) (r8 : CompleteRequest)
    (rp : RequestParams) (data : Bytes) :
    ((∃ params, r1.marshal
          = (.text (.obj [("method", .str r1.Request.Method), ("params", .obj params)]), none)
        ∧ params = [("protocolVersion", .str r1.Params.ProtocolVersion),
            ("capabilities", .obj r1.Params.Capabilities.encode),
            ("clientInfo", .obj [("name", .str r1.Params.ClientInfo.Name),
              ("version", .str r1.Params.ClientInfo.Version)])]
        ∧ "_meta" ∉ mapKeys params ∧ "progressToken" ∉ mapKeys params)
      ∧ InitializeRequest.marshal ⟨⟨r1.Request.Method, rp⟩, r1.Params⟩ = r1.marshal
      ∧ (InitializeRequest.unmarshal r1 data).1.Request.Params = r1.Request.Params
      ∧ InitializeRequest.unmarshal InitializeRequest.zero
            (.text sampleInitialize)
          = (⟨⟨"initialize", ⟨none⟩⟩, ⟨"2024-11-05", ClientCapabilities.zero, ⟨"", ""⟩⟩⟩, none))
    ∧ ((∃ params, r2.marshal
          = (.text (.obj [("method", .str r2.Request.Method), ("params", .obj params)]), none)
        ∧ params = (if r2.Params.Cursor = "" then [] else [("cursor", .str r2.Params.Cursor)])
        ∧ "_meta" ∉ mapKeys params ∧ "progressToken" ∉ mapKeys params)
      ∧ PaginatedRequest.marshal ⟨⟨r2.Request.Method, rp⟩, r2.Params⟩ = r2.marshal
      ∧ (PaginatedRequest.unmarshal r2 data).1.Request.Params = r2.Request.Params
      ∧ PaginatedRequest.unmarshal ⟨Request.zero, PaginatedRequestParams.zero⟩
            (.text (.obj [("method", .str "resources/list"),
              ("params", .obj [("_meta", .obj [("progressToken", .str "abc")]), ("cursor", .str "c1")])]))
          = (⟨⟨"resources/list", ⟨none⟩⟩, ⟨"c1"⟩⟩, none))
    ∧ ((∃ params, r3.marshal
          = (.text (.obj [("method", .str r3.Request.Method), ("params", .obj params)]), none)
        ∧ params = [("uri", Value.str r3.Params.URI)]
            ++ (match r3.Params.Arguments with
              | some (e :: rest) => [("arguments", Value.obj (e :: rest))]
              | _ => [])
        ∧ "_meta" ∉ mapKeys params ∧ "progressToken" ∉ mapKeys params)
      ∧ ReadResourceRequest.marshal ⟨⟨r3.Request.Method, rp⟩, r3.Params⟩ = r3.marshal
      ∧ (ReadResourceRequest.unmarshal r3 data).1.Request.Params = r3.Request.Params
      ∧ ReadResourceRequest.unmarshal ReadResourceRequest.zero
            (.text sampleReadResource)
          = (⟨⟨"resources/read", ⟨none⟩⟩, ⟨"file:///a", none⟩⟩, none))
    ∧ ((∃ params, r4.marshal
          = (.text (.obj [("method", .str r4.Request.Method), ("params", .obj params)]), none)
        ∧ params = [("uri", .str r4.Params.URI)]
        ∧ "_meta" ∉ mapKeys params ∧ "progressToken" ∉ mapKeys params)
      ∧ SubscribeRequest.marshal ⟨⟨r4.Request.Method, rp⟩, r4.Params⟩ = r4.marshal
      ∧ (SubscribeRequest.unmarshal r4 data).1.Request.Params = r4.Request.Params
      ∧ SubscribeRequest.unmarshal ⟨Request.zero, SubscribeRequestParams.zero⟩
            (.text (.obj [("method", .str "resources/subscribe"),
              ("params", .obj [("_meta", .obj [("progressToken", .str "abc")]), ("uri", .str "file:///a")])]))
          = (⟨⟨"resources/subscribe", ⟨none⟩⟩, ⟨"file:///a"⟩⟩, none))
    ∧ ((∃ params, r5.marshal
          = (.text (.obj [("method", .str r5.Request.Method), ("params", .obj params)]), none)
        ∧ params = [("uri", .str r5.Params.URI)]
        ∧ "_meta" ∉ mapKeys params ∧ "progressToken" ∉ mapKeys params)
      ∧ UnsubscribeRequest.marshal ⟨⟨r5.Request.Method, rp⟩, r5.Params⟩ = r5.marshal
      ∧ (UnsubscribeRequest.unmarshal r5 data).1.Request.Params = r5.Request.Params
      ∧ UnsubscribeRequest.unmarshal ⟨Request.zero, UnsubscribeRequestParams.zero⟩
            (.text (.obj [("method", .str "resources/unsubscribe"),
              ("params", .obj [("_meta", .obj [("progressToken", .str "abc")]), ("uri", .str "file:///a")])]))
          = (⟨⟨"resources/unsubscribe", ⟨none⟩⟩, ⟨"file:///a"⟩⟩, none))
    ∧ ((∃ params, r6.marshal
          = (.text (.obj [("method", .str r6.Request.Method), ("params", .obj params)]), none)
        ∧ params = [("level", .str r6.Params.Level)]
        ∧ "_meta" ∉ mapKeys params ∧ "progressToken" ∉ mapKeys params)
      ∧ SetLevelRequest.marshal ⟨⟨r6.Request.Method, rp⟩, r6.Params⟩ = r6.marshal
      ∧ (SetLevelRequest.unmarshal r6 data).1.Request.Params = r6.Request.Params
      ∧ SetLevelRequest.unmarshal ⟨Request.zero, SetLevelRequestParams.zero⟩
            (.text (.obj [("method", .str "logging/setLevel"),
              ("params", .obj [("_meta", .obj [("progressToken", .str "abc")]), ("level", .str "info")])]))
          = (⟨⟨"logging/setLevel", ⟨none⟩⟩, ⟨"info"⟩⟩, none))
    ∧ ((∃ params, r7.marshal
          = (.text (.obj [("method", .str r7.Request.Method), ("params", .obj params)]), none)
        ∧ params = [("messages", match r7.Params.Messages with
              | some ms => Value.arr (ms.map
                  (fun m => Value.obj [("role", .str m.Role), ("content", m.Content)]))
              | none => Value.null)]
            ++ (match r7.Params.ModelPreferences with
              | some mp => [("modelPreferences", mp.encode)]
              | none => [])
            ++ (if r7.Params.SystemPrompt = "" then []
              else [("systemPrompt", .str r7.Params.SystemPrompt)])
            ++ (if r7.Params.IncludeContext = "" then []
              else [("includeContext", .str r7.Params.IncludeContext)])
            ++ (if r7.Params.Temperature = 0 then []
              else [("temperature", .num r7.Params.Temperature)])
            ++ [("maxTokens", .num r7.Params.MaxTokens)]
            ++ (match r7.Params.StopSequences with
              | some (s :: ss) => [("stopSequences", Value.arr ((s :: ss).map Value.str))]
              | _ => [])
            ++ (if r7.Params.Metadata = .null then [] else [("metadata", r7.Params.Metadata)])
        ∧ "_meta" ∉ mapKeys params ∧ "progressToken" ∉ mapKeys params)
      ∧ CreateMessageRequest.marshal ⟨⟨r7.Request.Method, rp⟩, r7.Params⟩ = r7.marshal
      ∧ (CreateMessageRequest.unmarshal r7 data).1.Request.Params = r7.Request.Params
      ∧ CreateMessageRequest.unmarshal ⟨Request.zero, CreateMessageRequestParams.zero⟩
            (.text (.obj [("method", .str "sampling/createMessage"),
              ("params", .obj [("_meta", .obj [("progressToken", .str "abc")]),
                ("messages", .arr [.obj [("role", .str "user"), ("content", .str "hi")]]),
                ("maxTokens", .num 100)])]))
          = (⟨⟨"sampling/createMessage", ⟨none⟩⟩,
              ⟨some [⟨"user", .str "hi"⟩], none, "", "", 0, 100, none, .null⟩⟩, none))
    ∧ ((∃ params, r8.marshal
          = (.text (.obj [("method", .str r8.Request.Method), ("params", .obj params)]), none)
        ∧ params = [("ref", r8.Params.Ref),
            ("argument", .obj [("name", .str r8.Params.Argument.Name),
              ("value", .str r8.Params.Argument.Value_)])]
        ∧ "_meta" ∉ mapKeys params ∧ "progressToken" ∉ mapKeys params)
      ∧ CompleteRequest.marshal ⟨⟨r8.Request.Method, rp⟩, r8.Params⟩ = r8.marshal
      ∧ (CompleteRequest.unmarshal r8 data).1.Request.Params = r8.Request.Params
      ∧ CompleteRequest.unmarshal ⟨Request.zero, CompleteRequestParams.zero⟩
            (.text (.obj [("method", .str "completion/complete"),
              ("params", .obj [("_meta", .obj [("progressToken", .str "abc")]), ("ref", .str "r"),
                ("argument", .obj [("name", .str "a"), ("value", .str "v")])])]))
          = (⟨⟨"completion/complete", ⟨none⟩⟩, ⟨.str "r", ⟨"a", "v"⟩⟩⟩, none)) := by
  refine ⟨⟨⟨_, rfl, rfl, ?_, ?_⟩, rfl, ?_, by decide⟩,
    ⟨⟨_, rfl, rfl, ?_, ?_⟩, rfl, ?_, by decide⟩,
    ⟨⟨_, rfl, rfl, ?_, ?_⟩, rfl, ?_, by decide⟩,
    ⟨⟨_, rfl, rfl, ?_, ?_⟩, rfl, ?_, by decide⟩,
    ⟨⟨_, rfl, rfl, ?_, ?_⟩, rfl, ?_, by decide⟩,
    ⟨⟨_, rfl, rfl, ?_, ?_⟩, rfl, ?_, by decide⟩,
    ⟨⟨_, rfl, ?_, ?_, ?_⟩, rfl, ?_, by decide⟩,
    ⟨⟨_, rfl, rfl, ?_, ?_⟩, rfl, ?_, by decide⟩⟩
  · simp [InitializeRequestParams.encode, mapKeys]
  · simp [InitializeRequestParams.encode, mapKeys]
  · exact unmarshalStruct_preserves (fun x : InitializeRequest => x.Request.Params) _ _
      initializeRequest_store_keeps r1 data
  · by_cases h : r2.Params.Cursor = "" <;>
      simp [PaginatedRequestParams.encode, encodeString, mapKeys, h]
  · by_cases h : r2.Params.Cursor = "" <;>
      simp [PaginatedRequestParams.encode, encodeString, mapKeys, h]
  · exact unmarshalStruct_preserves (fun x : PaginatedRequest => x.Request.Params) _ _
      paginatedRequest_store_keeps r2 data
  · intro hc
    simp only [ReadResourceRequestParams.encode, mapKeys, List.map_append, List.map_cons,
      List.map_nil, List.mem_append, List.mem_singleton] at hc
    rcases hc with hc | hc
    · exact absurd hc (by decide)
    · exact absurd (mem_mapKeys_encodeMap _ _ _ hc) (by decide)
  · intro hc
    simp only [ReadResourceRequestParams.encode, mapKeys, List.map_append, List.map_cons,
      List.map_nil, List.mem_append, List.mem_singleton] at hc
    rcases hc with hc | hc
    · exact absurd hc (by decide)
    · exact absurd (mem_mapKeys_encodeMap _ _ _ hc) (by decide)
  · exact unmarshalStruct_preserves (fun x : ReadResourceRequest => x.Request.Params) _ _
      readResourceRequest_store_keeps r3 data
  · simp [SubscribeRequestParams.encode, mapKeys]
  · simp [SubscribeRequestParams.encode, mapKeys]
  · exact unmarshalStruct_preserves (fun x : SubscribeRequest => x.Request.Params) _ _
      subscribeRequest_store_keeps r4 data
  · simp [UnsubscribeRequestParams.encode, mapKeys]
  · simp [UnsubscribeRequestParams.encode, mapKeys]
  · exact unmarshalStruct_preserves (fun x : UnsubscribeRequest => x.Request.Params) _ _
      unsubscribeRequest_store_keeps r5 data
  · simp [SetLevelRequestParams.encode, mapKeys]
  · simp [SetLevelRequestParams.encode, mapKeys]
  · exact unmarshalStruct_preserves (fun x : SetLevelRequest => x.Request.Params) _ _
      setLevelRequest_store_keeps r6 data
  · obtain ⟨req, ⟨ms, mp, sp, ic, t, mt, ss, md⟩⟩ := r7
    rcases ms with _ | ms <;> rcases mp with _ | mp <;> rcases ss with _ | _ | ⟨s, ss⟩ <;> rfl
  · obtain ⟨req, ⟨ms, mp, sp, ic, t, mt, ss, md⟩⟩ := r7
    rcases mp with _ | mp <;> rcases ss with _ | _ | ⟨s, ss⟩ <;> by_cases h1 : sp = "" <;>
      by_cases h2 : ic = "" <;> by_cases h3 : t = 0 <;> by_cases h4 : md = .null <;>
      simp [CreateMessageRequestParams.encode, encodePointer, encodeString, encodeFloat64,
        mapKeys, h1, h2, h3, h4]
  · obtain ⟨req, ⟨ms, mp, sp, ic, t, mt, ss, md⟩⟩ := r7
    rcases mp with _ | mp <;> rcases ss with _ | _ | ⟨s, ss⟩ <;> by_cases h1 : sp = "" <;>
      by_cases h2 : ic = "" <;> by_cases h3 : t = 0 <;> by_cases h4 : md = .null <;>
      simp [CreateMessageRequestParams.encode, encodePointer, encodeString, encodeFloat64,
        mapKeys, h1, h2, h3, h4]
  · exact unmarshalStruct_preserves (fun x : CreateMessageRequest => x.Request.Params) _ _
      createMessageRequest_store_keeps r7 data
  · simp [CompleteRequestParams.encode, mapKeys]
  · simp [CompleteRequestParams.encode, mapKeys]
  · exact unmarshalStruct_preserves (fun x : CompleteRequest => x.Request.Params) _ _
      completeRequest_store_keeps r8 data

end MCP
